import Mathlib

/-!
JOS-on-Arm: physical page allocator and two-level page tables.

A shallow embedding of `kern/pmap.c` and `inc/mmu.h`.

* Machine words are natural numbers; every value stored in a 32-bit object
  goes through `u32`, the 16-bit reference counter through `u16`.
* `struct PageInfo *` is the index of the descriptor in `pages[]`
  (`Option Nat`, `none` being `NULL`); `pte_t *` is the kernel virtual
  address of the word it points to (`0` being `NULL`).
* A page directory (`pde_t pgdir[4096]`, such as `kern_pgdir` and
  `entry_pgdir`) is an array object of its own, named by a number; the words
  of second-level tables live in `mem`, addressed by kernel virtual address.
* `panic` never returns to its caller; a run that panics ends in
  `Result.panic`, carrying the state in which the panic was raised.
* A loop (`page_init`, `mem_init`, `boot_map_region`) is a function with
  fuel, one unit for each pass; its result is `none` when the fuel is spent
  before the loop is over, and the theorems give the fuel that finishes it.
-/

namespace JOS

/-! ## Constants and macros of `inc/mmu.h` -/

def PGSIZE : Nat := 4096
def PGSHIFT : Nat := 12
def NPDENTRIES : Nat := 4096
def NPTENTRIES : Nat := 256
def PTSIZE : Nat := PGSIZE * NPTENTRIES
def PTSHIFT : Nat := 20
def PTXSHIFT : Nat := 12
def PDXSHIFT : Nat := 20

def PDE_RDONLY : Nat := 1 <<< 9
def PDE_APX : Nat := 1 <<< 15
def PDE_NONE_ALL : Nat := 0
def PDE_NONE_U : Nat := 1 <<< 10
def PDE_R_U : Nat := 2 <<< 10
def PDE_RW_U : Nat := 3 <<< 10
def PDE_ENTRY_1M : Nat := 0x2
def PDE_ENTRY_16M : Nat := 0x2 ||| (1 <<< 18)
def PDE_ENTRY : Nat := 0x1
def PDE_P : Nat := 0x3

def PTE_APX : Nat := 1 <<< 9
def PTE_NONE_ALL : Nat := 0
def PTE_NONE_U : Nat := 1 <<< 4
def PTE_R_U : Nat := 2 <<< 4
def PTE_RW_U : Nat := 3 <<< 4
def PTE_ENTRY_SMALL : Nat := 0x2
def PTE_ENTRY_LARGE : Nat := 0x1
def PTE_P : Nat := 0x3

/-- The value a C expression has once it is stored in a 32-bit unsigned object
(`uintptr_t`, `physaddr_t`, `pte_t`, `pde_t`, a pointer). -/
def u32 (x : Nat) : Nat := x % 4294967296

/-- The value a C expression has once it is stored in a `uint16_t`. -/
def u16 (x : Nat) : Nat := x % 65536

/-- The value of `--x` for a `uint16_t` object `x`: one less, and 65535 when
`x` is 0. -/
def dec16 (x : Nat) : Nat := if u16 x = 0 then 65535 else u16 x - 1

/-- Macro `PGNUM(la)`: `((uintptr_t) (la)) >> PTXSHIFT`. -/
def PGNUM (la : Nat) : Nat := u32 la >>> PTXSHIFT

/-- Macro `PDX(la)`: `((uintptr_t) (la)) >> PDXSHIFT`. -/
def PDX (la : Nat) : Nat := u32 la >>> PDXSHIFT

/-- Macro `PTX(la)`: `(((uintptr_t) (la)) >> PTXSHIFT) & 0xFF`. -/
def PTX (la : Nat) : Nat := (u32 la >>> PTXSHIFT) &&& 0xFF

/-- Macro `PGOFF(la)`: `((uintptr_t) (la)) & 0xFFF`. -/
def PGOFF (la : Nat) : Nat := u32 la &&& 0xFFF

/-- Macro `PDE_ADDR(pde)`: `(physaddr_t) (pde) & ~0x3FF`. -/
def PDE_ADDR (pde : Nat) : Nat := u32 pde &&& 0xFFFFFC00

/-- Macro `PTE_SMALL_ADDR(pte)`: `(physaddr_t) (pte) & ~0xFFF`. -/
def PTE_SMALL_ADDR (pte : Nat) : Nat := u32 pte &&& 0xFFFFF000

/-- Macro `PTE_LARGE_ADDR(pte)`: `(physaddr_t) (pte) & ~0xFFFF`. -/
def PTE_LARGE_ADDR (pte : Nat) : Nat := u32 pte &&& 0xFFFF0000

/-! ## Constants of `kern/pmap.c` -/

def TOTAL_PHYS_MEM : Nat := 256 * 1024 * 1024
def NPAGES : Nat := TOTAL_PHYS_MEM / PGSIZE
def npages : Nat := NPAGES

/-! ## Declarations of headers that are not among the sources -/

/-- Modelled from the spec: `inc/memlayout.h` is not among the sources. The
spec calls `KERNBASE` the high-half base at which all physical RAM is aliased;
`entry_pgdir` aliases physical 0 at directory index `0xf00`, which is
`PDX(0xF0000000)`. -/
def KERNBASE : Nat := 0xF0000000

/-- Modelled from the spec: the typedef of `pte_t` is not among the sources.
The spec makes a second-level entry a 32-bit word, 256 of them filling 1024
bytes, so `sizeof(pte_t)` is 4. -/
def sizeof_pte_t : Nat := 4

/-- Modelled from the spec: the flag constants of `kern/pmap.h` are not among
the sources. The spec gives `alloc` a single `zero` flag; it is taken to be
bit 0 of `alloc_flags`. -/
def ALLOC_ZERO : Nat := 1

/-- Modelled from the spec: `inc/error.h` is not among the sources. `insert`
reports `NoMemory` as the negated error code `-E_NO_MEM`, which the self-check
only requires to be negative; the code is taken to be 4. -/
def E_NO_MEM : Nat := 4

/-- Modelled from the spec: `KADDR` of `kern/pmap.h` is not among the sources.
The spec has `kadd(pa) = pa + KERNBASE` and makes a present directory entry
whose physical address lies outside RAM a fatal walker violation, so `KADDR`
panics (`none`) on a physical address that belongs to no frame. -/
def KADDR (pa : Nat) : Option Nat :=
  if PGNUM pa < npages then some (u32 (u32 pa + KERNBASE)) else none

/-- Modelled from the spec: `PADDR` of `kern/pmap.h` is not among the sources.
The spec has `padd(va) = va - KERNBASE` with the precondition
`va >= KERNBASE`, whose violation is fatal (`none`). -/
def PADDR (kva : Nat) : Option Nat :=
  if u32 kva < KERNBASE then none else some (u32 kva - KERNBASE)

/-- Modelled from the spec: `page2pa` of `kern/pmap.h` is not among the
sources. Frame index `i` corresponds to physical address `i * 4096`. -/
def page2pa (pp : Nat) : Nat := u32 (pp <<< PGSHIFT)

/-- Modelled from the spec: `pa2page` of `kern/pmap.h` is not among the
sources. The descriptor of the frame holding `pa` is reached by indexing the
descriptor table with the frame number of `pa`. -/
def pa2page (pa : Nat) : Nat := PGNUM pa

/-- Modelled from the spec: `page2kva` of `kern/pmap.h` is not among the
sources. It is the kernel-virtual alias of the frame, `KADDR(page2pa(pp))`. -/
def page2kva (pp : Nat) : Option Nat := KADDR (page2pa pp)

/-! ## State -/

/-- Modelled from the spec: `struct PageInfo` is declared in a header that is
not among the sources. A descriptor carries the free-list link and a 16-bit
reference count. -/
structure PageInfo where
  pp_link : Option Nat
  pp_ref : Nat
deriving DecidableEq

/-- The objects `kern/pmap.c` works on: the page directories, the memory
holding second-level tables, `pages[]`, `page_free_list`, and the static
cursor `tbl` of `pgtbl_alloc`. The program has the descriptors
`pages[0 .. NPAGES - 1]` only; `pages` is total so that the functions are, and
an index of `NPAGES` or more stands for an access outside the array. -/
structure State where
  pgdir : Nat → Nat → Nat
  mem : Nat → Nat
  pages : Nat → PageInfo
  page_free_list : Option Nat
  tbl : Nat

/-- How a call ends: it returns a value, or it panics. -/
inductive Result (α : Type) where
  | ret : α → State → Result α
  | panic : State → Result α

/-- The state a call ends in. -/
def Result.state {α : Type} : Result α → State
  | .ret _ s => s
  | .panic s => s

/-- The value a call returns, `none` when it panics. -/
def Result.val {α : Type} : Result α → Option α
  | .ret a _ => some a
  | .panic _ => none

/-- Whether the call panics. -/
def Result.panics {α : Type} : Result α → Bool
  | .ret _ _ => false
  | .panic _ => true

/-- The assignment `pgdir[i] = v`. -/
def State.set_pde (s : State) (pgdir i v : Nat) : State :=
  { s with pgdir := fun d j => if d = pgdir ∧ j = i then v else s.pgdir d j }

/-- The assignment `*pte = v`. -/
def State.store (s : State) (pte v : Nat) : State :=
  { s with mem := fun a => if a = pte then v else s.mem a }

/-- The call `memset(kva, 0, n)`: every word in `[kva, kva + n)` becomes 0. -/
def State.memset0 (s : State) (kva n : Nat) : State :=
  { s with mem := fun a => if kva ≤ a ∧ a < kva + n then 0 else s.mem a }

/-- The assignment `pp->pp_ref = r`. -/
def State.set_ref (s : State) (pp r : Nat) : State :=
  { s with pages := fun q => if q = pp then { s.pages q with pp_ref := r } else s.pages q }

/-- The assignment `pp->pp_link = l`. -/
def State.set_link (s : State) (pp : Nat) (l : Option Nat) : State :=
  { s with pages := fun q => if q = pp then { s.pages q with pp_link := l } else s.pages q }

/-! ## The allocator (`kern/pmap.c`, lines 81-107) -/

/-- Function `page_alloc`. -/
def page_alloc (s : State) (alloc_flags : Nat) : Result (Option Nat) :=
  match s.page_free_list with
  | none => .ret none s
  | some ret =>
    let s1 := { s with page_free_list := (s.pages ret).pp_link }
    if alloc_flags &&& ALLOC_ZERO ≠ 0 then
      match page2kva ret with
      | none => .panic s1
      | some kva => .ret (some ret) ((s1.memset0 kva PGSIZE).set_link ret none)
    else .ret (some ret) (s1.set_link ret none)

/-- Function `page_free`. -/
def page_free (s : State) (pp : Nat) : Result Unit :=
  if (s.pages pp).pp_ref = 0 then
    .ret () { s.set_link pp s.page_free_list with page_free_list := some pp }
  else .panic s

/-- Function `page_decref`: `--pp->pp_ref` on a `uint16_t`, then `page_free` at
zero. -/
def page_decref (s : State) (pp : Nat) : Result Unit :=
  let s1 := s.set_ref pp (dec16 (s.pages pp).pp_ref)
  if (s1.pages pp).pp_ref = 0 then page_free s1 pp else .ret () s1

/-! ## The walker (`kern/pmap.c`, lines 109-133) -/

/-- Function `pgtbl_alloc`. The cursor `tbl` is a `pte_t *`, so `tbl += NPTENTRIES * 4`
moves it by `NPTENTRIES * 4` entries of `sizeof(pte_t)` bytes each. -/
def pgtbl_alloc (s : State) : Result Nat :=
  if u32 s.tbl % PGSIZE = 0 then
    match page_alloc s ALLOC_ZERO with
    | .panic s1 => .panic s1
    | .ret none s1 => .ret 0 s1
    | .ret (some pg) s1 =>
      match page2kva pg with
      | none => .panic s1
      | some kva =>
        let s2 := { s1 with tbl := kva }
        let s3 := s2.set_ref pg (u16 ((s2.pages pg).pp_ref + 1))
        .ret s3.tbl { s3 with tbl := u32 (s3.tbl + NPTENTRIES * 4 * sizeof_pte_t) }
  else .ret s.tbl { s with tbl := u32 (s.tbl + NPTENTRIES * 4 * sizeof_pte_t) }

/-- Lines 131-132 of `pgdir_walk`: the slot `&pgtbl[PTX(va)]` of the table the
directory entry addresses. -/
def pgdir_walk_slot (s : State) (pgdir va : Nat) : Result Nat :=
  match KADDR (PDE_ADDR (s.pgdir pgdir (PDX va))) with
  | none => .panic s
  | some pgtbl => .ret (u32 (pgtbl + sizeof_pte_t * PTX va)) s

/-- Function `pgdir_walk`. -/
def pgdir_walk (s : State) (pgdir va create : Nat) : Result Nat :=
  if s.pgdir pgdir (PDX va) &&& PTE_P = 0 then
    if create = 0 then .ret 0 s
    else
      match pgtbl_alloc s with
      | .panic s1 => .panic s1
      | .ret pgtbl s1 =>
        if pgtbl = 0 then .ret 0 s1
        else
          match PADDR pgtbl with
          | none => .panic s1
          | some pa => pgdir_walk_slot (s1.set_pde pgdir (PDX va) (u32 (pa ||| PDE_ENTRY))) pgdir va
  else pgdir_walk_slot s pgdir va

/-! ## Mapping operations (`kern/pmap.c`, lines 150-185) -/

/-- Function `page_lookup`. The second component is the pointer written to
`*pte_store` when `pte_store` is not `NULL`. -/
def page_lookup (s : State) (pgdir va : Nat) : Result (Option Nat × Nat) :=
  match pgdir_walk s pgdir va 0 with
  | .panic s1 => .panic s1
  | .ret pte s1 =>
    if pte = 0 ∨ s1.mem pte &&& PTE_P = 0 then .ret (none, pte) s1
    else .ret (some (pa2page (PTE_SMALL_ADDR (s1.mem pte))), pte) s1

/-- Function `page_remove`. The register write of `tlb_invalidate` touches none of the
objects of the state. -/
def page_remove (s : State) (pgdir va : Nat) : Result Unit :=
  match page_lookup s pgdir va with
  | .panic s1 => .panic s1
  | .ret (page, _) s1 =>
    match pgdir_walk s1 pgdir va 0 with
    | .panic s2 => .panic s2
    | .ret pte s2 =>
      match (match page with
             | some pp => page_decref s2 pp
             | none => .ret () s2) with
      | .panic s3 => .panic s3
      | .ret _ s3 => if pte ≠ 0 then .ret () (s3.store pte 0) else .ret () s3

/-- Function `page_insert`. As in `page_remove`, the register write of `tlb_invalidate`
touches none of the objects of the state. -/
def page_insert (s : State) (pgdir pp va perm : Nat) : Result Int :=
  match pgdir_walk s pgdir va 1 with
  | .panic s1 => .panic s1
  | .ret pte s1 =>
    if pte = 0 then .ret (-(E_NO_MEM : Int)) s1
    else
      match (if s1.mem pte &&& PTE_P ≠ 0 then
               if PTE_SMALL_ADDR (s1.mem pte) = page2pa pp then
                 .ret () (s1.set_ref pp (dec16 (s1.pages pp).pp_ref))
               else page_remove s1 pgdir va
             else .ret () s1) with
      | .panic s2 => .panic s2
      | .ret _ s2 =>
        let s3 := s2.store pte (u32 (page2pa pp ||| perm ||| PTE_P))
        .ret 0 (s3.set_ref pp (u16 ((s3.pages pp).pp_ref + 1)))

/-! ## Free-list well-formedness -/

/-- The descriptors reached from `head` through `pp_link`, up to `NULL`, are
those of `l`, in order. -/
def linked (pages : Nat → PageInfo) : List Nat → Option Nat → Prop
  | [], head => head = none
  | pp :: l, head => head = some pp ∧ linked pages l (pages pp).pp_link

/-- Deciding `linked` by walking the list. -/
def linked_dec (pages : Nat → PageInfo) :
    (l : List Nat) → (head : Option Nat) → Decidable (linked pages l head)
  | [], head => inferInstanceAs (Decidable (head = none))
  | pp :: l, head =>
    @instDecidableAnd (head = some pp) (linked pages l (pages pp).pp_link) inferInstance
      (linked_dec pages l (pages pp).pp_link)

instance (pages : Nat → PageInfo) (l : List Nat) (head : Option Nat) :
    Decidable (linked pages l head) := linked_dec pages l head

/-- The free list of `s` is `l` and is well formed: `l` is the chain from
`page_free_list`, no descriptor occurs on it twice, and every descriptor on it
is one of `pages[]` and has `pp_ref == 0`. -/
def free_list_wf (s : State) (l : List Nat) : Prop :=
  linked s.pages l s.page_free_list ∧ l.Nodup ∧
    ∀ pp ∈ l, pp < NPAGES ∧ (s.pages pp).pp_ref = 0

instance (s : State) (l : List Nat) : Decidable (free_list_wf s l) := by
  unfold free_list_wf; infer_instance

/-! ## Example states -/

/-- Directories empty, table memory filled with ones, cursor at `NULL`, and
frame 12 alone on the free list. -/
def ex_one_free : State :=
  { pgdir := fun _ _ => 0
    mem := fun _ => 0xFFFFFFFF
    pages := fun _ => ⟨none, 0⟩
    page_free_list := some 12
    tbl := 0 }

/-- As `ex_one_free`, with the free list 12, 11, 10, 9. -/
def ex_four_free : State :=
  { ex_one_free with
    pages := fun q =>
      if q = 12 then ⟨some 11, 0⟩ else if q = 11 then ⟨some 10, 0⟩
      else if q = 10 then ⟨some 9, 0⟩ else ⟨none, 0⟩ }

/-- Frame 11 mapped at address 0 of directory 0 through a table in frame 12,
the free list empty. -/
def ex_mapped : State := (page_insert ex_one_free 0 11 0 PTE_NONE_U).state

/-- Directory 0 holds the section entry `mem_init` writes for the GPIO window,
`0x3F200000 | PDE_ENTRY_1M | PDE_NONE_U`; it is put at index `0x3F2` here,
`GPIOBASE` being declared in a header that is not among the sources. -/
def ex_gpio : State :=
  ex_one_free.set_pde 0 0x3F2 (0x3F200000 ||| PDE_ENTRY_1M ||| PDE_NONE_U)

/-- Entries 0 and 1 of directory 0 are coarse pointers to the same table, at
physical `0x1000`, whose entry 0 maps frame 5; frame 5 has two references. -/
def ex_shared : State :=
  { pgdir := fun d i => if d = 0 ∧ (i = 0 ∨ i = 1) then 0x1000 ||| PDE_ENTRY else 0
    mem := fun a => if a = 0xF0001000 then page2pa 5 ||| PTE_NONE_U ||| PTE_P else 0
    pages := fun q => if q = 5 then ⟨none, 2⟩ else ⟨none, 0⟩
    page_free_list := none
    tbl := 0 }

/-- Entry 0 of directory 0 is a coarse pointer to the table at physical
`0x1000`, whose entry 0 has its present bits clear but is not zero. -/
def ex_stale : State :=
  { pgdir := fun d i => if d = 0 ∧ i = 0 then 0x1000 ||| PDE_ENTRY else 0
    mem := fun a => if a = 0xF0001000 then page2pa 5 ||| PTE_NONE_U else 0
    pages := fun _ => ⟨none, 0⟩
    page_free_list := none
    tbl := 0 }

/-! ## The run of the self-check `check_page` (`kern/pmap.c`, lines 388-492)

`pp0`, `pp1`, `pp2` are frames 12, 11, 10; directory 0 is `kern_pgdir`. -/

/-- Line 403: three frames allocated, the rest of the free list stolen. -/
def check_page_403 : State :=
  { pgdir := fun _ _ => 0
    mem := fun _ => 0xFFFFFFFF
    pages := fun _ => ⟨none, 0⟩
    page_free_list := none
    tbl := 0 }

/-- Line 412: `page_free(pp0)`. -/
def check_page_412 : State := (page_free check_page_403 12).state

/-- Line 413: `page_insert(kern_pgdir, pp1, 0x0, PTE_NONE_U)`. -/
def check_page_413 : State := (page_insert check_page_412 0 11 0 PTE_NONE_U).state

/-- Line 420: `page_insert(kern_pgdir, pp2, PGSIZE, PTE_NONE_U)`. -/
def check_page_420 : State := (page_insert check_page_413 0 10 PGSIZE PTE_NONE_U).state

/-- Line 428: the same insert again. -/
def check_page_428 : State := (page_insert check_page_420 0 10 PGSIZE PTE_NONE_U).state

/-- Line 441: `page_insert(kern_pgdir, pp2, PGSIZE, PTE_RW_U)`. -/
def check_page_441 : State := (page_insert check_page_428 0 10 PGSIZE PTE_RW_U).state

/-- Line 448: `page_insert(kern_pgdir, pp2, PGSIZE, PTE_NONE_U)`. -/
def check_page_448 : State := (page_insert check_page_441 0 10 PGSIZE PTE_NONE_U).state

/-- Line 453: `page_insert(kern_pgdir, pp0, PTSIZE, PTE_NONE_U)`. -/
def check_page_453 : State := (page_insert check_page_448 0 12 PTSIZE PTE_NONE_U).state

/-- Line 456: `page_insert(kern_pgdir, pp1, PGSIZE, PTE_NONE_U)`. -/
def check_page_456 : State := (page_insert check_page_453 0 11 PGSIZE PTE_NONE_U).state

/-- Line 467: `page_alloc(0)`. -/
def check_page_467 : State := (page_alloc check_page_456 0).state

/-- Line 470: `page_remove(kern_pgdir, 0x0)`. -/
def check_page_470 : State := (page_remove check_page_467 0 0).state

/-- Line 477: `page_insert(kern_pgdir, pp1, PGSIZE, 0)`. -/
def check_page_477 : State := (page_insert check_page_470 0 11 PGSIZE 0).state

/-- Line 482: `page_remove(kern_pgdir, PGSIZE)`. -/
def check_page_482 : State := (page_remove check_page_477 0 PGSIZE).state

/-- Line 489: `page_alloc(0)`. -/
def check_page_489 : State := (page_alloc check_page_482 0).state

/-- The state in which `pgdir_walk(pgdir, va, 1)` returns when `pgtbl_alloc`
takes frame `pg`, of kernel address `kva`, from the head of the free list:
the directory entry of `va` is the coarse pointer to the frame, the frame is
zeroed, its descriptor is unlinked and its count incremented, and the cursor
has moved on. -/
def State.with_new_table (s : State) (pgdir va pg kva : Nat) : State :=
  { pgdir := fun d j =>
      if d = pgdir ∧ j = PDX va then u32 (page2pa pg ||| PDE_ENTRY) else s.pgdir d j
    mem := fun a => if kva ≤ a ∧ a < kva + PGSIZE then 0 else s.mem a
    pages := fun q => if q = pg then ⟨none, u16 ((s.pages pg).pp_ref + 1)⟩ else s.pages q
    page_free_list := (s.pages pg).pp_link
    tbl := u32 (kva + NPTENTRIES * 4 * sizeof_pte_t) }

/-- Macro `PGADDR(d, t, o)`: `(void*) ((d) << PDXSHIFT | (t) << PTXSHIFT | (o))`. -/
def PGADDR (d t o : Nat) : Nat := u32 (d <<< PDXSHIFT ||| t <<< PTXSHIFT ||| o)

/-! ## The kernel directory (`kern/pmap.c`, lines 12 and 45-55) -/

/-- The directory `kern_pgdir`, directory number 0. -/
def kern_pgdir : Nat := 0

/-- The loop of lines 46-49 of `mem_init`,
`for (addr = KERNBASE; addr != 0; addr += PTSIZE)`: `fuel` bounds the number of
times the body runs, and the result is `none` when the loop would go on after
that many. -/
def mem_init_loop : Nat → Nat → State → Option (Result Unit)
  | 0, addr, s => if addr ≠ 0 then none else some (.ret () s)
  | fuel + 1, addr, s =>
    if addr ≠ 0 then
      match PADDR addr with
      | none => some (.panic s)
      | some pa =>
        let s1 := s.set_pde kern_pgdir (PDX addr) (u32 (pa ||| PDE_ENTRY_1M ||| PDE_NONE_U))
        let s2 := s1.set_pde kern_pgdir (PDX pa) 0
        mem_init_loop fuel (u32 (addr + PTSIZE)) s2
    else some (.ret () s)

/-- Lines 45-55 of `mem_init`: the loop from `KERNBASE`, then the entries of the
boot stack and of the GPIO window. `KSTACKTOP`, `KSTKSIZE`, `GPIOBASE` and the
address of `bootstack` are declared outside the sources and are parameters. -/
def mem_init_map (fuel : Nat) (KSTACKTOP KSTKSIZE bootstack GPIOBASE : Nat) (s : State) :
    Option (Result Unit) :=
  match mem_init_loop fuel KERNBASE s with
  | none => none
  | some (.panic s1) => some (.panic s1)
  | some (.ret _ s1) =>
    match PADDR bootstack with
    | none => some (.panic s1)
    | some pa =>
      let s2 := s1.set_pde kern_pgdir (PDX (u32 (u32 KSTACKTOP + (4294967296 - u32 KSTKSIZE))))
        (u32 (pa ||| PDE_ENTRY_1M ||| PDE_NONE_U))
      some (.ret () (s2.set_pde kern_pgdir (PDX GPIOBASE)
        (u32 (0x3F200000 ||| PDE_ENTRY_1M ||| PDE_NONE_U))))

/-- Function `check_va2pa`; `~0` is `0xFFFFFFFF`. -/
def check_va2pa (s : State) (pgdir va : Nat) : Result Nat :=
  let pde := s.pgdir pgdir (PDX va)
  if pde &&& PDE_P = 0 then .ret 0xFFFFFFFF s
  else if pde &&& PDE_ENTRY_1M = PDE_ENTRY_1M then
    .ret (u32 ((u32 pde &&& 0xFFF00000) + (u32 va &&& 0xFFFFF))) s
  else if pde &&& PDE_ENTRY_16M = PDE_ENTRY_16M then
    .ret (u32 ((u32 pde &&& 0xFF000000) + (u32 va &&& 0xFFFFFF))) s
  else
    match KADDR (PDE_ADDR pde) with
    | none => .panic s
    | some p =>
      let pte := s.mem (u32 (p + sizeof_pte_t * PTX va))
      if pte &&& PTE_P = 0 then .ret 0xFFFFFFFF s
      else if pte &&& PTE_ENTRY_SMALL = PTE_ENTRY_SMALL then
        .ret (u32 (PTE_SMALL_ADDR pte + (u32 va &&& 0xFFF))) s
      else .ret (u32 (PTE_LARGE_ADDR pte + (u32 va &&& 0xFFFF))) s

/-- Directory 0 holds at index `0xF01` the section entry the loop of `mem_init`
writes there, `(1 << 20) | PDE_ENTRY_1M | PDE_NONE_U`; memory is filled with
ones. -/
def ex_section : State :=
  ex_one_free.set_pde kern_pgdir 0xF01 (1 <<< 20 ||| PDE_ENTRY_1M ||| PDE_NONE_U)

/-! ## Sequences of allocator calls (`check_page_alloc`, lines 232-280) -/

/-- As many successive calls `page_alloc(0)` as the number says: the pointers
returned, in order. -/
def page_alloc_times (s : State) : Nat → Result (List (Option Nat))
  | 0 => .ret [] s
  | k + 1 =>
    match page_alloc s 0 with
    | .panic s1 => .panic s1
    | .ret pp s1 =>
      match page_alloc_times s1 k with
      | .panic s2 => .panic s2
      | .ret l s2 => .ret (pp :: l) s2

/-- The calls `page_free(pp)` for the descriptors of a list, in order. -/
def page_free_each (s : State) : List Nat → Result Unit
  | [] => .ret () s
  | pp :: l =>
    match page_free s pp with
    | .panic s1 => .panic s1
    | .ret _ s1 => page_free_each s1 l

/-! ## Initialisation of the free list (`kern/pmap.c`, lines 68-79) -/

/-- The loop of `page_init` from address `addr`, the symbol `end` at kernel
address `end_`. Each pass spends one unit of fuel; the result is `none` when
the loop would go on after the fuel is spent. `PADDR(end)` is evaluated only
when `addr != 0` and `0x100000 <= addr`. -/
def page_init_loop (end_ : Nat) : Nat → Nat → State → Option (Result Unit)
  | 0, addr, s => if addr < TOTAL_PHYS_MEM then none else some (.ret () s)
  | fuel + 1, addr, s =>
    if addr < TOTAL_PHYS_MEM then
      let pg := pa2page addr
      let s1 : State :=
        { (s.set_ref pg 0).set_link pg s.page_free_list with page_free_list := some pg }
      if addr = 0 then page_init_loop end_ fuel (u32 (addr + PGSIZE)) s
      else if 0x100000 ≤ addr then
        match PADDR end_ with
        | none => some (.panic s)
        | some e =>
          if addr < e then page_init_loop end_ fuel (u32 (addr + PGSIZE)) s
          else page_init_loop end_ fuel (u32 (addr + PGSIZE)) s1
      else page_init_loop end_ fuel (u32 (addr + PGSIZE)) s1
    else some (.ret () s)

/-- Function `page_init`. -/
def page_init (end_ fuel : Nat) (s : State) : Option (Result Unit) :=
  page_init_loop end_ fuel 0 s

/-! ## Mapping a region at boot (`kern/pmap.c`, lines 135-148) -/

/-- The loop of `boot_map_region` from offset `i`, an `int` compared with the
unsigned `size`. Each pass spends one unit of fuel; the result is `none` when
the loop would go on after the fuel is spent. -/
def boot_map_region_loop (pgdir va size pa : Nat) : Nat → Nat → State → Option (Result Unit)
  | 0, i, s => if u32 i < u32 size then none else some (.ret () s)
  | fuel + 1, i, s =>
    if u32 i < u32 size then
      match pgdir_walk s pgdir (u32 (va + i)) 1 with
      | .panic s1 => some (.panic s1)
      | .ret pte s1 =>
        if pte ≠ 0 then
          boot_map_region_loop pgdir va size pa fuel (u32 (i + PGSIZE))
            (s1.store pte (u32 (u32 (pa + i) ||| PTE_ENTRY_SMALL ||| PTE_NONE_U)))
        else some (.panic s1)
    else some (.ret () s)

/-- Function `boot_map_region`; a failed `assert` is a panic. -/
def boot_map_region (fuel : Nat) (s : State) (pgdir va size pa : Nat) : Option (Result Unit) :=
  if u32 va % PGSIZE ≠ 0 then some (.panic s)
  else if u32 pa % PGSIZE ≠ 0 then some (.panic s)
  else boot_map_region_loop pgdir va size pa fuel 0 s

/-- The second-level tables of directory `dir` are separate: two coarse-pointer
entries of the directory address different tables, and no table of the
directory lies in a frame of the free list `l`. -/
def tables_separate (s : State) (dir : Nat) (l : List Nat) : Prop :=
  (∀ i i', i < NPDENTRIES → i' < NPDENTRIES → i ≠ i' →
    s.pgdir dir i &&& PDE_P = PDE_ENTRY → s.pgdir dir i' &&& PDE_P = PDE_ENTRY →
    PDE_ADDR (s.pgdir dir i) ≠ PDE_ADDR (s.pgdir dir i')) ∧
  (∀ i h, i < NPDENTRIES → s.pgdir dir i &&& PDE_P = PDE_ENTRY → h ∈ l →
    PGNUM (PDE_ADDR (s.pgdir dir i)) ≠ h)

/-! ## The domain access-control register (`inc/mmu.h`, lines 78-80; `kern/pmap.c`, lines 28-38) -/

/-- Macro `DOMAIN_NONE`. -/
def DOMAIN_NONE : Nat := 0x0
/-- Macro `DOMAIN_CLIENT`. -/
def DOMAIN_CLIENT : Nat := 0x1
/-- Macro `DOMAIN_MANAGER`. -/
def DOMAIN_MANAGER : Nat := 0x3

/-- Operator `~` of C on a 32-bit `int`, the `int` taken as its bit pattern. -/
def not32 (x : Nat) : Nat := 0xFFFFFFFF ^^^ u32 x

/-- Function `set_domain`: the value that `mcr p15, 0, r0, c3, c0, 0` writes to
the domain access-control register when `mrc p15, 0, r0, c3, c0, 0` has read
`dacr` from it. The `int`s `clear_bit` and `new_priv` are 32-bit patterns;
the constant shifted in `clear_bit` is the decimal `11` of the source. -/
def set_domain (dacr did priv : Nat) : Nat :=
  let clear_bit := not32 (11 <<< (2 * did))
  let new_priv := u32 (priv <<< (2 * did))
  u32 (u32 dacr &&& clear_bit) ||| new_priv

/-- The value the specification gives for the register after
`set_domain(did, priv)`: `(old & ~(0b11 << (2*did))) | (priv << (2*did))`. -/
def set_domain_spec (old did priv : Nat) : Nat :=
  u32 (u32 old &&& not32 (0b11 <<< (2 * did))) ||| u32 (priv <<< (2 * did))

/-- The 2-bit field of domain `d` in a value of the domain access-control
register, which has 2 bits for each of 16 domains. -/
def domain_field (dacr d : Nat) : Nat := (dacr >>> (2 * d)) &&& 0b11

/-! ## Arithmetic of the bit masks -/

theorem and_high_mask (x k : Nat) (hx : x < 2 ^ 32) (hk : k ≤ 32) :
    x &&& ((2 ^ (32 - k) - 1) <<< k) = (x >>> k) <<< k := by
  apply Nat.eq_of_testBit_eq
  intro i
  simp only [Nat.testBit_and, Nat.testBit_shiftLeft, Nat.testBit_shiftRight,
    Nat.testBit_two_pow_sub_one]
  by_cases h1 : k ≤ i
  · by_cases h2 : i < 32
    · have h3 : i - k < 32 - k := by omega
      have h4 : k + (i - k) = i := by omega
      simp [h1, h3, h4]
    · have h3 : ¬ i - k < 32 - k := by omega
      have h5 : x.testBit i = false :=
        Nat.testBit_lt_two_pow (lt_of_lt_of_le hx (Nat.pow_le_pow_right (by decide) (by omega)))
      have h4 : k + (i - k) = i := by omega
      simp [h1, h3, h4, h5]
  · simp [h1]

theorem and_FFFFF000 (x : Nat) (hx : x < 4294967296) :
    x &&& 0xFFFFF000 = x / 4096 * 4096 := by
  have h := and_high_mask x 12 (by omega) (by decide)
  simp only [Nat.shiftRight_eq_div_pow, Nat.shiftLeft_eq] at h
  norm_num at h
  exact h

theorem and_FFFFFC00 (x : Nat) (hx : x < 4294967296) :
    x &&& 0xFFFFFC00 = x / 1024 * 1024 := by
  have h := and_high_mask x 10 (by omega) (by decide)
  simp only [Nat.shiftRight_eq_div_pow, Nat.shiftLeft_eq] at h
  norm_num at h
  exact h

theorem and_3 (x : Nat) : x &&& 3 = x % 4 := Nat.and_pow_two_sub_one_eq_mod x 2

theorem and_FF (x : Nat) : x &&& 0xFF = x % 256 := Nat.and_pow_two_sub_one_eq_mod x 8

theorem and_FFF (x : Nat) : x &&& 0xFFF = x % 4096 := Nat.and_pow_two_sub_one_eq_mod x 12

theorem or_eq_add (a b k : Nat) (ha : a % 2 ^ k = 0) (hb : b < 2 ^ k) : a ||| b = a + b := by
  obtain ⟨c, rfl⟩ : ∃ c, a = 2 ^ k * c := ⟨a / 2 ^ k, by
    have := Nat.div_add_mod a (2 ^ k); omega⟩
  exact (Nat.mul_add_lt_is_or hb c).symm

theorem or_mod_two_pow (a b n : Nat) : (a ||| b) % 2 ^ n = a % 2 ^ n ||| b % 2 ^ n := by
  apply Nat.eq_of_testBit_eq
  intro i
  simp only [Nat.testBit_mod_two_pow, Nat.testBit_or, Bool.and_or_distrib_left]

theorem and_mod_two_pow (a b n : Nat) : (a &&& b) % 2 ^ n = a % 2 ^ n &&& b % 2 ^ n := by
  apply Nat.eq_of_testBit_eq
  intro i
  simp only [Nat.testBit_mod_two_pow, Nat.testBit_and]
  cases decide (i < n) <;> simp

theorem or_3_mod_4 (x : Nat) : (x ||| 3) % 4 = 3 := by
  have h := or_mod_two_pow x 3 2
  norm_num at h
  rw [h]
  have : x % 4 < 4 := Nat.mod_lt _ (by decide)
  interval_cases (x % 4) <;> decide

theorem or_1_mod_2 (x : Nat) : (x ||| 1) % 2 = 1 := by
  have h := or_mod_two_pow x 1 1
  norm_num at h
  rw [h]
  have : x % 2 < 2 := Nat.mod_lt _ (by decide)
  interval_cases (x % 2) <;> decide

/-! ## Facts about the address macros -/

theorem page2pa_eq (pp : Nat) : page2pa pp = pp * 4096 % 4294967296 := by
  simp [page2pa, u32, PGSHIFT, Nat.shiftLeft_eq]

theorem PGNUM_eq (la : Nat) : PGNUM la = la % 4294967296 / 4096 := by
  simp [PGNUM, u32, PTXSHIFT, Nat.shiftRight_eq_div_pow]

theorem PTX_lt (va : Nat) : PTX va < 256 := by
  have h := and_FF (u32 va >>> PTXSHIFT)
  have h2 : (u32 va >>> PTXSHIFT) % 256 < 256 := Nat.mod_lt _ (by decide)
  unfold PTX
  omega

theorem PTE_SMALL_ADDR_eq (w : Nat) :
    PTE_SMALL_ADDR w = w % 4294967296 / 4096 * 4096 := by
  have h := and_FFFFF000 (w % 4294967296) (Nat.mod_lt _ (by decide))
  simpa [PTE_SMALL_ADDR, u32] using h

theorem PDE_ADDR_eq (w : Nat) : PDE_ADDR w = w % 4294967296 / 1024 * 1024 := by
  have h := and_FFFFFC00 (w % 4294967296) (Nat.mod_lt _ (by decide))
  simpa [PDE_ADDR, u32] using h

theorem KADDR_eq (pa : Nat) :
    KADDR pa = if pa % 4294967296 < 268435456 then some (pa % 4294967296 + 4026531840)
      else none := by
  unfold KADDR
  rw [PGNUM_eq]
  simp only [npages, NPAGES, TOTAL_PHYS_MEM, PGSIZE, KERNBASE, u32]
  by_cases h : pa % 4294967296 < 268435456
  · have h1 : pa % 4294967296 / 4096 < 256 * 1024 * 1024 / 4096 := by omega
    have h2 : (pa % 4294967296 + 4026531840) % 4294967296 = pa % 4294967296 + 4026531840 := by
      omega
    simp [h, h1, h2]
  · have h1 : ¬ pa % 4294967296 / 4096 < 256 * 1024 * 1024 / 4096 := by omega
    simp [h, h1]


/-! ## The allocator -/

theorem linked_congr (pages pages' : Nat → PageInfo) (l : List Nat) (head : Option Nat)
    (h : ∀ pp ∈ l, pages' pp = pages pp) (hl : linked pages l head) : linked pages' l head := by
  induction l generalizing head with
  | nil => exact hl
  | cons a t ih =>
    obtain ⟨h1, h2⟩ := hl
    refine ⟨h1, ?_⟩
    rw [h a (List.mem_cons_self a t)]
    exact ih _ (fun pp hpp => h pp (List.mem_cons_of_mem a hpp)) h2

theorem linked_nil_iff (pages : Nat → PageInfo) (l : List Nat) (hl : linked pages l none) :
    l = [] := by
  cases l with
  | nil => rfl
  | cons a t => exact absurd hl.1 (by simp)

theorem page2kva_of_lt (pp : Nat) (h : pp < NPAGES) :
    page2kva pp = some (pp * 4096 + 4026531840) := by
  have h1 : pp < 65536 := by simpa [NPAGES, TOTAL_PHYS_MEM, PGSIZE] using h
  unfold page2kva
  rw [KADDR_eq, page2pa_eq]
  have h2 : pp * 4096 % 4294967296 % 4294967296 = pp * 4096 := by omega
  have h3 : pp * 4096 < 268435456 := by omega
  simp [h2, h3]

/-- C9. `page_alloc` on a well-formed free list `l` never panics; it returns
`NULL` exactly when the free list is empty, and then the state is unchanged;
otherwise it returns the head, the free list becomes the tail of `l` (still
well formed), the returned descriptor has `pp_ref == 0` and `pp_link == NULL`,
and no other descriptor changes. -/
theorem page_alloc_contract (s : State) (l : List Nat) (flags : Nat)
    (hwf : free_list_wf s l) :
    (page_alloc s flags).panics = false ∧
    ((page_alloc s flags).val = some none ↔ s.page_free_list = none) ∧
    (s.page_free_list = none → (page_alloc s flags).state = s) ∧
    ∀ hd t, l = hd :: t →
      s.page_free_list = some hd ∧
      (page_alloc s flags).val = some (some hd) ∧
      free_list_wf (page_alloc s flags).state t ∧
      (page_alloc s flags).state.pages hd = ⟨none, 0⟩ ∧
      ∀ q, q ≠ hd → (page_alloc s flags).state.pages q = s.pages q := by
  obtain ⟨hl, hnd, hall⟩ := hwf
  cases l with
  | nil =>
    have hnone : s.page_free_list = none := hl
    simp [page_alloc, hnone, Result.panics, Result.val, Result.state]
  | cons a t =>
    obtain ⟨hhead, htail⟩ := hl
    obtain ⟨ha, haref⟩ := hall a (List.mem_cons_self a t)
    have hat : a ∉ t := (List.nodup_cons.mp hnd).1
    have hkva := page2kva_of_lt a ha
    have key : ∀ s' : State, s'.page_free_list = (s.pages a).pp_link →
        (∀ q, q ≠ a → s'.pages q = s.pages q) → free_list_wf s' t := by
      intro s' h1 h2
      refine ⟨?_, (List.nodup_cons.mp hnd).2, ?_⟩
      · rw [h1]
        exact linked_congr s.pages s'.pages t _
          (fun pp hpp => h2 pp (fun e => hat (e ▸ hpp))) htail
      · intro pp hpp
        rw [h2 pp (fun e => hat (e ▸ hpp))]
        exact hall pp (List.mem_cons_of_mem a hpp)
    by_cases hz : flags &&& ALLOC_ZERO = 0
    · simp only [page_alloc, hhead, hz, ne_eq, not_true_eq_false, if_false, Result.panics,
        Result.val, Result.state]
      refine ⟨trivial, by simp, by simp, ?_⟩
      intro hd t' e
      obtain ⟨rfl, rfl⟩ := List.cons.inj e
      refine ⟨rfl, rfl, key _ rfl ?_, ?_, ?_⟩
      · intro q hq; simp [State.set_link, hq]
      · simp [State.set_link, haref]
      · intro q hq; simp [State.set_link, hq]
    · simp only [page_alloc, hhead, hz, ne_eq, not_false_eq_true, if_true, hkva, Result.panics,
        Result.val, Result.state]
      refine ⟨trivial, by simp, by simp, ?_⟩
      intro hd t' e
      obtain ⟨rfl, rfl⟩ := List.cons.inj e
      refine ⟨rfl, rfl, key _ rfl ?_, ?_, ?_⟩
      · intro q hq; simp [State.set_link, State.memset0, hq]
      · simp [State.set_link, State.memset0, haref]
      · intro q hq; simp [State.set_link, State.memset0, hq]

/-- Witness for C9: the free list 12, 11, 10, 9 of `ex_four_free`, allocated with
`ALLOC_ZERO`. -/
theorem page_alloc_contract_witness :
    free_list_wf ex_four_free [12, 11, 10, 9] ∧
    ((page_alloc ex_four_free ALLOC_ZERO).panics = false ∧
    ((page_alloc ex_four_free ALLOC_ZERO).val = some none ↔
      ex_four_free.page_free_list = none) ∧
    (ex_four_free.page_free_list = none →
      (page_alloc ex_four_free ALLOC_ZERO).state = ex_four_free) ∧
    ∀ hd t, [12, 11, 10, 9] = hd :: t →
      ex_four_free.page_free_list = some hd ∧
      (page_alloc ex_four_free ALLOC_ZERO).val = some (some hd) ∧
      free_list_wf (page_alloc ex_four_free ALLOC_ZERO).state t ∧
      (page_alloc ex_four_free ALLOC_ZERO).state.pages hd = ⟨none, 0⟩ ∧
      ∀ q, q ≠ hd → (page_alloc ex_four_free ALLOC_ZERO).state.pages q = ex_four_free.pages q) :=
  ⟨by decide, page_alloc_contract ex_four_free [12, 11, 10, 9] ALLOC_ZERO (by decide)⟩

/-- C10. `page_free(f)` panics exactly when `f.pp_ref != 0`, leaving the state
as it was; when `f.pp_ref == 0` it makes `f` the head of the free list with
`f.pp_link` the previous head and changes no other descriptor, and the next
`page_alloc` returns `f`. -/
theorem page_free_contract (s : State) (f : Nat) :
    ((page_free s f).panics = true ↔ (s.pages f).pp_ref ≠ 0) ∧
    ((s.pages f).pp_ref ≠ 0 → (page_free s f).state = s) ∧
    ((s.pages f).pp_ref = 0 →
      (page_free s f).val = some () ∧
      (page_free s f).state.page_free_list = some f ∧
      (page_free s f).state.pages f = ⟨s.page_free_list, 0⟩ ∧
      (∀ q, q ≠ f → (page_free s f).state.pages q = s.pages q) ∧
      ∀ flags, f < NPAGES ∨ flags &&& ALLOC_ZERO = 0 →
        (page_alloc (page_free s f).state flags).val = some (some f)) := by
  by_cases h : (s.pages f).pp_ref = 0
  · have e : page_free s f =
        .ret () { s.set_link f s.page_free_list with page_free_list := some f } := by
      simp [page_free, h]
    rw [e]
    refine ⟨by simp [Result.panics, h], fun h' => absurd h h', fun _ => ⟨rfl, rfl, ?_, ?_, ?_⟩⟩
    · simp [Result.state, State.set_link, h]
    · intro q hq; simp [Result.state, State.set_link, hq]
    · intro flags hf
      by_cases hz : flags &&& ALLOC_ZERO = 0
      · simp [page_alloc, hz, Result.val, Result.state]
      · have hlt : f < NPAGES := by
          rcases hf with hf | hf
          · exact hf
          · exact absurd hf hz
        simp [page_alloc, hz, page2kva_of_lt f hlt, Result.val, Result.state]
  · simp [page_free, h, Result.panics, Result.state]

/-! ## The walker and the mapping operations: how a call unfolds -/

theorem Result.eq_ret_iff {α : Type} (r : Result α) (a : α) (s : State) :
    r = .ret a s ↔ r.val = some a ∧ r.state = s := by
  cases r <;> simp [Result.val, Result.state]

theorem slot_facts (w va t : Nat) (hk : KADDR (PDE_ADDR w) = some t) :
    u32 (t + sizeof_pte_t * PTX va) = t + 4 * PTX va ∧ t + 4 * PTX va ≠ 0 ∧
      4026531840 ≤ t ∧ t % 1024 = 0 ∧ t + 1024 ≤ 4294967296 := by
  rw [KADDR_eq, PDE_ADDR_eq] at hk
  have hp := PTX_lt va
  split at hk
  · rename_i hlt
    injection hk with hk
    subst hk
    simp only [u32, sizeof_pte_t]
    omega
  · exact absurd hk (by simp)

theorem pgdir_walk_present (s : State) (d va c : Nat)
    (hp : s.pgdir d (PDX va) &&& PTE_P ≠ 0) :
    pgdir_walk s d va c = pgdir_walk_slot s d va := by
  simp [pgdir_walk, hp]

theorem pgdir_walk_absent (s : State) (d va : Nat)
    (hp : s.pgdir d (PDX va) &&& PTE_P = 0) : pgdir_walk s d va 0 = .ret 0 s := by
  simp [pgdir_walk, hp]

theorem pgdir_walk_slot_some (s : State) (d va t : Nat)
    (hk : KADDR (PDE_ADDR (s.pgdir d (PDX va))) = some t) :
    pgdir_walk_slot s d va = .ret (t + 4 * PTX va) s := by
  simp [pgdir_walk_slot, hk, (slot_facts _ va t hk).1]

theorem pgdir_walk_slot_none (s : State) (d va : Nat)
    (hk : KADDR (PDE_ADDR (s.pgdir d (PDX va))) = none) :
    pgdir_walk_slot s d va = .panic s := by
  simp [pgdir_walk_slot, hk]

theorem pgdir_walk_slot_state (s : State) (d va : Nat) : (pgdir_walk_slot s d va).state = s := by
  unfold pgdir_walk_slot
  split <;> rfl

theorem pgdir_walk_zero_state (s : State) (d va : Nat) : (pgdir_walk s d va 0).state = s := by
  by_cases hp : s.pgdir d (PDX va) &&& PTE_P = 0
  · rw [pgdir_walk_absent s d va hp]; rfl
  · rw [pgdir_walk_present s d va 0 hp]; exact pgdir_walk_slot_state s d va

theorem pgdir_walk_slot_congr (s s' : State) (d va : Nat)
    (h : s'.pgdir d (PDX va) = s.pgdir d (PDX va)) :
    (pgdir_walk_slot s' d va).val = (pgdir_walk_slot s d va).val ∧
      (pgdir_walk_slot s' d va).panics = (pgdir_walk_slot s d va).panics := by
  unfold pgdir_walk_slot
  rw [h]
  split <;> simp [Result.val, Result.panics]

theorem pgdir_walk_zero_congr (s s' : State) (d va : Nat)
    (h : s'.pgdir d (PDX va) = s.pgdir d (PDX va)) :
    (pgdir_walk s' d va 0).val = (pgdir_walk s d va 0).val ∧
      (pgdir_walk s' d va 0).panics = (pgdir_walk s d va 0).panics := by
  by_cases hp : s.pgdir d (PDX va) &&& PTE_P = 0
  · rw [pgdir_walk_absent s d va hp, pgdir_walk_absent s' d va (h ▸ hp)]
    simp [Result.val, Result.panics]
  · rw [pgdir_walk_present s d va 0 hp, pgdir_walk_present s' d va 0 (h ▸ hp)]
    exact pgdir_walk_slot_congr s s' d va h

/-- The walk without creation, in another state with the same directory entry. -/
theorem pgdir_walk_zero_transfer (s s' : State) (d va pte : Nat)
    (h : s'.pgdir d (PDX va) = s.pgdir d (PDX va))
    (hw : (pgdir_walk s d va 0).val = some pte) : pgdir_walk s' d va 0 = .ret pte s' := by
  rw [Result.eq_ret_iff]
  exact ⟨((pgdir_walk_zero_congr s s' d va h).1).trans hw, pgdir_walk_zero_state s' d va⟩

theorem pde_entry_present (pa : Nat) : u32 (pa ||| PDE_ENTRY) &&& PTE_P ≠ 0 := by
  have h := or_1_mod_2 pa
  simp only [PDE_ENTRY, PTE_P, u32, and_3] at *
  omega

/-- A walk that returns a slot leaves a directory entry through which the walk
without creation finds the same slot. -/
theorem pgdir_walk_create_post (s s1 : State) (d va c pte : Nat)
    (hw : pgdir_walk s d va c = .ret pte s1) (hpte : pte ≠ 0) :
    pgdir_walk s1 d va 0 = .ret pte s1 := by
  by_cases hp : s.pgdir d (PDX va) &&& PTE_P = 0
  · unfold pgdir_walk at hw
    simp only [hp, if_true] at hw
    by_cases hc : c = 0
    · simp only [hc, if_true] at hw
      injection hw with h1 h2
      exact absurd h1.symm hpte
    · simp only [hc, if_false] at hw
      rcases ha : pgtbl_alloc s with ⟨pgtbl, s2⟩ | s2
      · simp only [ha] at hw
        by_cases hz : pgtbl = 0
        · simp only [hz, if_true] at hw
          injection hw with h1 h2
          exact absurd h1.symm hpte
        · simp only [hz, if_false] at hw
          rcases hpa : PADDR pgtbl with _ | pa
          · simp [hpa] at hw
          · simp only [hpa] at hw
            have hs : s1 = s2.set_pde d (PDX va) (u32 (pa ||| PDE_ENTRY)) := by
              have := pgdir_walk_slot_state (s2.set_pde d (PDX va) (u32 (pa ||| PDE_ENTRY))) d va
              rw [hw] at this
              exact this
            have hp1 : s1.pgdir d (PDX va) &&& PTE_P ≠ 0 := by
              rw [hs]
              simpa [State.set_pde] using pde_entry_present pa
            rw [pgdir_walk_present s1 d va 0 hp1, hs]
            rw [← hs] at hw ⊢
            exact hw
      · simp [ha] at hw
  · rw [pgdir_walk_present s d va c hp] at hw
    have hs : s1 = s := by
      have := pgdir_walk_slot_state s d va
      rw [hw] at this
      exact this
    subst hs
    rw [pgdir_walk_present s1 d va 0 hp]
    exact hw

theorem page_decref_eq (s : State) (pp : Nat) :
    page_decref s pp = .ret ()
      (if dec16 (s.pages pp).pp_ref = 0 then
        { (s.set_ref pp 0).set_link pp s.page_free_list with page_free_list := some pp }
      else s.set_ref pp (dec16 (s.pages pp).pp_ref)) := by
  by_cases h : dec16 (s.pages pp).pp_ref = 0
  · simp [page_decref, page_free, State.set_ref, State.set_link, h]
  · simp [page_decref, page_free, State.set_ref, State.set_link, h]

theorem page_lookup_eq (s : State) (d va pte : Nat)
    (hw : (pgdir_walk s d va 0).val = some pte) :
    page_lookup s d va =
      if pte = 0 ∨ s.mem pte &&& PTE_P = 0 then .ret (none, pte) s
      else .ret (some (pa2page (PTE_SMALL_ADDR (s.mem pte))), pte) s := by
  have hw' : pgdir_walk s d va 0 = .ret pte s :=
    (Result.eq_ret_iff _ _ _).2 ⟨hw, pgdir_walk_zero_state s d va⟩
  simp [page_lookup, hw']

theorem page_lookup_panic (s : State) (d va : Nat)
    (hw : (pgdir_walk s d va 0).val = none) : page_lookup s d va = .panic s := by
  rcases h : pgdir_walk s d va 0 with ⟨pte, s1⟩ | s1
  · simp [h, Result.val] at hw
  · have := pgdir_walk_zero_state s d va
    rw [h] at this
    simp only [Result.state] at this
    simp [page_lookup, h, this]

theorem page_remove_eq (s : State) (d va pte : Nat)
    (hw : (pgdir_walk s d va 0).val = some pte) :
    page_remove s d va =
      if pte = 0 then .ret () s
      else if s.mem pte &&& PTE_P = 0 then .ret () (s.store pte 0)
      else .ret () ((page_decref s (pa2page (PTE_SMALL_ADDR (s.mem pte)))).state.store pte 0) := by
  have hw' : pgdir_walk s d va 0 = .ret pte s :=
    (Result.eq_ret_iff _ _ _).2 ⟨hw, pgdir_walk_zero_state s d va⟩
  unfold page_remove
  rw [page_lookup_eq s d va pte hw]
  by_cases h0 : pte = 0
  · simp [h0, hw']
  · by_cases hp : s.mem pte &&& PTE_P = 0
    · simp [h0, hp, hw']
    · simp [h0, hp, hw', page_decref_eq, Result.state]

theorem page_remove_panic (s : State) (d va : Nat)
    (hw : (pgdir_walk s d va 0).val = none) : page_remove s d va = .panic s := by
  unfold page_remove
  rw [page_lookup_panic s d va hw]

theorem page_decref_frame (s : State) (pp : Nat) :
    (page_decref s pp).state.pgdir = s.pgdir ∧ (page_decref s pp).state.mem = s.mem ∧
      (page_decref s pp).state.tbl = s.tbl := by
  rw [page_decref_eq]
  simp only [Result.state]
  split <;> exact ⟨rfl, rfl, rfl⟩

theorem page_remove_pgdir (s : State) (d va : Nat) :
    (page_remove s d va).state.pgdir = s.pgdir := by
  rcases hw : (pgdir_walk s d va 0).val with _ | pte
  · rw [page_remove_panic s d va hw]; rfl
  · rw [page_remove_eq s d va pte hw]
    split
    · rfl
    · split
      · rfl
      · exact (page_decref_frame s _).1

theorem pte_written_present (x : Nat) : u32 (x ||| PTE_P) &&& PTE_P ≠ 0 := by
  have h := or_3_mod_4 x
  simp only [PTE_P, u32, and_3] at *
  omega

theorem page2pa_mod (pp : Nat) : page2pa pp % 4096 = 0 ∧ page2pa pp < 4294967296 := by
  rw [page2pa_eq]
  omega

theorem pte_written_eq (pp perm : Nat) (hperm : perm < 4096) :
    u32 (page2pa pp ||| perm ||| PTE_P) = page2pa pp + (perm ||| 3) ∧ (perm ||| 3) < 4096 := by
  have h1 := page2pa_mod pp
  have h2 : perm ||| 3 < 2 ^ 12 := Nat.or_lt_two_pow (by simpa using hperm) (by decide)
  have h3 := or_eq_add (page2pa pp) (perm ||| 3) 12 (by simpa using h1.1) h2
  norm_num at h2
  rw [Nat.or_assoc]
  simp only [PTE_P, h3, u32]
  omega

theorem pte_written_addr (pp perm : Nat) (hperm : perm < 4096) :
    PTE_SMALL_ADDR (u32 (page2pa pp ||| perm ||| PTE_P)) = page2pa pp := by
  have h1 := page2pa_mod pp
  have h2 := pte_written_eq pp perm hperm
  rw [PTE_SMALL_ADDR_eq, h2.1]
  omega

theorem pa2page_page2pa (pp : Nat) (hpp : pp < 1048576) : pa2page (page2pa pp) = pp := by
  simp only [pa2page]
  rw [PGNUM_eq, page2pa_eq]
  omega

theorem NPAGES_eq : NPAGES = 65536 := by
  simp [NPAGES, TOTAL_PHYS_MEM, PGSIZE]

/-- C1. Insert/lookup round trip: when `page_insert(dir, f, va, perm)` returns
0 for a frame `f` of `pages[]` and a `perm` without bits at or above bit 12
(zero included), `page_lookup(dir, va)` returns `f`, and the slot it stores is
the non-`NULL` slot `pgdir_walk(dir, va, 0)` returns. It holds whatever the
directory entry of `va` was before the call. -/
theorem page_insert_lookup (s : State) (pgdir pp va perm : Nat)
    (hpp : pp < NPAGES) (hperm : perm < 4096)
    (h : (page_insert s pgdir pp va perm).val = some 0) :
    ∃ pte, pte ≠ 0 ∧
      page_lookup (page_insert s pgdir pp va perm).state pgdir va =
        .ret (some pp, pte) (page_insert s pgdir pp va perm).state ∧
      pgdir_walk (page_insert s pgdir pp va perm).state pgdir va 0 =
        .ret pte (page_insert s pgdir pp va perm).state := by
  rw [NPAGES_eq] at hpp
  unfold page_insert at h ⊢
  rcases hw : pgdir_walk s pgdir va 1 with ⟨pte, s1⟩ | s1
  · simp only [hw] at h ⊢
    by_cases h0 : pte = 0
    · simp [h0, Result.val, E_NO_MEM] at h
    · simp only [h0, if_false] at h ⊢
      have hw0 := pgdir_walk_create_post s s1 pgdir va 1 pte hw h0
      have hv0 : (pgdir_walk s1 pgdir va 0).val = some pte := by rw [hw0]; rfl
      generalize hin : (if s1.mem pte &&& PTE_P ≠ 0 then
               if PTE_SMALL_ADDR (s1.mem pte) = page2pa pp then
                 Result.ret () (s1.set_ref pp (dec16 (s1.pages pp).pp_ref))
               else page_remove s1 pgdir va
             else Result.ret () s1) = inner at h ⊢
      have hpg : inner.state.pgdir = s1.pgdir := by
        rw [← hin]
        split
        · split
          · rfl
          · exact page_remove_pgdir s1 pgdir va
        · rfl
      rcases inner with ⟨u, s2⟩ | s2
      · simp only [Result.state] at hpg ⊢
        have hwf := pgdir_walk_zero_transfer s1
          ((s2.store pte (u32 (page2pa pp ||| perm ||| PTE_P))).set_ref pp
            (u16 (((s2.store pte (u32 (page2pa pp ||| perm ||| PTE_P))).pages pp).pp_ref + 1)))
          pgdir va pte (by simp [State.set_ref, State.store, hpg]) hv0
        refine ⟨pte, h0, ?_, hwf⟩
        rw [page_lookup_eq _ pgdir va pte (by rw [hwf]; rfl)]
        have hm : ((s2.store pte (u32 (page2pa pp ||| perm ||| PTE_P))).set_ref pp
            (u16 (((s2.store pte (u32 (page2pa pp ||| perm ||| PTE_P))).pages pp).pp_ref
              + 1))).mem pte = u32 (page2pa pp ||| perm ||| PTE_P) := by
          simp [State.set_ref, State.store]
        rw [hm, pte_written_addr pp perm hperm, pa2page_page2pa pp (by omega)]
        simp [h0, pte_written_present]
      · simp [Result.val] at h
  · simp [hw, Result.val] at h

/-- Witness for C1: frame 11 inserted at address 0 of `ex_one_free`. -/
theorem page_insert_lookup_witness :
    (11 < NPAGES ∧ PTE_NONE_U < 4096 ∧
      (page_insert ex_one_free 0 11 0 PTE_NONE_U).val = some 0) ∧
    ∃ pte, pte ≠ 0 ∧
      page_lookup (page_insert ex_one_free 0 11 0 PTE_NONE_U).state 0 0 =
        .ret (some 11, pte) (page_insert ex_one_free 0 11 0 PTE_NONE_U).state ∧
      pgdir_walk (page_insert ex_one_free 0 11 0 PTE_NONE_U).state 0 0 0 =
        .ret pte (page_insert ex_one_free 0 11 0 PTE_NONE_U).state :=
  ⟨⟨by decide, by decide, by decide⟩,
    page_insert_lookup ex_one_free 0 11 0 PTE_NONE_U (by decide) (by decide) (by decide)⟩

theorem pgdir_walk_of_zero (s : State) (d va c pte : Nat)
    (hw : (pgdir_walk s d va 0).val = some pte) (h0 : pte ≠ 0) :
    pgdir_walk s d va c = .ret pte s := by
  have hp : s.pgdir d (PDX va) &&& PTE_P ≠ 0 := by
    intro hp
    rw [pgdir_walk_absent s d va hp] at hw
    exact h0 (by simpa [Result.val] using hw.symm)
  rw [pgdir_walk_present s d va c hp, Result.eq_ret_iff]
  rw [pgdir_walk_present s d va 0 hp] at hw
  exact ⟨hw, pgdir_walk_slot_state s d va⟩

theorem page_lookup_some (s : State) (d va g pte : Nat)
    (h : (page_lookup s d va).val = some (some g, pte)) :
    (pgdir_walk s d va 0).val = some pte ∧ pte ≠ 0 ∧ s.mem pte &&& PTE_P ≠ 0 ∧
      g = pa2page (PTE_SMALL_ADDR (s.mem pte)) := by
  rcases hw : (pgdir_walk s d va 0).val with _ | p
  · rw [page_lookup_panic s d va hw] at h
    simp [Result.val] at h
  · rw [page_lookup_eq s d va p hw] at h
    split at h
    · simp [Result.val] at h
    · rename_i hc
      simp only [Result.val, Option.some.injEq, Prod.mk.injEq] at h
      obtain ⟨h1, h2⟩ := h
      subst h2
      rw [not_or] at hc
      exact ⟨rfl, hc.1, hc.2, h1.symm⟩

theorem page_lookup_none (s : State) (d va pte : Nat)
    (h : (page_lookup s d va).val = some (none, pte)) :
    (pgdir_walk s d va 0).val = some pte ∧ (pte = 0 ∨ s.mem pte &&& PTE_P = 0) := by
  rcases hw : (pgdir_walk s d va 0).val with _ | p
  · rw [page_lookup_panic s d va hw] at h
    simp [Result.val] at h
  · rw [page_lookup_eq s d va p hw] at h
    split at h
    · rename_i hc
      simp only [Result.val, Option.some.injEq, Prod.mk.injEq, true_and] at h
      subst h
      exact ⟨rfl, hc⟩
    · simp [Result.val] at h

theorem page_alloc_head (s : State) (g flags : Nat) (hh : s.page_free_list = some g)
    (hg : g < NPAGES) : (page_alloc s flags).val = some (some g) := by
  by_cases hz : flags &&& ALLOC_ZERO = 0
  · simp [page_alloc, hh, hz, Result.val]
  · simp [page_alloc, hh, hz, page2kva_of_lt g hg, Result.val]

/-- The frame a present entry addresses is `pp` exactly when `page_insert`
finds the addresses equal. -/
theorem small_addr_eq_iff (w pp : Nat) (hpp : pp < NPAGES) :
    PTE_SMALL_ADDR w = page2pa pp ↔ pa2page (PTE_SMALL_ADDR w) = pp := by
  rw [NPAGES_eq] at hpp
  simp only [pa2page]
  rw [PGNUM_eq, PTE_SMALL_ADDR_eq, page2pa_eq]
  omega

/-- How `page_insert` unfolds when the walk without creation finds a slot. -/
theorem page_insert_eq (s : State) (d pp va perm pte : Nat)
    (hw : (pgdir_walk s d va 0).val = some pte) (h0 : pte ≠ 0) :
    page_insert s d pp va perm =
      .ret 0 ((((if s.mem pte &&& PTE_P ≠ 0 then
          if PTE_SMALL_ADDR (s.mem pte) = page2pa pp then
            s.set_ref pp (dec16 (s.pages pp).pp_ref)
          else (page_remove s d va).state
        else s).store pte (u32 (page2pa pp ||| perm ||| PTE_P)))).set_ref pp
          (u16 (((if s.mem pte &&& PTE_P ≠ 0 then
          if PTE_SMALL_ADDR (s.mem pte) = page2pa pp then
            s.set_ref pp (dec16 (s.pages pp).pp_ref)
          else (page_remove s d va).state
        else s).pages pp).pp_ref + 1))) := by
  unfold page_insert
  rw [pgdir_walk_of_zero s d va 1 pte hw h0]
  simp only [h0, if_false]
  by_cases hp : s.mem pte &&& PTE_P = 0
  · simp [hp, State.store]
  · by_cases he : PTE_SMALL_ADDR (s.mem pte) = page2pa pp
    · simp [hp, he, State.store]
    · have hr := page_remove_eq s d va pte hw
      simp only [h0, hp, if_false] at hr
      simp [hp, he, hr, State.store, Result.state]

/-- The state `page_remove` leaves when it drops a frame. -/
theorem page_remove_mapped_state (s : State) (d va pte : Nat)
    (hw : (pgdir_walk s d va 0).val = some pte) (h0 : pte ≠ 0)
    (hp : s.mem pte &&& PTE_P ≠ 0) :
    page_remove s d va = .ret ()
      ((if dec16 (s.pages (pa2page (PTE_SMALL_ADDR (s.mem pte)))).pp_ref = 0 then
        { (s.set_ref (pa2page (PTE_SMALL_ADDR (s.mem pte))) 0).set_link
            (pa2page (PTE_SMALL_ADDR (s.mem pte))) s.page_free_list with
          page_free_list := some (pa2page (PTE_SMALL_ADDR (s.mem pte))) }
      else s.set_ref (pa2page (PTE_SMALL_ADDR (s.mem pte)))
        (dec16 (s.pages (pa2page (PTE_SMALL_ADDR (s.mem pte)))).pp_ref)).store pte 0) := by
  rw [page_remove_eq s d va pte hw, page_decref_eq]
  rw [if_neg h0, if_neg hp]
  rfl

/-- C3. Dropping the last reference frees the frame: when `g` is mapped at
`(dir, va)` with `g.pp_ref == 1`, both `page_remove(dir, va)` and
`page_insert(dir, f, va, perm)` with `f != g` return, leave `g.pp_ref == 0`
and `g` at the head of the free list, linked to the previous head, and the next
`page_alloc` returns `g`. -/
theorem last_reference_frees (s : State) (pgdir va g pte f perm : Nat)
    (hmap : (page_lookup s pgdir va).val = some (some g, pte))
    (href : (s.pages g).pp_ref = 1) (hg : g < NPAGES) (hf : f < NPAGES) (hfg : f ≠ g) :
    ((page_remove s pgdir va).val = some () ∧
      (page_remove s pgdir va).state.pages g = ⟨s.page_free_list, 0⟩ ∧
      (page_remove s pgdir va).state.page_free_list = some g ∧
      ∀ flags, (page_alloc (page_remove s pgdir va).state flags).val = some (some g)) ∧
    ((page_insert s pgdir f va perm).val = some 0 ∧
      (page_insert s pgdir f va perm).state.pages g = ⟨s.page_free_list, 0⟩ ∧
      (page_insert s pgdir f va perm).state.page_free_list = some g ∧
      ∀ flags, (page_alloc (page_insert s pgdir f va perm).state flags).val = some (some g)) := by
  obtain ⟨hw, h0, hp, hgeq⟩ := page_lookup_some s pgdir va g pte hmap
  have hrm := page_remove_mapped_state s pgdir va pte hw h0 hp
  rw [← hgeq, href] at hrm
  have hz : dec16 1 = 0 := by decide
  simp only [hz, if_true] at hrm
  have hne : PTE_SMALL_ADDR (s.mem pte) ≠ page2pa f := by
    intro e
    exact hfg (((small_addr_eq_iff _ f hf).1 e).symm.trans hgeq.symm)
  have hin := page_insert_eq s pgdir f va perm pte hw h0
  simp only [hp, hne, ne_eq, not_false_eq_true, if_true, if_false, hrm, Result.state] at hin
  have hfl1 : (page_remove s pgdir va).state.page_free_list = some g := by rw [hrm]; rfl
  have hfl2 : (page_insert s pgdir f va perm).state.page_free_list = some g := by rw [hin]; rfl
  refine ⟨⟨by rw [hrm]; rfl, ?_, hfl1, fun flags => page_alloc_head _ g flags hfl1 hg⟩,
    ⟨by rw [hin]; rfl, ?_, hfl2, fun flags => page_alloc_head _ g flags hfl2 hg⟩⟩
  · rw [hrm]
    simp [Result.state, State.store, State.set_link, State.set_ref]
  · rw [hin]
    simp [Result.state, State.store, State.set_link, State.set_ref, Ne.symm hfg]

/-- Witness for C3: in `ex_mapped` frame 11 is mapped once, at address 0;
it is removed, or replaced by frame 10. -/
theorem last_reference_frees_witness :
    ((page_lookup ex_mapped 0 0).val = some (some 11, 0xF000C000) ∧
      (ex_mapped.pages 11).pp_ref = 1 ∧ 11 < NPAGES ∧ 10 < NPAGES ∧ 10 ≠ 11) ∧
    ((page_remove ex_mapped 0 0).val = some () ∧
      (page_remove ex_mapped 0 0).state.pages 11 = ⟨ex_mapped.page_free_list, 0⟩ ∧
      (page_remove ex_mapped 0 0).state.page_free_list = some 11 ∧
      ∀ flags, (page_alloc (page_remove ex_mapped 0 0).state flags).val = some (some 11)) ∧
    ((page_insert ex_mapped 0 10 0 PTE_RW_U).val = some 0 ∧
      (page_insert ex_mapped 0 10 0 PTE_RW_U).state.pages 11 = ⟨ex_mapped.page_free_list, 0⟩ ∧
      (page_insert ex_mapped 0 10 0 PTE_RW_U).state.page_free_list = some 11 ∧
      ∀ flags,
        (page_alloc (page_insert ex_mapped 0 10 0 PTE_RW_U).state flags).val = some (some 11)) :=
  ⟨⟨by decide, by decide, by decide, by decide, by decide⟩,
    last_reference_frees ex_mapped 0 0 11 0xF000C000 10 PTE_RW_U (by decide) (by decide)
      (by decide) (by decide) (by decide)⟩

theorem and_low_mask (x m : Nat) (hm : m < 4096) : x &&& m = x % 4096 &&& m := by
  have h := and_mod_two_pow x m 12
  have h1 : x &&& m ≤ m := Nat.and_le_right
  norm_num at h
  rw [Nat.mod_eq_of_lt (by omega), Nat.mod_eq_of_lt hm] at h
  exact h

theorem pte_written_perm (pp perm : Nat) (hperm : perm &&& 0x230 = perm) :
    u32 (page2pa pp ||| perm ||| PTE_P) &&& 0x230 = perm := by
  have hle : perm &&& 0x230 ≤ 0x230 := Nat.and_le_right
  have hlt : perm < 4096 := by omega
  have h1 := page2pa_mod pp
  have h2 := pte_written_eq pp perm hlt
  rw [h2.1, and_low_mask _ 0x230 (by decide)]
  have h3 : (page2pa pp + (perm ||| 3)) % 4096 = perm ||| 3 := by omega
  rw [h3, Nat.and_comm, Nat.and_or_distrib_left, Nat.and_comm, hperm]
  have h4 : (560 : Nat) &&& 3 = 0 := by decide
  rw [h4, Nat.or_zero]

/-- C4. Re-inserting `f` at the address where it is already mapped, with a
`perm` within the AP/APX bits (mask `0x230`), returns 0; afterwards the PTE
still addresses `f` and `page_lookup` returns `f`, the bits of the PTE under
`0x230` are exactly `perm` (so under `PTE_RW_U` they are those of `perm`), the
free list head and every `pp_link` are as before, no other descriptor changes,
and `f.pp_ref` is unchanged, also when it was 1. -/
theorem page_insert_same_frame (s : State) (pgdir f va perm pte : Nat)
    (hf : f < NPAGES) (hmap : (page_lookup s pgdir va).val = some (some f, pte))
    (hperm : perm &&& 0x230 = perm) :
    (page_insert s pgdir f va perm).val = some 0 ∧
    page_lookup (page_insert s pgdir f va perm).state pgdir va =
      .ret (some f, pte) (page_insert s pgdir f va perm).state ∧
    PTE_SMALL_ADDR ((page_insert s pgdir f va perm).state.mem pte) = page2pa f ∧
    (page_insert s pgdir f va perm).state.mem pte &&& 0x230 = perm ∧
    (page_insert s pgdir f va perm).state.mem pte &&& PTE_RW_U = perm &&& PTE_RW_U ∧
    (page_insert s pgdir f va perm).state.page_free_list = s.page_free_list ∧
    (∀ q, ((page_insert s pgdir f va perm).state.pages q).pp_link = (s.pages q).pp_link) ∧
    (∀ q, q ≠ f → (page_insert s pgdir f va perm).state.pages q = s.pages q) ∧
    ((s.pages f).pp_ref < 65536 →
      ((page_insert s pgdir f va perm).state.pages f).pp_ref = (s.pages f).pp_ref) := by
  obtain ⟨hw, h0, hp, hgeq⟩ := page_lookup_some s pgdir va f pte hmap
  have he : PTE_SMALL_ADDR (s.mem pte) = page2pa f := (small_addr_eq_iff _ f hf).2 hgeq.symm
  have hin := page_insert_eq s pgdir f va perm pte hw h0
  simp only [hp, he, ne_eq, not_false_eq_true, if_true] at hin
  have hle : perm &&& 0x230 ≤ 0x230 := Nat.and_le_right
  have hlt : perm < 4096 := by omega
  have hm : (page_insert s pgdir f va perm).state.mem pte =
      u32 (page2pa f ||| perm ||| PTE_P) := by
    rw [hin]; simp [Result.state, State.store, State.set_ref]
  have hpg : (page_insert s pgdir f va perm).state.pgdir pgdir (PDX va) =
      s.pgdir pgdir (PDX va) := by
    rw [hin]; rfl
  have hwf := pgdir_walk_zero_transfer s (page_insert s pgdir f va perm).state pgdir va pte hpg hw
  refine ⟨by rw [hin]; rfl, ?_, ?_, ?_, ?_, by rw [hin]; rfl, ?_, ?_, ?_⟩
  · rw [page_lookup_eq _ pgdir va pte (by rw [hwf]; rfl), hm, pte_written_addr f perm hlt,
      pa2page_page2pa f (by rw [NPAGES_eq] at hf; omega)]
    simp [h0, pte_written_present]
  · rw [hm]; exact pte_written_addr f perm hlt
  · rw [hm]; exact pte_written_perm f perm hperm
  · have h1 : (0x230 : Nat) &&& PTE_RW_U = PTE_RW_U := by decide
    have h2 : ∀ x : Nat, x &&& PTE_RW_U = (x &&& 0x230) &&& PTE_RW_U := by
      intro x; rw [Nat.and_assoc, h1]
    rw [hm, h2, pte_written_perm f perm hperm]
  · intro q
    rw [hin]
    by_cases hq : q = f <;> simp [Result.state, State.store, State.set_ref, hq]
  · intro q hq
    rw [hin]
    simp [Result.state, State.store, State.set_ref, hq]
  · intro hr
    rw [hin]
    simp only [Result.state, State.store, State.set_ref, if_true, dec16, u16]
    split <;> omega

/-- Witness for C4: frame 11 of `ex_mapped` re-inserted with `PTE_RW_U`. -/
theorem page_insert_same_frame_witness :
    (11 < NPAGES ∧ (page_lookup ex_mapped 0 0).val = some (some 11, 0xF000C000) ∧
      PTE_RW_U &&& 0x230 = PTE_RW_U) ∧
    ((page_insert ex_mapped 0 11 0 PTE_RW_U).val = some 0 ∧
    page_lookup (page_insert ex_mapped 0 11 0 PTE_RW_U).state 0 0 =
      .ret (some 11, 0xF000C000) (page_insert ex_mapped 0 11 0 PTE_RW_U).state ∧
    PTE_SMALL_ADDR ((page_insert ex_mapped 0 11 0 PTE_RW_U).state.mem 0xF000C000) =
      page2pa 11 ∧
    (page_insert ex_mapped 0 11 0 PTE_RW_U).state.mem 0xF000C000 &&& 0x230 = PTE_RW_U ∧
    (page_insert ex_mapped 0 11 0 PTE_RW_U).state.mem 0xF000C000 &&& PTE_RW_U =
      PTE_RW_U &&& PTE_RW_U ∧
    (page_insert ex_mapped 0 11 0 PTE_RW_U).state.page_free_list = ex_mapped.page_free_list ∧
    (∀ q, ((page_insert ex_mapped 0 11 0 PTE_RW_U).state.pages q).pp_link =
      (ex_mapped.pages q).pp_link) ∧
    (∀ q, q ≠ 11 → (page_insert ex_mapped 0 11 0 PTE_RW_U).state.pages q = ex_mapped.pages q) ∧
    ((ex_mapped.pages 11).pp_ref < 65536 →
      ((page_insert ex_mapped 0 11 0 PTE_RW_U).state.pages 11).pp_ref =
        (ex_mapped.pages 11).pp_ref)) :=
  ⟨⟨by decide, by decide, by decide⟩,
    page_insert_same_frame ex_mapped 0 11 0 PTE_RW_U 0xF000C000 (by decide) (by decide)
      (by decide)⟩

theorem PDX_eq (la : Nat) : PDX la = la % 4294967296 / 1048576 := by
  simp [PDX, u32, PDXSHIFT, Nat.shiftRight_eq_div_pow]

theorem PTX_eq (la : Nat) : PTX la = la % 4294967296 / 4096 % 256 := by
  simp [PTX, u32, PTXSHIFT, Nat.shiftRight_eq_div_pow, and_FF]

theorem pgdir_walk_zero_slot (s : State) (d va pte : Nat)
    (hw : (pgdir_walk s d va 0).val = some pte) (h0 : pte ≠ 0) :
    ∃ t, KADDR (PDE_ADDR (s.pgdir d (PDX va))) = some t ∧ pte = t + 4 * PTX va := by
  have hp : s.pgdir d (PDX va) &&& PTE_P ≠ 0 := by
    intro hp
    rw [pgdir_walk_absent s d va hp] at hw
    exact h0 (by simpa [Result.val] using hw.symm)
  rw [pgdir_walk_present s d va 0 hp] at hw
  rcases hk : KADDR (PDE_ADDR (s.pgdir d (PDX va))) with _ | t
  · rw [pgdir_walk_slot_none s d va hk] at hw
    simp [Result.val] at hw
  · rw [pgdir_walk_slot_some s d va t hk] at hw
    exact ⟨t, rfl, by simpa [Result.val] using hw.symm⟩

/-- Two addresses of different pages reach different slots when they share the
directory entry, or when their directory entries address different tables. -/
theorem slot_ne_of_page_ne (s : State) (d va va' pte : Nat)
    (hw : (pgdir_walk s d va 0).val = some pte) (h0 : pte ≠ 0)
    (hpage : PGNUM va' ≠ PGNUM va)
    (htab : PDX va' = PDX va ∨
      PDE_ADDR (s.pgdir d (PDX va')) ≠ PDE_ADDR (s.pgdir d (PDX va))) :
    (pgdir_walk s d va' 0).val ≠ some pte := by
  intro hw'
  obtain ⟨t, hk, he⟩ := pgdir_walk_zero_slot s d va pte hw h0
  obtain ⟨t', hk', he'⟩ := pgdir_walk_zero_slot s d va' pte hw' h0
  have f1 := slot_facts _ va t hk
  have f2 := slot_facts _ va' t' hk'
  have p1 := PTX_lt va
  have p2 := PTX_lt va'
  have htt : t = t' ∧ PTX va = PTX va' := by omega
  rcases htab with hx | hx
  · rw [PGNUM_eq, PGNUM_eq] at hpage
    rw [PDX_eq, PDX_eq] at hx
    have h3 := htt.2
    rw [PTX_eq, PTX_eq] at h3
    omega
  · apply hx
    rw [KADDR_eq] at hk hk'
    have b1 : PDE_ADDR (s.pgdir d (PDX va)) < 4294967296 := by rw [PDE_ADDR_eq]; omega
    have b2 : PDE_ADDR (s.pgdir d (PDX va')) < 4294967296 := by rw [PDE_ADDR_eq]; omega
    split at hk
    · split at hk'
      · injection hk with hk
        injection hk' with hk'
        omega
      · exact absurd hk' (by simp)
    · exact absurd hk (by simp)

theorem dec16_pos (x : Nat) (h1 : 0 < x) (h2 : x < 65536) : dec16 x = x - 1 := by
  simp only [dec16, u16]
  split <;> omega

/-- C7, amended. After `page_remove(dir, va)` on an address that maps `f`: the
call returns, the PTE of `va` is 0, `page_lookup(dir, va)` returns `NULL`,
`f.pp_ref` is one less (as a 16-bit counter), and `page_lookup(dir, va')`
returns what it returned before for every `va'` whose slot is not the slot of
`va`: such is every `va'` of a different page under the same directory entry,
and every `va'` of a different page whose directory entry addresses a
different table. -/
theorem page_remove_mapped (s : State) (pgdir va f pte : Nat)
    (hmap : (page_lookup s pgdir va).val = some (some f, pte)) :
    (page_remove s pgdir va).val = some () ∧
    (page_remove s pgdir va).state.mem pte = 0 ∧
    page_lookup (page_remove s pgdir va).state pgdir va =
      .ret (none, pte) (page_remove s pgdir va).state ∧
    ((page_remove s pgdir va).state.pages f).pp_ref = dec16 (s.pages f).pp_ref ∧
    (0 < (s.pages f).pp_ref → (s.pages f).pp_ref < 65536 →
      ((page_remove s pgdir va).state.pages f).pp_ref = (s.pages f).pp_ref - 1) ∧
    (∀ va', (pgdir_walk s pgdir va' 0).val ≠ some pte →
      (page_lookup (page_remove s pgdir va).state pgdir va').val =
        (page_lookup s pgdir va').val) ∧
    (∀ va', PGNUM va' ≠ PGNUM va →
      (PDX va' = PDX va ∨
        PDE_ADDR (s.pgdir pgdir (PDX va')) ≠ PDE_ADDR (s.pgdir pgdir (PDX va))) →
      (page_lookup (page_remove s pgdir va).state pgdir va').val =
        (page_lookup s pgdir va').val) := by
  obtain ⟨hw, h0, hp, hgeq⟩ := page_lookup_some s pgdir va f pte hmap
  have hrm := page_remove_mapped_state s pgdir va pte hw h0 hp
  rw [← hgeq] at hrm
  have hpg : (page_remove s pgdir va).state.pgdir = s.pgdir := page_remove_pgdir s pgdir va
  have hmem : ∀ a, (page_remove s pgdir va).state.mem a = if a = pte then 0 else s.mem a := by
    intro a
    have hrm2 := page_remove_eq s pgdir va pte hw
    rw [if_neg h0, if_neg hp] at hrm2
    rw [hrm2]
    have hd := (page_decref_frame s (pa2page (PTE_SMALL_ADDR (s.mem pte)))).2.1
    show (if a = pte then 0 else (page_decref s _).state.mem a) = _
    rw [hd]
  have hwf := pgdir_walk_zero_transfer s (page_remove s pgdir va).state pgdir va pte
    (by rw [hpg]) hw
  have hother : ∀ va', (pgdir_walk s pgdir va' 0).val ≠ some pte →
      (page_lookup (page_remove s pgdir va).state pgdir va').val =
        (page_lookup s pgdir va').val := by
    intro va' hne
    have hc := pgdir_walk_zero_congr s (page_remove s pgdir va).state pgdir va' (by rw [hpg])
    rcases hw' : (pgdir_walk s pgdir va' 0).val with _ | p
    · rw [page_lookup_panic s pgdir va' hw', page_lookup_panic _ pgdir va' (hc.1.trans hw')]
      rfl
    · have hpne : p ≠ pte := fun e => hne (by rw [hw', e])
      rw [page_lookup_eq s pgdir va' p hw', page_lookup_eq _ pgdir va' p (hc.1.trans hw'),
        hmem p, if_neg hpne]
      split <;> rfl
  have href : ((page_remove s pgdir va).state.pages f).pp_ref = dec16 (s.pages f).pp_ref := by
    rw [hrm]
    simp only [Result.state, State.store]
    split
    · rename_i hz
      simp [State.set_link, State.set_ref, hz]
    · simp [State.set_ref]
  refine ⟨by rw [hrm]; rfl, by rw [hmem]; simp, ?_, href, ?_, hother, ?_⟩
  · rw [page_lookup_eq _ pgdir va pte (by rw [hwf]; rfl), hmem]
    simp [PTE_P]
  · intro h1 h2
    rw [href, dec16_pos _ h1 h2]
  · intro va' h1 h2
    exact hother va' (slot_ne_of_page_ne s pgdir va va' pte hw h0 h1 h2)

/-- Witness for C7: the mapping of frame 11 at address 0 of `ex_mapped`. -/
theorem page_remove_mapped_witness :
    (page_lookup ex_mapped 0 0).val = some (some 11, 0xF000C000) ∧
    ((page_remove ex_mapped 0 0).val = some () ∧
    (page_remove ex_mapped 0 0).state.mem 0xF000C000 = 0 ∧
    page_lookup (page_remove ex_mapped 0 0).state 0 0 =
      .ret (none, 0xF000C000) (page_remove ex_mapped 0 0).state ∧
    ((page_remove ex_mapped 0 0).state.pages 11).pp_ref = dec16 (ex_mapped.pages 11).pp_ref ∧
    (0 < (ex_mapped.pages 11).pp_ref → (ex_mapped.pages 11).pp_ref < 65536 →
      ((page_remove ex_mapped 0 0).state.pages 11).pp_ref = (ex_mapped.pages 11).pp_ref - 1) ∧
    (∀ va', (pgdir_walk ex_mapped 0 va' 0).val ≠ some 0xF000C000 →
      (page_lookup (page_remove ex_mapped 0 0).state 0 va').val =
        (page_lookup ex_mapped 0 va').val) ∧
    (∀ va', PGNUM va' ≠ PGNUM 0 →
      (PDX va' = PDX 0 ∨
        PDE_ADDR (ex_mapped.pgdir 0 (PDX va')) ≠ PDE_ADDR (ex_mapped.pgdir 0 (PDX 0))) →
      (page_lookup (page_remove ex_mapped 0 0).state 0 va').val =
        (page_lookup ex_mapped 0 va').val)) :=
  ⟨by decide, page_remove_mapped ex_mapped 0 0 11 0xF000C000 (by decide)⟩

/-- C7, counterexample. In `ex_shared` the addresses `0x0` and `0x100000` lie
in different pages and both map frame 5, through directory entries that
address one table; `page_remove(dir, 0x0)` makes `page_lookup(dir, 0x100000)`
return `NULL`. -/
theorem page_remove_shared_table :
    (page_lookup ex_shared 0 0).val = some (some 5, 0xF0001000) ∧
    PGNUM 0x100000 ≠ PGNUM 0 ∧
    (page_lookup ex_shared 0 0x100000).val = some (some 5, 0xF0001000) ∧
    (page_lookup (page_remove ex_shared 0 0).state 0 0x100000).val =
      some (none, 0xF0001000) := by
  decide

theorem State.store_same (s : State) (pte : Nat) (h : s.mem pte = 0) : s.store pte 0 = s := by
  cases s with
  | mk pgdir mem pages fl tbl =>
    simp only [State.store, State.mk.injEq, true_and, and_true]
    funext a
    by_cases ha : a = pte
    · simp only [ha, if_true]; exact h.symm
    · simp [ha]

/-- C8, amended. When `page_lookup(dir, va)` returns `NULL`, storing `pte` in
`*pte_store`, `page_remove(dir, va)` returns and leaves the directories, every
frame descriptor, the free list and the cursor as they were, and every table
word other than `*pte`; when there is a slot (`pte != NULL`) its word becomes
0. So the state is unchanged when there is no table or the PTE was 0. -/
theorem page_remove_unmapped (s : State) (pgdir va pte : Nat)
    (hmap : (page_lookup s pgdir va).val = some (none, pte)) :
    (page_remove s pgdir va).val = some () ∧
    (page_remove s pgdir va).state.pgdir = s.pgdir ∧
    (page_remove s pgdir va).state.pages = s.pages ∧
    (page_remove s pgdir va).state.page_free_list = s.page_free_list ∧
    (page_remove s pgdir va).state.tbl = s.tbl ∧
    (∀ a, a ≠ pte → (page_remove s pgdir va).state.mem a = s.mem a) ∧
    (pte ≠ 0 → (page_remove s pgdir va).state.mem pte = 0) ∧
    (pte = 0 ∨ s.mem pte = 0 → (page_remove s pgdir va).state = s) := by
  obtain ⟨hw, hc⟩ := page_lookup_none s pgdir va pte hmap
  have hrm := page_remove_eq s pgdir va pte hw
  by_cases h0 : pte = 0
  · simp only [h0, if_true] at hrm
    rw [hrm]
    simp [Result.val, Result.state, h0]
  · have hp : s.mem pte &&& PTE_P = 0 := by
      rcases hc with hc | hc
      · exact absurd hc h0
      · exact hc
    simp only [h0, hp, if_true, if_false] at hrm
    rw [hrm]
    refine ⟨rfl, rfl, rfl, rfl, rfl, ?_, ?_, ?_⟩
    · intro a ha; simp [Result.state, State.store, ha]
    · intro _; simp [Result.state, State.store]
    · intro hz
      rcases hz with hz | hz
      · exact absurd hz h0
      · exact State.store_same s pte hz

/-- Witness for C8: address `0x1000` of `ex_mapped`, whose table exists and
whose PTE is 0. -/
theorem page_remove_unmapped_witness :
    (page_lookup ex_mapped 0 0x1000).val = some (none, 0xF000C004) ∧
    ((page_remove ex_mapped 0 0x1000).val = some () ∧
    (page_remove ex_mapped 0 0x1000).state.pgdir = ex_mapped.pgdir ∧
    (page_remove ex_mapped 0 0x1000).state.pages = ex_mapped.pages ∧
    (page_remove ex_mapped 0 0x1000).state.page_free_list = ex_mapped.page_free_list ∧
    (page_remove ex_mapped 0 0x1000).state.tbl = ex_mapped.tbl ∧
    (∀ a, a ≠ 0xF000C004 → (page_remove ex_mapped 0 0x1000).state.mem a = ex_mapped.mem a) ∧
    (0xF000C004 ≠ 0 → (page_remove ex_mapped 0 0x1000).state.mem 0xF000C004 = 0) ∧
    (0xF000C004 = 0 ∨ ex_mapped.mem 0xF000C004 = 0 →
      (page_remove ex_mapped 0 0x1000).state = ex_mapped)) :=
  ⟨by decide, page_remove_unmapped ex_mapped 0 0x1000 0xF000C004 (by decide)⟩

/-- C8, counterexample. In `ex_stale` the PTE of address 0 has its present
bits clear, so `page_lookup` returns `NULL`, yet the word is `0x5010`;
`page_remove(dir, 0)` overwrites it with 0. -/
theorem page_remove_clears_stale_entry :
    (page_lookup ex_stale 0 0).val = some (none, 0xF0001000) ∧
    ex_stale.mem 0xF0001000 = 0x5010 ∧
    (page_remove ex_stale 0 0).state.mem 0xF0001000 = 0 := by
  decide

/-! ## Creating a table -/

theorem page2kva_facts (pg kva : Nat) (hk : page2kva pg = some kva) :
    kva = page2pa pg + 4026531840 ∧ page2pa pg < 268435456 ∧ page2pa pg % 4096 = 0 := by
  have h1 := page2pa_mod pg
  unfold page2kva at hk
  rw [KADDR_eq] at hk
  split at hk
  · injection hk with hk
    omega
  · exact absurd hk (by simp)

theorem PADDR_page2kva (pg kva : Nat) (hk : page2kva pg = some kva) :
    PADDR kva = some (page2pa pg) := by
  obtain ⟨h1, h2, h3⟩ := page2kva_facts pg kva hk
  have h4 : ¬ kva % 4294967296 < 4026531840 := by omega
  have h5 : kva % 4294967296 - 4026531840 = page2pa pg := by omega
  simp [PADDR, u32, KERNBASE, h4, h5]

theorem new_pde_facts (pg kva : Nat) (hk : page2kva pg = some kva) :
    KADDR (PDE_ADDR (u32 (page2pa pg ||| PDE_ENTRY))) = some kva := by
  obtain ⟨h1, h2, h3⟩ := page2kva_facts pg kva hk
  have h4 := or_eq_add (page2pa pg) 1 12 (by simpa using h3) (by decide)
  rw [KADDR_eq, PDE_ADDR_eq]
  simp only [PDE_ENTRY, h4, u32]
  have h5 : (page2pa pg + 1) % 4294967296 % 4294967296 / 1024 * 1024 % 4294967296 =
      page2pa pg := by omega
  rw [h5, if_pos h2, h1]

theorem page_alloc_zero_eq (s : State) (pg kva : Nat) (hfl : s.page_free_list = some pg)
    (hk : page2kva pg = some kva) :
    page_alloc s ALLOC_ZERO = .ret (some pg)
      (({ s with page_free_list := (s.pages pg).pp_link }.memset0 kva PGSIZE).set_link pg none) := by
  have hz : ALLOC_ZERO &&& ALLOC_ZERO ≠ 0 := by decide
  simp only [page_alloc, hfl, if_pos hz, hk]

/-- How `pgdir_walk` with creation unfolds on an empty directory entry, the
cursor page-aligned and frame `pg` at the head of the free list. -/
theorem pgdir_walk_new_table (s : State) (d va c pg kva : Nat) (hc : c ≠ 0)
    (hp : s.pgdir d (PDX va) &&& PTE_P = 0) (hca : u32 s.tbl % PGSIZE = 0)
    (hfl : s.page_free_list = some pg) (hk : page2kva pg = some kva) :
    pgdir_walk s d va c = .ret (kva + 4 * PTX va) (s.with_new_table d va pg kva) := by
  obtain ⟨h1, h2, h3⟩ := page2kva_facts pg kva hk
  have hkva : kva ≠ 0 := by omega
  have hpa := PADDR_page2kva pg kva hk
  have hal : pgtbl_alloc s = .ret kva
      { s with
        mem := fun a => if kva ≤ a ∧ a < kva + PGSIZE then 0 else s.mem a
        pages := fun q =>
          if q = pg then ⟨none, u16 ((s.pages pg).pp_ref + 1)⟩ else s.pages q
        page_free_list := (s.pages pg).pp_link
        tbl := u32 (kva + NPTENTRIES * 4 * sizeof_pte_t) } := by
    unfold pgtbl_alloc
    rw [if_pos hca, page_alloc_zero_eq s pg kva hfl hk]
    simp only [hk, State.set_ref, State.set_link, State.memset0, if_true, Result.ret.injEq,
      true_and, State.mk.injEq, and_true]
    funext q
    by_cases hq : q = pg <;> simp [hq]
  unfold pgdir_walk
  rw [if_pos hp, if_neg hc, hal]
  simp only [hkva, if_false, hpa]
  have hslot := pgdir_walk_slot_some
    ((State.mk s.pgdir (fun a => if kva ≤ a ∧ a < kva + PGSIZE then 0 else s.mem a)
      (fun q => if q = pg then ⟨none, u16 ((s.pages pg).pp_ref + 1)⟩ else s.pages q)
      (s.pages pg).pp_link (u32 (kva + NPTENTRIES * 4 * sizeof_pte_t))).set_pde d (PDX va)
        (u32 (page2pa pg ||| PDE_ENTRY))) d va kva
    (by simp only [State.set_pde, and_self, if_true]; exact new_pde_facts pg kva hk)
  rw [hslot]
  rfl

theorem pgdir_walk_no_table (s : State) (d va c : Nat) (hc : c ≠ 0)
    (hp : s.pgdir d (PDX va) &&& PTE_P = 0) (hca : u32 s.tbl % PGSIZE = 0)
    (hfl : s.page_free_list = none) : pgdir_walk s d va c = .ret 0 s := by
  have hal : pgtbl_alloc s = .ret 0 s := by
    unfold pgtbl_alloc
    rw [if_pos hca]
    simp [page_alloc, hfl]
  unfold pgdir_walk
  rw [if_pos hp, if_neg hc, hal]
  simp

/-- The cursor of `pgtbl_alloc` stays page-aligned: a table is never carved
out of the frame of the previous one. -/
theorem pgdir_walk_cursor (s : State) (d va c : Nat) (hca : u32 s.tbl % PGSIZE = 0) :
    u32 (pgdir_walk s d va c).state.tbl % PGSIZE = 0 := by
  by_cases hp : s.pgdir d (PDX va) &&& PTE_P = 0
  · by_cases hc : c = 0
    · subst hc
      rw [pgdir_walk_zero_state]; exact hca
    · rcases hfl : s.page_free_list with _ | pg
      · rw [pgdir_walk_no_table s d va c hc hp hca hfl]; exact hca
      · rcases hk : page2kva pg with _ | kva
        · have hz : ALLOC_ZERO &&& ALLOC_ZERO ≠ 0 := by decide
          unfold pgdir_walk
          rw [if_pos hp, if_neg hc]
          unfold pgtbl_alloc
          rw [if_pos hca]
          simp only [page_alloc, hfl, if_pos hz, hk, Result.state]
          exact hca
        · obtain ⟨h1, h2, h3⟩ := page2kva_facts pg kva hk
          rw [pgdir_walk_new_table s d va c pg kva hc hp hca hfl hk]
          simp only [Result.state, State.with_new_table, u32, PGSIZE, NPTENTRIES, sizeof_pte_t]
          omega
  · rw [pgdir_walk_present s d va c hp, pgdir_walk_slot_state]
    exact hca

theorem page_insert_after_walk (s s1 : State) (d pp va perm pte : Nat)
    (hw : pgdir_walk s d va 1 = .ret pte s1) (h0 : pte ≠ 0) :
    page_insert s d pp va perm = page_insert s1 d pp va perm := by
  have hw0 := pgdir_walk_create_post s s1 d va 1 pte hw h0
  have hw1 := pgdir_walk_of_zero s1 d va 1 pte (by rw [hw0]; rfl) h0
  unfold page_insert
  rw [hw, hw1]

/-- The three ways `page_insert` ends, the cursor page-aligned and the head of
the free list a descriptor of `pages[]`. -/
theorem page_insert_outcome (s : State) (d pp va perm : Nat)
    (hca : u32 s.tbl % PGSIZE = 0) (hhd : ∀ pg, s.page_free_list = some pg → pg < NPAGES) :
    (s.pgdir d (PDX va) &&& PTE_P = 0 → s.page_free_list = none →
      page_insert s d pp va perm = .ret (-(E_NO_MEM : Int)) s) ∧
    (s.pgdir d (PDX va) &&& PTE_P ≠ 0 → KADDR (PDE_ADDR (s.pgdir d (PDX va))) = none →
      page_insert s d pp va perm = .panic s) ∧
    (¬ (s.pgdir d (PDX va) &&& PTE_P = 0 ∧ s.page_free_list = none) →
      ¬ (s.pgdir d (PDX va) &&& PTE_P ≠ 0 ∧ KADDR (PDE_ADDR (s.pgdir d (PDX va))) = none) →
      (page_insert s d pp va perm).val = some 0) := by
  refine ⟨?_, ?_, ?_⟩
  · intro hp hfl
    unfold page_insert
    rw [pgdir_walk_no_table s d va 1 (by decide) hp hca hfl]
    simp
  · intro hp hk
    unfold page_insert
    rw [pgdir_walk_present s d va 1 hp, pgdir_walk_slot_none s d va hk]
  · intro h1 h2
    by_cases hp : s.pgdir d (PDX va) &&& PTE_P = 0
    · rcases hfl : s.page_free_list with _ | pg
      · exact absurd ⟨hp, hfl⟩ h1
      · have hk := page2kva_of_lt pg (hhd pg hfl)
        have hw := pgdir_walk_new_table s d va 1 pg _ (by decide) hp hca hfl hk
        have h0 : pg * 4096 + 4026531840 + 4 * PTX va ≠ 0 := by omega
        rw [page_insert_after_walk s _ d pp va perm _ hw h0]
        have hw0 := pgdir_walk_create_post s _ d va 1 _ hw h0
        rw [page_insert_eq _ d pp va perm _ (by rw [hw0]; rfl) h0]
        rfl
    · rcases hk : KADDR (PDE_ADDR (s.pgdir d (PDX va))) with _ | t
      · exact absurd ⟨hp, hk⟩ h2
      · have hw : (pgdir_walk s d va 0).val = some (t + 4 * PTX va) := by
          rw [pgdir_walk_present s d va 0 hp, pgdir_walk_slot_some s d va t hk]; rfl
        rw [page_insert_eq s d pp va perm _ hw (slot_facts _ va t hk).2.1]
        rfl

/-- C5, counterexample. The section entry `mem_init` installs for the GPIO
window has its present bits set and addresses physical memory outside RAM:
`page_insert` at an address of that directory slot does not return 0, the
walker panics in `KADDR`. -/
theorem page_insert_panics_on_section :
    ex_gpio.pgdir 0 (PDX 0x3F200000) = 0x3F200402 ∧
    ex_gpio.pgdir 0 (PDX 0x3F200000) &&& PTE_P ≠ 0 ∧
    ex_gpio.page_free_list ≠ none ∧
    (page_insert ex_gpio 0 11 0x3F200000 PTE_NONE_U).val = none ∧
    (page_insert ex_gpio 0 11 0x3F200000 PTE_NONE_U).panics = true := by
  decide

/-- C6, the code at the failing input. From the initial cursor and the free
list 12, 11, 10, 9, four creating walks on the four first directory slots
take four frames: each table starts at the beginning of a frame of its own
(`0xF000C000`, `0xF000B000`, `0xF000A000`, `0xF0009000`), the free list ends
empty, and the cursor has moved by 4096 bytes, not 1024, after the first
walk. -/
theorem walker_takes_a_frame_per_table :
    (pgdir_walk ex_four_free 0 0 1).val = some 0xF000C000 ∧
    (pgdir_walk ex_four_free 0 0 1).state.tbl = 0xF000C000 + 4096 ∧
    (pgdir_walk (pgdir_walk ex_four_free 0 0 1).state 0 PTSIZE 1).val = some 0xF000B000 ∧
    (pgdir_walk (pgdir_walk (pgdir_walk ex_four_free 0 0 1).state 0 PTSIZE 1).state 0
      (2 * PTSIZE) 1).val = some 0xF000A000 ∧
    (pgdir_walk (pgdir_walk (pgdir_walk (pgdir_walk ex_four_free 0 0 1).state 0 PTSIZE 1).state 0
      (2 * PTSIZE) 1).state 0 (3 * PTSIZE) 1).val = some 0xF0009000 ∧
    (pgdir_walk (pgdir_walk (pgdir_walk (pgdir_walk ex_four_free 0 0 1).state 0 PTSIZE 1).state 0
      (2 * PTSIZE) 1).state 0 (3 * PTSIZE) 1).state.page_free_list = none ∧
    (pgdir_walk ex_four_free 0 0 1).state.page_free_list = some 11 := by
  decide

theorem Result.state_ret {α : Type} (a : α) (s : State) : (Result.ret a s).state = s := rfl

theorem page_decref_pages (s : State) (g : Nat) :
    ((page_decref s g).state.pages g).pp_ref = dec16 (s.pages g).pp_ref ∧
      ∀ q, q ≠ g → (page_decref s g).state.pages q = s.pages q := by
  rw [page_decref_eq]
  simp only [Result.state]
  split
  · rename_i hz
    refine ⟨by simp [State.set_link, State.set_ref, hz], ?_⟩
    intro q hq
    simp [State.set_link, State.set_ref, hq]
  · refine ⟨by simp [State.set_ref], ?_⟩
    intro q hq
    simp [State.set_ref, hq]

theorem page_remove_pages (s : State) (d va pte : Nat)
    (hw : (pgdir_walk s d va 0).val = some pte) (h0 : pte ≠ 0)
    (hp : s.mem pte &&& PTE_P ≠ 0) :
    ((page_remove s d va).state.pages (pa2page (PTE_SMALL_ADDR (s.mem pte)))).pp_ref =
        dec16 (s.pages (pa2page (PTE_SMALL_ADDR (s.mem pte)))).pp_ref ∧
      ∀ q, q ≠ pa2page (PTE_SMALL_ADDR (s.mem pte)) →
        (page_remove s d va).state.pages q = s.pages q := by
  have hrm := page_remove_eq s d va pte hw
  rw [if_neg h0, if_neg hp] at hrm
  rw [hrm]
  exact page_decref_pages s _

theorem u16_dec16_succ (x : Nat) (hx : x < 65536) : u16 (dec16 x + 1) = x := by
  simp only [dec16, u16]
  split <;> omega

/-- C2, amended. For a successful `page_insert(dir, f, va, perm)` of a frame
`f` of `pages[]` whose `pp_ref` is a 16-bit value, the cursor page-aligned:
if `(dir, va)` did not map `f` and the call does not take `f` itself from the
free list for a new table, `f.pp_ref` becomes its old value plus one (as a
16-bit counter); if the call does take `f` for the new table, plus two; if
`(dir, va)` already mapped `f`, `f.pp_ref` is unchanged; and a different frame
`g` that was mapped at `(dir, va)` has its `pp_ref` decremented once. -/
theorem page_insert_refcount (s : State) (pgdir pp va perm : Nat)
    (hca : u32 s.tbl % PGSIZE = 0) (hpp : pp < NPAGES)
    (href : (s.pages pp).pp_ref < 65536)
    (h : (page_insert s pgdir pp va perm).val = some 0) :
    ((∀ pte, (page_lookup s pgdir va).val ≠ some (some pp, pte)) →
      ¬ (s.pgdir pgdir (PDX va) &&& PTE_P = 0 ∧ s.page_free_list = some pp) →
      ((page_insert s pgdir pp va perm).state.pages pp).pp_ref =
        u16 ((s.pages pp).pp_ref + 1)) ∧
    ((s.pgdir pgdir (PDX va) &&& PTE_P = 0 ∧ s.page_free_list = some pp) →
      ((page_insert s pgdir pp va perm).state.pages pp).pp_ref =
        u16 ((s.pages pp).pp_ref + 2)) ∧
    (∀ pte, (page_lookup s pgdir va).val = some (some pp, pte) →
      ((page_insert s pgdir pp va perm).state.pages pp).pp_ref = (s.pages pp).pp_ref) ∧
    (∀ g pte, g ≠ pp → (page_lookup s pgdir va).val = some (some g, pte) →
      ((page_insert s pgdir pp va perm).state.pages g).pp_ref = dec16 (s.pages g).pp_ref) := by
  by_cases hp : s.pgdir pgdir (PDX va) &&& PTE_P = 0
  · -- no table yet: nothing is mapped at `va`
    have hlk : (page_lookup s pgdir va).val = some (none, 0) := by
      rw [page_lookup_eq s pgdir va 0 (by rw [pgdir_walk_absent s pgdir va hp]; rfl)]
      simp [Result.val]
    rcases hfl : s.page_free_list with _ | pg
    · rw [pgdir_walk_no_table s pgdir va 1 (by decide) hp hca hfl |>
        fun hw => show page_insert s pgdir pp va perm = .ret (-(E_NO_MEM : Int)) s by
          unfold page_insert; rw [hw]; simp] at h
      simp [Result.val, E_NO_MEM] at h
    · rcases hk : page2kva pg with _ | kva
      · have hz : ALLOC_ZERO &&& ALLOC_ZERO ≠ 0 := by decide
        have hpanic : (page_insert s pgdir pp va perm).val = none := by
          unfold page_insert pgdir_walk
          rw [if_pos hp, if_neg (by decide : ¬ (1 : Nat) = 0)]
          unfold pgtbl_alloc
          rw [if_pos hca]
          simp only [page_alloc, hfl, if_pos hz, hk, Result.val]
        rw [hpanic] at h
        exact absurd h (by simp)
      · obtain ⟨k1, k2, k3⟩ := page2kva_facts pg kva hk
        have hptx := PTX_lt va
        have hw := pgdir_walk_new_table s pgdir va 1 pg kva (by decide) hp hca hfl hk
        have h0 : kva + 4 * PTX va ≠ 0 := by omega
        have hw0 := pgdir_walk_create_post s _ pgdir va 1 _ hw h0
        have hin := page_insert_eq (s.with_new_table pgdir va pg kva) pgdir pp va perm _
          (by rw [hw0]; rfl) h0
        have hzero : (s.with_new_table pgdir va pg kva).mem (kva + 4 * PTX va) = 0 := by
          have : kva ≤ kva + 4 * PTX va ∧ kva + 4 * PTX va < kva + PGSIZE := by
            simp only [PGSIZE]; omega
          simp only [State.with_new_table, this, and_self, if_true]
        have hnp : ¬ ((s.with_new_table pgdir va pg kva).mem (kva + 4 * PTX va) &&& PTE_P ≠ 0) := by
          rw [hzero]; simp
        rw [if_neg hnp] at hin
        rw [page_insert_after_walk s _ pgdir pp va perm _ hw h0, hin]
        have hval : ((Result.ret (0 : Int)
            (((s.with_new_table pgdir va pg kva).store (kva + 4 * PTX va)
              (u32 (page2pa pp ||| perm ||| PTE_P))).set_ref pp
              (u16 (((s.with_new_table pgdir va pg kva).pages pp).pp_ref + 1)))).state.pages
                pp).pp_ref = u16 (((s.with_new_table pgdir va pg kva).pages pp).pp_ref + 1) := by
          simp [Result.state, State.set_ref]
        rw [hval]
        refine ⟨?_, ?_, ?_, ?_⟩
        · intro _ hnot
          have hne : pp ≠ pg := fun e => hnot ⟨hp, by rw [e]⟩
          simp [State.with_new_table, hne]
        · intro hyes
          have he : pp = pg := by
            have := hyes.2
            simpa using this.symm
          simp only [State.with_new_table, he, if_true, u16]
          omega
        · intro pte hm
          rw [hlk] at hm
          simp at hm
        · intro g pte _ hm
          rw [hlk] at hm
          simp at hm
  · rcases hk : KADDR (PDE_ADDR (s.pgdir pgdir (PDX va))) with _ | t
    · have hpanic : page_insert s pgdir pp va perm = .panic s := by
        unfold page_insert
        rw [pgdir_walk_present s pgdir va 1 hp, pgdir_walk_slot_none s pgdir va hk]
      rw [hpanic] at h
      simp [Result.val] at h
    · have hw : (pgdir_walk s pgdir va 0).val = some (t + 4 * PTX va) := by
        rw [pgdir_walk_present s pgdir va 0 hp, pgdir_walk_slot_some s pgdir va t hk]; rfl
      have h0 := (slot_facts _ va t hk).2.1
      have hin := page_insert_eq s pgdir pp va perm _ hw h0
      have hlk := page_lookup_eq s pgdir va _ hw
      by_cases hpr : s.mem (t + 4 * PTX va) &&& PTE_P = 0
      · have hnp : ¬ (s.mem (t + 4 * PTX va) &&& PTE_P ≠ 0) := by simpa using hpr
        rw [if_neg hnp] at hin
        rw [if_pos (Or.inr hpr)] at hlk
        rw [hin, hlk]
        refine ⟨?_, fun hyes => absurd hyes.1 hp, ?_, ?_⟩
        · intro _ _
          simp [Result.state, State.set_ref, State.store]
        · intro pte hm
          simp [Result.val] at hm
        · intro g pte _ hm
          simp [Result.val] at hm
      · have hnn : ¬ (t + 4 * PTX va = 0 ∨ s.mem (t + 4 * PTX va) &&& PTE_P = 0) := by
          simp [h0, hpr]
        rw [if_neg hnn] at hlk
        rw [if_pos hpr] at hin
        by_cases he : PTE_SMALL_ADDR (s.mem (t + 4 * PTX va)) = page2pa pp
        · have hg : pa2page (PTE_SMALL_ADDR (s.mem (t + 4 * PTX va))) = pp :=
            (small_addr_eq_iff _ pp hpp).1 he
          rw [if_pos he] at hin
          rw [hin, hlk, hg]
          refine ⟨?_, fun hyes => absurd hyes.1 hp, ?_, ?_⟩
          · intro hno _
            exact absurd rfl (hno _)
          · intro _ _
            simp only [Result.state, State.set_ref, State.store, if_true]
            exact u16_dec16_succ _ href
          · intro g pte hne hm
            simp only [Result.val, Option.some.injEq, Prod.mk.injEq] at hm
            exact absurd hm.1.symm hne
        · have hg : pa2page (PTE_SMALL_ADDR (s.mem (t + 4 * PTX va))) ≠ pp :=
            fun e => he ((small_addr_eq_iff _ pp hpp).2 e)
          obtain ⟨r1, r2⟩ := page_remove_pages s pgdir va _ hw h0 hpr
          rw [if_neg he] at hin
          rw [hin, hlk]
          refine ⟨?_, fun hyes => absurd hyes.1 hp, ?_, ?_⟩
          · intro _ _
            simp only [Result.state_ret, State.set_ref, State.store, if_true]
            rw [r2 pp (Ne.symm hg)]
          · intro pte hm
            simp only [Result.val, Option.some.injEq, Prod.mk.injEq] at hm
            exact absurd hm.1 hg
          · intro g pte hne hm
            simp only [Result.val, Option.some.injEq, Prod.mk.injEq] at hm
            rw [← hm.1]
            simp only [Result.state_ret, State.set_ref, State.store, hg, if_false]
            exact r1

/-- Witness for C2: frame 10 inserted at address 0 of `ex_mapped`, where
frame 11 is mapped. -/
theorem page_insert_refcount_witness :
    (u32 ex_mapped.tbl % PGSIZE = 0 ∧ 10 < NPAGES ∧ (ex_mapped.pages 10).pp_ref < 65536 ∧
      (page_insert ex_mapped 0 10 0 PTE_NONE_U).val = some 0) ∧
    (((∀ pte, (page_lookup ex_mapped 0 0).val ≠ some (some 10, pte)) →
      ¬ (ex_mapped.pgdir 0 (PDX 0) &&& PTE_P = 0 ∧ ex_mapped.page_free_list = some 10) →
      ((page_insert ex_mapped 0 10 0 PTE_NONE_U).state.pages 10).pp_ref =
        u16 ((ex_mapped.pages 10).pp_ref + 1)) ∧
    ((ex_mapped.pgdir 0 (PDX 0) &&& PTE_P = 0 ∧ ex_mapped.page_free_list = some 10) →
      ((page_insert ex_mapped 0 10 0 PTE_NONE_U).state.pages 10).pp_ref =
        u16 ((ex_mapped.pages 10).pp_ref + 2)) ∧
    (∀ pte, (page_lookup ex_mapped 0 0).val = some (some 10, pte) →
      ((page_insert ex_mapped 0 10 0 PTE_NONE_U).state.pages 10).pp_ref =
        (ex_mapped.pages 10).pp_ref) ∧
    (∀ g pte, g ≠ 10 → (page_lookup ex_mapped 0 0).val = some (some g, pte) →
      ((page_insert ex_mapped 0 10 0 PTE_NONE_U).state.pages g).pp_ref =
        dec16 (ex_mapped.pages g).pp_ref)) :=
  ⟨⟨by decide, by decide, by decide, by decide⟩,
    page_insert_refcount ex_mapped 0 10 0 PTE_NONE_U (by decide) (by decide) (by decide)
      (by decide)⟩

/-- C2, counterexample. In `ex_one_free` nothing is mapped at address 0 and
frame 12, with `pp_ref == 0`, is the head of the free list;
`page_insert(dir, 12, 0x0, PTE_NONE_U)` succeeds and leaves `pp_ref == 2`:
the walker took frame 12 itself for the new table. -/
theorem page_insert_of_table_frame :
    (page_lookup ex_one_free 0 0).val = some (none, 0) ∧
    (ex_one_free.pages 12).pp_ref = 0 ∧
    (page_insert ex_one_free 0 12 0 PTE_NONE_U).val = some 0 ∧
    ((page_insert ex_one_free 0 12 0 PTE_NONE_U).state.pages 12).pp_ref = 2 := by
  decide

/-! ## The cursor stays page-aligned -/

theorem page_remove_tbl (s : State) (d va : Nat) : (page_remove s d va).state.tbl = s.tbl := by
  rcases hw : (pgdir_walk s d va 0).val with _ | pte
  · rw [page_remove_panic s d va hw]; rfl
  · rw [page_remove_eq s d va pte hw]
    split
    · rfl
    · split
      · rfl
      · exact (page_decref_frame s _).2.2

theorem page_insert_tbl (s : State) (d pp va perm : Nat) :
    (page_insert s d pp va perm).state.tbl = (pgdir_walk s d va 1).state.tbl := by
  unfold page_insert
  rcases hw : pgdir_walk s d va 1 with ⟨pte, s1⟩ | s1
  · simp only [Result.state_ret]
    by_cases h0 : pte = 0
    · rw [if_pos h0]; rfl
    · rw [if_neg h0]
      by_cases hp : s1.mem pte &&& PTE_P ≠ 0
      · rw [if_pos hp]
        by_cases he : PTE_SMALL_ADDR (s1.mem pte) = page2pa pp
        · rw [if_pos he]; rfl
        · rw [if_neg he]
          have ht := page_remove_tbl s1 d va
          rcases hr : page_remove s1 d va with ⟨u, s2⟩ | s2
          · rw [hr] at ht; exact ht
          · rw [hr] at ht; exact ht
      · rw [if_neg hp]; rfl
  · rfl

/-- The alignment of the cursor of `pgtbl_alloc`, which holds for the initial
`NULL`, is kept by every operation of the memory manager. -/
theorem cursor_aligned_invariant (s : State) (hca : u32 s.tbl % PGSIZE = 0) :
    (∀ d va c, u32 (pgdir_walk s d va c).state.tbl % PGSIZE = 0) ∧
    (∀ d pp va perm, u32 (page_insert s d pp va perm).state.tbl % PGSIZE = 0) ∧
    (∀ d va, u32 (page_remove s d va).state.tbl % PGSIZE = 0) ∧
    (∀ d va, u32 (page_lookup s d va).state.tbl % PGSIZE = 0) ∧
    (∀ flags, u32 (page_alloc s flags).state.tbl % PGSIZE = 0) ∧
    (∀ pp, u32 (page_free s pp).state.tbl % PGSIZE = 0) ∧
    (∀ pp, u32 (page_decref s pp).state.tbl % PGSIZE = 0) := by
  refine ⟨fun d va c => pgdir_walk_cursor s d va c hca, ?_, ?_, ?_, ?_, ?_, ?_⟩
  · intro d pp va perm
    rw [page_insert_tbl]
    exact pgdir_walk_cursor s d va 1 hca
  · intro d va
    rw [page_remove_tbl]; exact hca
  · intro d va
    rcases hw : (pgdir_walk s d va 0).val with _ | pte
    · rw [page_lookup_panic s d va hw]; exact hca
    · rw [page_lookup_eq s d va pte hw]
      split <;> exact hca
  · intro flags
    unfold page_alloc
    split
    · exact hca
    · split
      · split <;> exact hca
      · exact hca
  · intro pp
    unfold page_free
    split <;> exact hca
  · intro pp
    rw [(page_decref_frame s pp).2.2]; exact hca

/-! ## The assertions of `check_page` on the embedding -/

/-- The assertions of lines 403-425 of `check_page` hold on the embedding. -/
theorem check_page_first_inserts :
    (page_alloc check_page_403 0).val = some none ∧
    (page_lookup check_page_403 0 0).val = some (none, 0) ∧
    (page_insert check_page_403 0 11 0 PTE_NONE_U).val = some (-(E_NO_MEM : Int)) ∧
    (page_insert check_page_412 0 11 0 PTE_NONE_U).val = some 0 ∧
    PTE_SMALL_ADDR (check_page_413.pgdir 0 0) = page2pa 12 ∧
    (page_lookup check_page_413 0 0).val = some (some 11, 0xF000C000) ∧
    (check_page_413.pages 11).pp_ref = 1 ∧
    (check_page_413.pages 12).pp_ref = 1 ∧
    (page_insert check_page_413 0 10 PGSIZE PTE_NONE_U).val = some 0 ∧
    (page_lookup check_page_420 0 PGSIZE).val = some (some 10, 0xF000C004) ∧
    (check_page_420.pages 10).pp_ref = 1 ∧
    (page_alloc check_page_420 0).val = some none := by
  decide

/-- The assertions of lines 427-453 of `check_page` hold on the embedding. -/
theorem check_page_permissions :
    (page_insert check_page_420 0 10 PGSIZE PTE_NONE_U).val = some 0 ∧
    (check_page_428.pages 10).pp_ref = 1 ∧
    (page_alloc check_page_428 0).val = some none ∧
    (pgdir_walk check_page_428 0 PGSIZE 0).val = some (0xF000C000 + 4 * PTX PGSIZE) ∧
    (page_insert check_page_428 0 10 PGSIZE PTE_RW_U).val = some 0 ∧
    (check_page_441.pages 10).pp_ref = 1 ∧
    check_page_441.mem 0xF000C004 &&& PTE_RW_U ≠ 0 ∧
    (page_insert check_page_441 0 10 PGSIZE PTE_NONE_U).val = some 0 ∧
    check_page_448.mem 0xF000C004 &&& PTE_NONE_U ≠ 0 ∧
    check_page_448.mem 0xF000C004 &&& PTE_RW_U ≠ PTE_RW_U ∧
    (page_insert check_page_448 0 12 PTSIZE PTE_NONE_U).val = some (-(E_NO_MEM : Int)) := by
  decide

/-- The assertions of lines 455-492 of `check_page` hold on the embedding. -/
theorem check_page_replace_and_remove :
    (page_insert check_page_453 0 11 PGSIZE PTE_NONE_U).val = some 0 ∧
    check_page_456.mem 0xF000C004 &&& PTE_RW_U ≠ PTE_RW_U ∧
    (page_lookup check_page_456 0 0).val = some (some 11, 0xF000C000) ∧
    (page_lookup check_page_456 0 PGSIZE).val = some (some 11, 0xF000C004) ∧
    (check_page_456.pages 11).pp_ref = 2 ∧
    (check_page_456.pages 10).pp_ref = 0 ∧
    (page_alloc check_page_456 0).val = some (some 10) ∧
    (page_lookup check_page_470 0 0).val = some (none, 0xF000C000) ∧
    (page_lookup check_page_470 0 PGSIZE).val = some (some 11, 0xF000C004) ∧
    (check_page_470.pages 11).pp_ref = 1 ∧
    (check_page_470.pages 10).pp_ref = 0 ∧
    (page_insert check_page_470 0 11 PGSIZE 0).val = some 0 ∧
    (check_page_477.pages 11).pp_ref ≠ 0 ∧
    (check_page_477.pages 11).pp_link = none ∧
    (page_lookup check_page_482 0 0).val = some (none, 0xF000C000) ∧
    (page_lookup check_page_482 0 PGSIZE).val = some (none, 0xF000C004) ∧
    (check_page_482.pages 11).pp_ref = 0 ∧
    (check_page_482.pages 10).pp_ref = 0 ∧
    (page_alloc check_page_482 0).val = some (some 11) ∧
    (page_alloc check_page_489 0).val = some none := by
  decide

/-! ## Address decomposition -/

theorem PGOFF_eq (la : Nat) : PGOFF la = la % 4294967296 % 4096 := by
  simp [PGOFF, u32, and_FFF]

theorem PGADDR_eq (d t o : Nat) (ht : t < 256) (ho : o < 4096) :
    PGADDR d t o = (d * 1048576 + t * 4096 + o) % 4294967296 := by
  have h1 : t <<< 12 ||| o = t * 4096 + o := by
    rw [Nat.shiftLeft_eq]
    exact or_eq_add (t * 2 ^ 12) o 12 (by omega) (by simpa using ho)
  have h2 : d <<< 20 ||| (t * 4096 + o) = d * 1048576 + (t * 4096 + o) := by
    rw [Nat.shiftLeft_eq]
    exact or_eq_add (d * 2 ^ 20) (t * 4096 + o) 20 (by omega) (by norm_num; omega)
  simp only [PGADDR, PDXSHIFT, PTXSHIFT, u32, Nat.or_assoc, h1, h2]
  omega

/-- C16. Address decomposition is a bijection: for every 32-bit `la` the three
fields are within their ranges and `PGADDR` rebuilds `la` from them; for
fields within their ranges the three macros return them from the address
`PGADDR` builds. -/
theorem address_decomposition :
    (∀ la, la < 4294967296 →
      PDX la < 4096 ∧ PTX la < 256 ∧ PGOFF la < 4096 ∧
        PGADDR (PDX la) (PTX la) (PGOFF la) = la) ∧
    (∀ d t o, d < 4096 → t < 256 → o < 4096 →
      PDX (PGADDR d t o) = d ∧ PTX (PGADDR d t o) = t ∧ PGOFF (PGADDR d t o) = o) := by
  refine ⟨?_, ?_⟩
  · intro la hla
    have hp := PTX_lt la
    have ho : PGOFF la < 4096 := by rw [PGOFF_eq]; omega
    refine ⟨by rw [PDX_eq]; omega, hp, ho, ?_⟩
    rw [PGADDR_eq _ _ _ hp ho, PDX_eq, PTX_eq, PGOFF_eq]
    omega
  · intro d t o hd ht ho
    rw [PDX_eq, PTX_eq, PGOFF_eq, PGADDR_eq d t o ht ho]
    omega

/-! ## The kernel window of `mem_init` -/

theorem kern_window_addr (j : Nat) (hj : j ≤ 256) :
    u32 (4026531840 + j * 1048576) = if j = 256 then 0 else 4026531840 + j * 1048576 := by
  simp only [u32]
  split <;> omega

theorem section_entry_eq (k : Nat) (hk : k < 256) :
    u32 (k * 1048576 ||| PDE_ENTRY_1M ||| PDE_NONE_U) = k * 1048576 + 1026 := by
  have h1 : PDE_ENTRY_1M ||| PDE_NONE_U = 1026 := by decide
  have h2 := or_eq_add (k * 1048576) 1026 20 (by omega) (by norm_num)
  rw [Nat.or_assoc, h1, h2]
  simp only [u32]
  omega

/-- What the loop of `mem_init` does from its `j`-th pass on. -/
theorem mem_init_loop_spec (m : Nat) : ∀ (j : Nat) (s : State), j + m = 256 →
    ∃ s', mem_init_loop m (u32 (4026531840 + j * 1048576)) s = some (.ret () s') ∧
      (∀ k, j ≤ k → k < 256 →
        s'.pgdir kern_pgdir (3840 + k) = k * 1048576 + 1026 ∧ s'.pgdir kern_pgdir k = 0) ∧
      (∀ d i, (d ≠ kern_pgdir ∨ ∀ k, j ≤ k → k < 256 → i ≠ 3840 + k ∧ i ≠ k) →
        s'.pgdir d i = s.pgdir d i) ∧
      s'.mem = s.mem ∧ s'.pages = s.pages ∧ s'.page_free_list = s.page_free_list ∧
      s'.tbl = s.tbl := by
  induction m with
  | zero =>
    intro j s hj
    have hj' : j = 256 := by omega
    subst hj'
    refine ⟨s, ?_, ?_, fun _ _ _ => rfl, rfl, rfl, rfl, rfl⟩
    · rw [kern_window_addr 256 (le_refl _)]
      simp [mem_init_loop]
    · intro k h1 h2; omega
  | succ m ih =>
    intro j s hj
    have hj' : j < 256 := by omega
    have ha : u32 (4026531840 + j * 1048576) = 4026531840 + j * 1048576 := by
      rw [kern_window_addr j (by omega), if_neg (by omega)]
    have hne : 4026531840 + j * 1048576 ≠ 0 := by omega
    have hpa : PADDR (4026531840 + j * 1048576) = some (j * 1048576) := by
      have h1 : ¬ (4026531840 + j * 1048576) % 4294967296 < 4026531840 := by omega
      have h2 : (4026531840 + j * 1048576) % 4294967296 - 4026531840 = j * 1048576 := by omega
      simp [PADDR, u32, KERNBASE, h1, h2]
    have hnext : u32 (4026531840 + j * 1048576 + PTSIZE) =
        u32 (4026531840 + (j + 1) * 1048576) := by
      simp only [PTSIZE, PGSIZE, NPTENTRIES, u32]
      congr 1
      omega
    have hx1 : PDX (4026531840 + j * 1048576) = 3840 + j := by rw [PDX_eq]; omega
    have hx2 : PDX (j * 1048576) = j := by rw [PDX_eq]; omega
    obtain ⟨s', h1, h2, h3, h4, h5, h6, h7⟩ := ih (j + 1)
      ((s.set_pde kern_pgdir (3840 + j) (j * 1048576 + 1026)).set_pde kern_pgdir j 0) (by omega)
    refine ⟨s', ?_, ?_, ?_, h4, h5, h6, h7⟩
    · rw [ha]
      simp only [mem_init_loop, hne, ne_eq, not_false_eq_true, if_true, hpa, hnext, hx1, hx2,
        section_entry_eq j hj']
      exact h1
    · intro k hk1 hk2
      by_cases hkj : k = j
      · subst hkj
        have e1 := h3 kern_pgdir (3840 + k) (Or.inr (fun k' a b => by omega))
        have e2 := h3 kern_pgdir k (Or.inr (fun k' a b => by omega))
        rw [e1, e2]
        simp [State.set_pde]
      · exact h2 k (by omega) hk2
    · intro d i hdi
      have e := h3 d i (by
        rcases hdi with hd | hi
        · exact Or.inl hd
        · exact Or.inr (fun k a b => hi k (by omega) b))
      rw [e]
      rcases hdi with hd | hi
      · simp [State.set_pde, hd]
      · have := hi j (le_refl j) hj'
        simp [State.set_pde, this.1, this.2]

/-- The loop of `mem_init` is not over before its 256th pass. -/
theorem mem_init_loop_short (m : Nat) : ∀ (j : Nat) (s : State), j + m < 256 →
    mem_init_loop m (u32 (4026531840 + j * 1048576)) s = none := by
  induction m with
  | zero =>
    intro j s hj
    rw [kern_window_addr j (by omega), if_neg (by omega)]
    simp [mem_init_loop]
  | succ m ih =>
    intro j s hj
    have ha : u32 (4026531840 + j * 1048576) = 4026531840 + j * 1048576 := by
      rw [kern_window_addr j (by omega), if_neg (by omega)]
    have hne : 4026531840 + j * 1048576 ≠ 0 := by omega
    have hpa : PADDR (4026531840 + j * 1048576) = some (j * 1048576) := by
      have h1 : ¬ (4026531840 + j * 1048576) % 4294967296 < 4026531840 := by omega
      have h2 : (4026531840 + j * 1048576) % 4294967296 - 4026531840 = j * 1048576 := by omega
      simp [PADDR, u32, KERNBASE, h1, h2]
    have hnext : u32 (4026531840 + j * 1048576 + PTSIZE) =
        u32 (4026531840 + (j + 1) * 1048576) := by
      simp only [PTSIZE, PGSIZE, NPTENTRIES, u32]
      congr 1
      omega
    rw [ha]
    simp only [mem_init_loop, hne, ne_eq, not_false_eq_true, if_true, hpa, hnext]
    exact ih (j + 1) _ (by omega)

theorem and_FFF00000 (x : Nat) (hx : x < 4294967296) :
    x &&& 0xFFF00000 = x / 1048576 * 1048576 := by
  have h := and_high_mask x 20 (by omega) (by decide)
  simp only [Nat.shiftRight_eq_div_pow, Nat.shiftLeft_eq] at h
  norm_num at h
  exact h

theorem and_FFFFF (x : Nat) : x &&& 0xFFFFF = x % 1048576 :=
  Nat.and_pow_two_sub_one_eq_mod x 20

/-- The walk of `check_va2pa` through a section entry of the kernel window. -/
theorem check_va2pa_section (s : State) (d va k : Nat) (hk : k < 256)
    (he : s.pgdir d (PDX va) = k * 1048576 + 1026) :
    check_va2pa s d va = .ret (k * 1048576 + va % 1048576) s := by
  have h1 : (k * 1048576 + 1026) &&& PDE_P ≠ 0 := by
    simp only [PDE_P, and_3]; omega
  have h2 : (k * 1048576 + 1026) &&& PDE_ENTRY_1M = PDE_ENTRY_1M := by
    rw [and_low_mask _ PDE_ENTRY_1M (by decide)]
    have : (k * 1048576 + 1026) % 4096 = 1026 := by omega
    rw [this]
    decide
  have h3 : u32 (k * 1048576 + 1026) &&& 0xFFF00000 = k * 1048576 := by
    simp only [u32]
    rw [and_FFF00000 _ (Nat.mod_lt _ (by decide))]
    omega
  have h4 : u32 va &&& 0xFFFFF = va % 1048576 := by
    simp only [u32, and_FFFFF]
    omega
  unfold check_va2pa
  simp only [he, h1, h2, h3, h4, if_true, if_false]
  have h5 : u32 (k * 1048576 + va % 1048576) = k * 1048576 + va % 1048576 := by
    simp only [u32]; omega
  rw [h5]

/-- C17. Kernel window built by `mem_init`. From `KERNBASE` the mapping loop
is over after exactly 256 passes (255 are not enough), the address wrapping to
0; after it `kern_pgdir[0xF00 + k] == (k << 20) | PDE_ENTRY_1M | PDE_NONE_U`
and `kern_pgdir[k] == 0` for every `k < 256`, and
`check_va2pa(kern_pgdir, KERNBASE + pa) == pa` for every `pa` below 256 MiB.
With the boot-stack and GPIO slots below `PDX(KERNBASE)`, the two entries
written after the loop leave the window and its translation as they are. -/
theorem mem_init_kernel_window (s : State) (KSTACKTOP KSTKSIZE bootstack GPIOBASE b : Nat)
    (hb : PADDR bootstack = some b)
    (hstack : PDX (u32 (u32 KSTACKTOP + (4294967296 - u32 KSTKSIZE))) < PDX KERNBASE)
    (hgpio : PDX GPIOBASE < PDX KERNBASE) :
    (∀ fuel, fuel < 256 → mem_init_loop fuel KERNBASE s = none) ∧
    (∃ s1, mem_init_loop 256 KERNBASE s = some (.ret () s1) ∧
      (∀ k, k < 256 →
        s1.pgdir kern_pgdir (0xF00 + k) = k <<< 20 ||| PDE_ENTRY_1M ||| PDE_NONE_U ∧
        s1.pgdir kern_pgdir k = 0) ∧
      (∀ pa, pa < 268435456 → check_va2pa s1 kern_pgdir (KERNBASE + pa) = .ret pa s1)) ∧
    (∃ s2, mem_init_map 256 KSTACKTOP KSTKSIZE bootstack GPIOBASE s = some (.ret () s2) ∧
      (∀ k, k < 256 →
        s2.pgdir kern_pgdir (0xF00 + k) = k <<< 20 ||| PDE_ENTRY_1M ||| PDE_NONE_U) ∧
      (∀ pa, pa < 268435456 → check_va2pa s2 kern_pgdir (KERNBASE + pa) = .ret pa s2)) := by
  have hK : KERNBASE = u32 (4026531840 + 0 * 1048576) := by decide
  have hPK : PDX KERNBASE = 3840 := by decide
  rw [hPK] at hstack hgpio
  obtain ⟨s1, h1, h2, h3, h4, h5, h6, h7⟩ := mem_init_loop_spec 256 0 s (by omega)
  rw [← hK] at h1
  have hent : ∀ k, k < 256 → k <<< 20 ||| PDE_ENTRY_1M ||| PDE_NONE_U = k * 1048576 + 1026 := by
    intro k hk
    have := section_entry_eq k hk
    rw [Nat.shiftLeft_eq]
    have h20 : (2 : Nat) ^ 20 = 1048576 := by norm_num
    rw [h20]
    have hlt : k * 1048576 ||| PDE_ENTRY_1M ||| PDE_NONE_U < 4294967296 := by
      have e1 : PDE_ENTRY_1M ||| PDE_NONE_U = 1026 := by decide
      have e2 := or_eq_add (k * 1048576) 1026 20 (by omega) (by norm_num)
      rw [Nat.or_assoc, e1, e2]
      omega
    simp only [u32] at this
    rw [Nat.mod_eq_of_lt hlt] at this
    exact this
  have hwin : ∀ (x : State), (∀ k, k < 256 → x.pgdir kern_pgdir (3840 + k) = k * 1048576 + 1026) →
      ∀ pa, pa < 268435456 → check_va2pa x kern_pgdir (KERNBASE + pa) = .ret pa x := by
    intro x hx pa hpa
    have hpdx : PDX (KERNBASE + pa) = 3840 + pa / 1048576 := by
      rw [PDX_eq]; simp only [KERNBASE]; omega
    have := check_va2pa_section x kern_pgdir (KERNBASE + pa) (pa / 1048576) (by omega)
      (by rw [hpdx]; exact hx _ (by omega))
    have e : pa / 1048576 * 1048576 + (KERNBASE + pa) % 1048576 = pa := by
      simp only [KERNBASE]; omega
    rw [this, e]
  refine ⟨?_, ⟨s1, h1, ?_, ?_⟩, ?_⟩
  · intro fuel hf
    rw [hK]
    exact mem_init_loop_short fuel 0 s (by omega)
  · intro k hk
    rw [hent k hk]
    exact h2 k (Nat.zero_le _) hk
  · exact hwin s1 (fun k hk => (h2 k (Nat.zero_le _) hk).1)
  · refine ⟨_, by simp only [mem_init_map, h1, hb]; rfl, ?_, ?_⟩
    · intro k hk
      rw [hent k hk]
      have e1 : ¬ (3840 + k = PDX GPIOBASE) := by omega
      have e2 : ¬ (3840 + k = PDX (u32 (u32 KSTACKTOP + (4294967296 - u32 KSTKSIZE)))) := by
        omega
      simp only [State.set_pde, e1, e2, and_false, if_false]
      exact (h2 k (Nat.zero_le _) hk).1
    · apply hwin
      intro k hk
      have e1 : ¬ (3840 + k = PDX GPIOBASE) := by omega
      have e2 : ¬ (3840 + k = PDX (u32 (u32 KSTACKTOP + (4294967296 - u32 KSTKSIZE)))) := by
        omega
      simp only [State.set_pde, e1, e2, and_false, if_false]
      exact (h2 k (Nat.zero_le _) hk).1

/-! ## What the walker follows, and what `page_insert` writes -/

/-- C13, the code at the failing input. The entry of `KERNBASE + 0x100000` in
`ex_section` is a section entry, its low bits being 10; `pgdir_walk` without
creation takes it for a pointer to a table at physical `0x100400` and returns
a slot, not `NULL`, and `page_lookup` returns the frame that the word found
there seems to address. -/
theorem walker_follows_section_entry :
    ex_section.pgdir kern_pgdir (PDX (KERNBASE + 0x100000)) &&& PDE_P = PDE_ENTRY_1M ∧
    (pgdir_walk ex_section kern_pgdir (KERNBASE + 0x100000) 0).val = some 0xF0100400 ∧
    (page_lookup ex_section kern_pgdir (KERNBASE + 0x100000)).val =
      some (some 0xFFFFF, 0xF0100400) := by
  decide

/-- C14, amended. On a directory entry that is present, `pgdir_walk` with and
without creation end the same way: when `KADDR` accepts the table address of
the entry, both return the slot of index `PTX(va)` of that table, which is not
`NULL`; when it does not, both panic; in both cases the state (directories,
tables, descriptors, free list, cursor) is the one before the call. -/
theorem pgdir_walk_present_same (s : State) (pgdir va : Nat)
    (hp : s.pgdir pgdir (PDX va) &&& PTE_P ≠ 0) :
    pgdir_walk s pgdir va 1 = pgdir_walk s pgdir va 0 ∧
    (∀ t, KADDR (PDE_ADDR (s.pgdir pgdir (PDX va))) = some t →
      pgdir_walk s pgdir va 0 = .ret (t + sizeof_pte_t * PTX va) s ∧
      pgdir_walk s pgdir va 1 = .ret (t + sizeof_pte_t * PTX va) s ∧
      t + sizeof_pte_t * PTX va ≠ 0) ∧
    (KADDR (PDE_ADDR (s.pgdir pgdir (PDX va))) = none →
      pgdir_walk s pgdir va 0 = .panic s ∧ pgdir_walk s pgdir va 1 = .panic s) := by
  rw [pgdir_walk_present s pgdir va 1 hp, pgdir_walk_present s pgdir va 0 hp]
  refine ⟨rfl, ?_, ?_⟩
  · intro t hk
    have h := pgdir_walk_slot_some s pgdir va t hk
    have h0 := (slot_facts _ va t hk).2.1
    simp only [sizeof_pte_t]
    exact ⟨h, h, h0⟩
  · intro hk
    exact ⟨pgdir_walk_slot_none s pgdir va hk, pgdir_walk_slot_none s pgdir va hk⟩

/-- Witness for C14: address 0 of `ex_mapped`, whose table is in frame 12. -/
theorem pgdir_walk_present_same_witness :
    ex_mapped.pgdir 0 (PDX 0) &&& PTE_P ≠ 0 ∧
    (pgdir_walk ex_mapped 0 0 1 = pgdir_walk ex_mapped 0 0 0 ∧
    (∀ t, KADDR (PDE_ADDR (ex_mapped.pgdir 0 (PDX 0))) = some t →
      pgdir_walk ex_mapped 0 0 0 = .ret (t + sizeof_pte_t * PTX 0) ex_mapped ∧
      pgdir_walk ex_mapped 0 0 1 = .ret (t + sizeof_pte_t * PTX 0) ex_mapped ∧
      t + sizeof_pte_t * PTX 0 ≠ 0) ∧
    (KADDR (PDE_ADDR (ex_mapped.pgdir 0 (PDX 0))) = none →
      pgdir_walk ex_mapped 0 0 0 = .panic ex_mapped ∧
      pgdir_walk ex_mapped 0 0 1 = .panic ex_mapped)) :=
  ⟨by decide, pgdir_walk_present_same ex_mapped 0 0 (by decide)⟩

/-- C14, counterexample. The GPIO entry of `ex_gpio` is present and addresses
memory outside RAM: neither walk returns a slot, both panic. -/
theorem pgdir_walk_panics_on_section :
    ex_gpio.pgdir 0 (PDX 0x3F200000) &&& PTE_P ≠ 0 ∧
    (pgdir_walk ex_gpio 0 0x3F200000 0).val = none ∧
    (pgdir_walk ex_gpio 0 0x3F200000 1).val = none := by
  decide

/-- C15, the code at the failing input. The insert of line 413 of `check_page`
(`pp1` at address 0 with `PTE_NONE_U`) succeeds and stores
`page2pa(pp1) | PTE_NONE_U | 0b11`: the low bits of the word are 11, not the 10
of `PTE_ENTRY_SMALL`. -/
theorem page_insert_writes_low_bits_11 :
    (page_insert check_page_412 kern_pgdir 11 0 PTE_NONE_U).val = some 0 ∧
    (pgdir_walk check_page_413 kern_pgdir 0 0).val = some 0xF000C000 ∧
    check_page_413.mem 0xF000C000 = (page2pa 11 ||| PTE_NONE_U ||| 3) ∧
    check_page_413.mem 0xF000C000 ≠ (page2pa 11 ||| PTE_NONE_U ||| PTE_ENTRY_SMALL) ∧
    check_page_413.mem 0xF000C000 &&& 3 = 3 := by
  decide

/-! ## Popping and pushing the free list -/

theorem free_list_wf_pop (s s' : State) (h : Nat) (l : List Nat)
    (hwf : free_list_wf s (h :: l)) (h1 : s'.page_free_list = (s.pages h).pp_link)
    (h2 : ∀ q, q ≠ h → s'.pages q = s.pages q) : free_list_wf s' l := by
  obtain ⟨hl, hnd, hall⟩ := hwf
  have hat : h ∉ l := (List.nodup_cons.mp hnd).1
  refine ⟨?_, (List.nodup_cons.mp hnd).2, ?_⟩
  · rw [h1]
    exact linked_congr s.pages s'.pages l _ (fun pp hpp => h2 pp (fun e => hat (e ▸ hpp))) hl.2
  · intro pp hpp
    rw [h2 pp (fun e => hat (e ▸ hpp))]
    exact hall pp (List.mem_cons_of_mem h hpp)

theorem free_list_wf_push (s s' : State) (f : Nat) (l : List Nat) (hwf : free_list_wf s l)
    (hf : f ∉ l) (hlt : f < NPAGES) (h1 : s'.page_free_list = some f)
    (h2 : s'.pages f = ⟨s.page_free_list, 0⟩) (h3 : ∀ q, q ≠ f → s'.pages q = s.pages q) :
    free_list_wf s' (f :: l) := by
  obtain ⟨hl, hnd, hall⟩ := hwf
  refine ⟨⟨h1, ?_⟩, List.nodup_cons.mpr ⟨hf, hnd⟩, ?_⟩
  · rw [h2]
    exact linked_congr s.pages s'.pages l _ (fun pp hpp => h3 pp (fun e => hf (e ▸ hpp))) hl
  · intro pp hpp
    rcases List.mem_cons.mp hpp with e | hin
    · subst e
      rw [h2]
      exact ⟨hlt, rfl⟩
    · rw [h3 pp (fun e => hf (e ▸ hin))]
      exact hall pp hin

theorem free_list_wf_congr (s s' : State) (l : List Nat) (hwf : free_list_wf s l)
    (h1 : s'.page_free_list = s.page_free_list) (h2 : ∀ q, q ∈ l → s'.pages q = s.pages q) :
    free_list_wf s' l := by
  obtain ⟨hl, hnd, hall⟩ := hwf
  refine ⟨?_, hnd, ?_⟩
  · rw [h1]
    exact linked_congr s.pages s'.pages l _ h2 hl
  · intro pp hpp
    rw [h2 pp hpp]
    exact hall pp hpp

theorem free_list_wf_head (s : State) (h : Nat) (l : List Nat) (hwf : free_list_wf s (h :: l)) :
    s.page_free_list = some h ∧ h < NPAGES ∧ (s.pages h).pp_ref = 0 ∧ h ∉ l :=
  ⟨hwf.1.1, (hwf.2.2 h (List.mem_cons_self h l)).1, (hwf.2.2 h (List.mem_cons_self h l)).2,
    (List.nodup_cons.mp hwf.2.1).1⟩

theorem new_pde_eq (pg : Nat) (hpg : pg < NPAGES) :
    page2pa pg = pg * 4096 ∧ u32 (page2pa pg ||| PDE_ENTRY) = pg * 4096 + 1 ∧
      page2pa pg ||| PDE_ENTRY = pg * 4096 + 1 := by
  rw [NPAGES_eq] at hpg
  have h1 : page2pa pg = pg * 4096 := by rw [page2pa_eq]; omega
  have h2 : pg * 4096 ||| 1 = pg * 4096 + 1 := or_eq_add (pg * 4096) 1 12 (by omega) (by decide)
  have h3 : page2pa pg ||| PDE_ENTRY = pg * 4096 + 1 := by rw [h1]; exact h2
  refine ⟨h1, ?_, h3⟩
  rw [h3]
  simp only [u32]
  omega

/-- C20. Creating walk on an empty directory slot, the cursor of `pgtbl_alloc`
page-aligned and the free list well formed with head `h`: the walk returns the
slot of index `PTX(va)` of the table that starts at the beginning of frame `h`;
`h` leaves the free list, which stays well formed, and gets `pp_ref == 1`; the
directory entry of `va` becomes `page2pa(h) | PDE_ENTRY`, a coarse pointer
whose address is `page2pa(h)`; no other directory entry, descriptor or memory
word outside the frame changes; and the 256 entries of the new table are 0,
whatever the frame held. -/
theorem pgdir_walk_creates_table (s : State) (pgdir va h : Nat) (l : List Nat)
    (hp : s.pgdir pgdir (PDX va) &&& PTE_P = 0) (hca : u32 s.tbl % PGSIZE = 0)
    (hwf : free_list_wf s (h :: l)) :
    ∃ kva, page2kva h = some kva ∧ kva = page2pa h + KERNBASE ∧
      (pgdir_walk s pgdir va 1).val = some (kva + sizeof_pte_t * PTX va) ∧
      free_list_wf (pgdir_walk s pgdir va 1).state l ∧
      (pgdir_walk s pgdir va 1).state.pages h = ⟨none, 1⟩ ∧
      (∀ q, q ≠ h → (pgdir_walk s pgdir va 1).state.pages q = s.pages q) ∧
      (pgdir_walk s pgdir va 1).state.pgdir pgdir (PDX va) = page2pa h ||| PDE_ENTRY ∧
      (pgdir_walk s pgdir va 1).state.pgdir pgdir (PDX va) &&& PDE_P = PDE_ENTRY ∧
      PTE_SMALL_ADDR ((pgdir_walk s pgdir va 1).state.pgdir pgdir (PDX va)) = page2pa h ∧
      PDE_ADDR ((pgdir_walk s pgdir va 1).state.pgdir pgdir (PDX va)) = page2pa h ∧
      (∀ d i, ¬ (d = pgdir ∧ i = PDX va) →
        (pgdir_walk s pgdir va 1).state.pgdir d i = s.pgdir d i) ∧
      (∀ i, i < NPTENTRIES →
        (pgdir_walk s pgdir va 1).state.mem (kva + sizeof_pte_t * i) = 0 ∧
        (pgdir_walk s pgdir va 1).state.mem (kva + sizeof_pte_t * i) &&& PTE_P = 0) ∧
      (∀ a, ¬ (kva ≤ a ∧ a < kva + PGSIZE) →
        (pgdir_walk s pgdir va 1).state.mem a = s.mem a) := by
  obtain ⟨hfl, hlt, href, hnl⟩ := free_list_wf_head s h l hwf
  have hk := page2kva_of_lt h hlt
  have hw := pgdir_walk_new_table s pgdir va 1 h _ (by decide) hp hca hfl hk
  obtain ⟨k1, k2, k3⟩ := page2kva_facts h _ hk
  obtain ⟨hpa, e1, e2⟩ := new_pde_eq h hlt
  have hlt' : h < 65536 := by rw [NPAGES_eq] at hlt; exact hlt
  refine ⟨h * 4096 + 4026531840, hk, by rw [hpa]; rfl, ?_⟩
  rw [hw]
  have hent : (s.with_new_table pgdir va h (h * 4096 + 4026531840)).pgdir pgdir (PDX va) =
      h * 4096 + 1 := by
    simp only [State.with_new_table, and_self, if_true]; exact e1
  refine ⟨rfl, ?_, ?_, ?_, ?_, ?_, ?_, ?_, ?_, ?_, ?_⟩
  · exact free_list_wf_pop s _ h l hwf rfl
      (fun q hq => by simp [Result.state_ret, State.with_new_table, hq])
  · simp [Result.state_ret, State.with_new_table, href, u16]
  · intro q hq; simp [Result.state_ret, State.with_new_table, hq]
  · rw [Result.state_ret, hent, e2]
  · rw [Result.state_ret, hent]
    simp only [PDE_P, PDE_ENTRY, and_3]
    omega
  · rw [Result.state_ret, hent, PTE_SMALL_ADDR_eq, hpa]
    omega
  · rw [Result.state_ret, hent, PDE_ADDR_eq, hpa]
    omega
  · intro d i hdi
    simp [Result.state_ret, State.with_new_table, hdi]
  · intro i hi
    have hin : h * 4096 + 4026531840 ≤ h * 4096 + 4026531840 + sizeof_pte_t * i ∧
        h * 4096 + 4026531840 + sizeof_pte_t * i < h * 4096 + 4026531840 + PGSIZE := by
      simp only [NPTENTRIES] at hi
      simp only [PGSIZE, sizeof_pte_t]
      omega
    have hz : (s.with_new_table pgdir va h (h * 4096 + 4026531840)).mem
        (h * 4096 + 4026531840 + sizeof_pte_t * i) = 0 := by
      simp only [State.with_new_table, hin, and_self, if_true]
    rw [Result.state_ret, hz]
    exact ⟨rfl, by decide⟩
  · intro a ha
    simp only [Result.state_ret, State.with_new_table, ha, if_false]

/-- Witness for C20: address 0 of `ex_one_free`, whose free list holds frame
12 and whose memory is filled with ones. -/
theorem pgdir_walk_creates_table_witness :
    (ex_one_free.pgdir 0 (PDX 0) &&& PTE_P = 0 ∧ u32 ex_one_free.tbl % PGSIZE = 0 ∧
      free_list_wf ex_one_free [12]) ∧
    ∃ kva, page2kva 12 = some kva ∧ kva = page2pa 12 + KERNBASE ∧
      (pgdir_walk ex_one_free 0 0 1).val = some (kva + sizeof_pte_t * PTX 0) ∧
      free_list_wf (pgdir_walk ex_one_free 0 0 1).state [] ∧
      (pgdir_walk ex_one_free 0 0 1).state.pages 12 = ⟨none, 1⟩ ∧
      (∀ q, q ≠ 12 → (pgdir_walk ex_one_free 0 0 1).state.pages q = ex_one_free.pages q) ∧
      (pgdir_walk ex_one_free 0 0 1).state.pgdir 0 (PDX 0) = page2pa 12 ||| PDE_ENTRY ∧
      (pgdir_walk ex_one_free 0 0 1).state.pgdir 0 (PDX 0) &&& PDE_P = PDE_ENTRY ∧
      PTE_SMALL_ADDR ((pgdir_walk ex_one_free 0 0 1).state.pgdir 0 (PDX 0)) = page2pa 12 ∧
      PDE_ADDR ((pgdir_walk ex_one_free 0 0 1).state.pgdir 0 (PDX 0)) = page2pa 12 ∧
      (∀ d i, ¬ (d = 0 ∧ i = PDX 0) →
        (pgdir_walk ex_one_free 0 0 1).state.pgdir d i = ex_one_free.pgdir d i) ∧
      (∀ i, i < NPTENTRIES →
        (pgdir_walk ex_one_free 0 0 1).state.mem (kva + sizeof_pte_t * i) = 0 ∧
        (pgdir_walk ex_one_free 0 0 1).state.mem (kva + sizeof_pte_t * i) &&& PTE_P = 0) ∧
      (∀ a, ¬ (kva ≤ a ∧ a < kva + PGSIZE) →
        (pgdir_walk ex_one_free 0 0 1).state.mem a = ex_one_free.mem a) :=
  ⟨⟨by decide, by decide, by decide⟩,
    pgdir_walk_creates_table ex_one_free 0 0 12 [] (by decide) (by decide) (by decide)⟩


/-- Witness for C17: `mem_init` run on `ex_one_free` with the kernel stack top
at 0xEFFF8000, a stack of 0x8000 bytes at 0xF0110000 and the GPIO window at
0x3F200000. -/
theorem mem_init_kernel_window_witness :
    (PADDR 0xF0110000 = some 0x110000 ∧
      PDX (u32 (u32 0xEFFF8000 + (4294967296 - u32 0x8000))) < PDX KERNBASE ∧
      PDX 0x3F200000 < PDX KERNBASE) ∧
    ((∀ fuel, fuel < 256 → mem_init_loop fuel KERNBASE ex_one_free = none) ∧
    (∃ s1, mem_init_loop 256 KERNBASE ex_one_free = some (.ret () s1) ∧
      (∀ k, k < 256 →
        s1.pgdir kern_pgdir (0xF00 + k) = k <<< 20 ||| PDE_ENTRY_1M ||| PDE_NONE_U ∧
        s1.pgdir kern_pgdir k = 0) ∧
      (∀ pa, pa < 268435456 → check_va2pa s1 kern_pgdir (KERNBASE + pa) = .ret pa s1)) ∧
    (∃ s2, mem_init_map 256 0xEFFF8000 0x8000 0xF0110000 0x3F200000 ex_one_free =
        some (.ret () s2) ∧
      (∀ k, k < 256 →
        s2.pgdir kern_pgdir (0xF00 + k) = k <<< 20 ||| PDE_ENTRY_1M ||| PDE_NONE_U) ∧
      (∀ pa, pa < 268435456 → check_va2pa s2 kern_pgdir (KERNBASE + pa) = .ret pa s2))) :=
  ⟨⟨by decide, by decide, by decide⟩,
    mem_init_kernel_window ex_one_free 0xEFFF8000 0x8000 0xF0110000 0x3F200000 0x110000
      (by decide) (by decide) (by decide)⟩

/-! ## Allocator conservation -/

theorem page_alloc_zero_flags (s : State) (h : Nat) (hfl : s.page_free_list = some h) :
    page_alloc s 0 = .ret (some h)
      ({ s with page_free_list := (s.pages h).pp_link }.set_link h none) := by
  have hz : ¬ ((0 : Nat) &&& ALLOC_ZERO ≠ 0) := by decide
  simp only [page_alloc, hfl, if_neg hz]

theorem page_alloc_times_spec (k : Nat) : ∀ (s : State) (l : List Nat), free_list_wf s l →
    k ≤ l.length →
    ∃ s', page_alloc_times s k = .ret ((l.take k).map some) s' ∧
      free_list_wf s' (l.drop k) ∧
      (∀ q, q ∈ l.take k → s'.pages q = ⟨none, 0⟩) ∧
      (∀ q, q ∉ l.take k → s'.pages q = s.pages q) ∧
      s'.mem = s.mem ∧ s'.pgdir = s.pgdir ∧ s'.tbl = s.tbl := by
  induction k with
  | zero =>
    intro s l hwf _
    exact ⟨s, rfl, by simpa using hwf, by simp, by simp, rfl, rfl, rfl⟩
  | succ k ih =>
    intro s l hwf hk
    cases l with
    | nil => simp at hk
    | cons h t =>
      obtain ⟨hfl, hlt, href, hnt⟩ := free_list_wf_head s h t hwf
      have hwf1 : free_list_wf ({ s with page_free_list := (s.pages h).pp_link }.set_link h none)
          t := free_list_wf_pop s _ h t hwf rfl (fun q hq => by simp [State.set_link, hq])
      obtain ⟨s', e1, e2, e3, e4, e5, e6, e7⟩ := ih _ t hwf1 (by simpa using hk)
      refine ⟨s', ?_, by simpa using e2, ?_, ?_, e5, e6, e7⟩
      · simp only [page_alloc_times, page_alloc_zero_flags s h hfl, e1, List.take_succ_cons,
          List.map_cons]
      · intro q hq
        rw [List.take_succ_cons] at hq
        rcases List.mem_cons.mp hq with e | hin
        · subst e
          have : q ∉ t.take k := fun hx => hnt (List.mem_of_mem_take hx)
          rw [e4 q this]
          simp [State.set_link, href]
        · exact e3 q hin
      · intro q hq
        rw [List.take_succ_cons] at hq
        have hq1 : q ≠ h := fun e => hq (e ▸ List.mem_cons_self _ _)
        have hq2 : q ∉ t.take k := fun hx => hq (List.mem_cons_of_mem _ hx)
        rw [e4 q hq2]
        simp [State.set_link, hq1]

theorem page_free_each_spec (σ : List Nat) : ∀ (s : State) (t : List Nat), free_list_wf s t →
    σ.Nodup → (∀ q, q ∈ σ → q ∉ t ∧ q < NPAGES ∧ (s.pages q).pp_ref = 0) →
    ∃ s', page_free_each s σ = .ret () s' ∧ free_list_wf s' (σ.reverse ++ t) ∧
      (∀ q, q ∉ σ → s'.pages q = s.pages q) ∧
      s'.mem = s.mem ∧ s'.pgdir = s.pgdir ∧ s'.tbl = s.tbl := by
  induction σ with
  | nil =>
    intro s t hwf _ _
    exact ⟨s, rfl, by simpa using hwf, fun _ _ => rfl, rfl, rfl, rfl⟩
  | cons a σ ih =>
    intro s t hwf hnd hall
    obtain ⟨ha1, ha2, ha3⟩ := hall a (List.mem_cons_self _ _)
    have hfree : page_free s a =
        .ret () { s.set_link a s.page_free_list with page_free_list := some a } := by
      simp [page_free, ha3]
    have hwf1 : free_list_wf { s.set_link a s.page_free_list with page_free_list := some a }
        (a :: t) :=
      free_list_wf_push s _ a t hwf ha1 ha2 rfl (by simp [State.set_link, ha3])
        (fun q hq => by simp [State.set_link, hq])
    have hna : a ∉ σ := (List.nodup_cons.mp hnd).1
    obtain ⟨s', e1, e2, e3, e4, e5, e6⟩ := ih _ (a :: t) hwf1 (List.nodup_cons.mp hnd).2
      (fun q hq => by
        obtain ⟨b1, b2, b3⟩ := hall q (List.mem_cons_of_mem _ hq)
        have hqa : q ≠ a := fun e => hna (e ▸ hq)
        refine ⟨?_, b2, ?_⟩
        · intro hx
          rcases List.mem_cons.mp hx with e | hin
          · exact hqa e
          · exact b1 hin
        · simpa [State.set_link, hqa] using b3)
    refine ⟨s', ?_, ?_, ?_, e4, e5, e6⟩
    · simp only [page_free_each, hfree, e1]
    · simpa using e2
    · intro q hq
      have hq1 : q ≠ a := fun e => hq (e ▸ List.mem_cons_self _ _)
      have hq2 : q ∉ σ := fun hx => hq (List.mem_cons_of_mem _ hx)
      rw [e3 q hq2]
      simp [State.set_link, hq1]

theorem State.ext_fields (s s' : State) (h1 : s'.pgdir = s.pgdir) (h2 : s'.mem = s.mem)
    (h3 : s'.pages = s.pages) (h4 : s'.page_free_list = s.page_free_list)
    (h5 : s'.tbl = s.tbl) : s' = s := by
  cases s; cases s'
  simp only [State.mk.injEq]
  exact ⟨h1, h2, h3, h4, h5⟩

/-- C11. Allocator conservation. On a well-formed free list `l` and for
`k <= length l`, `k` calls `page_alloc(0)` return the first `k` descriptors of
`l`; freeing them afterwards in any order `σ` never panics and leaves a
well-formed free list, `σ` reversed followed by the rest of `l`, which has the
length of `l` and the same descriptors. One `page_alloc(0)` followed by
`page_free` of its result gives back the state it started from. -/
theorem allocator_conservation (s : State) (l : List Nat) (k : Nat)
    (hwf : free_list_wf s l) (hk : k ≤ l.length) :
    (page_alloc_times s k).val = some ((l.take k).map some) ∧
    free_list_wf (page_alloc_times s k).state (l.drop k) ∧
    (∀ σ : List Nat, σ.Perm (l.take k) →
      (page_free_each (page_alloc_times s k).state σ).val = some () ∧
      free_list_wf (page_free_each (page_alloc_times s k).state σ).state
        (σ.reverse ++ l.drop k) ∧
      (σ.reverse ++ l.drop k).length = l.length ∧
      (σ.reverse ++ l.drop k).Perm l ∧
      ∀ q, q ∈ σ.reverse ++ l.drop k ↔ q ∈ l) ∧
    (∀ h t, l = h :: t →
      (page_alloc s 0).val = some (some h) ∧
      (page_free (page_alloc s 0).state h).val = some () ∧
      (page_free (page_alloc s 0).state h).state = s) := by
  obtain ⟨s1, a1, a2, a3, a4, _, _, _⟩ := page_alloc_times_spec k s l hwf hk
  rw [a1]
  refine ⟨rfl, a2, ?_, ?_⟩
  · intro σ hσ
    have hnd : l.Nodup := hwf.2.1
    have hsplit : l.take k ++ l.drop k = l := List.take_append_drop k l
    have hnd' : (l.take k ++ l.drop k).Nodup := by rw [hsplit]; exact hnd
    have hdisj := (List.nodup_append.mp hnd').2.2
    have hperm : (σ.reverse ++ l.drop k).Perm l := by
      have p1 : (σ.reverse ++ l.drop k).Perm (l.take k ++ l.drop k) :=
        List.Perm.append_right _ ((List.reverse_perm σ).trans hσ)
      rw [hsplit] at p1
      exact p1
    obtain ⟨s2, b1, b2, _, _, _, _⟩ := page_free_each_spec σ s1 (l.drop k) a2
      (hσ.nodup_iff.mpr (List.nodup_append.mp hnd').1)
      (fun q hq => by
        have hq' : q ∈ l.take k := hσ.mem_iff.mp hq
        refine ⟨fun hx => hdisj hq' hx, ?_, ?_⟩
        · exact (hwf.2.2 q (List.mem_of_mem_take hq')).1
        · rw [a3 q hq'])
    rw [Result.state_ret, b1]
    exact ⟨rfl, b2, hperm.length_eq, hperm, fun q => hperm.mem_iff⟩
  · intro h t hl
    subst hl
    obtain ⟨hfl, hlt, href, hnt⟩ := free_list_wf_head s h t hwf
    rw [page_alloc_zero_flags s h hfl]
    have hfree : page_free ({ s with page_free_list := (s.pages h).pp_link }.set_link h none) h =
        .ret () { ({ s with page_free_list := (s.pages h).pp_link }.set_link h none).set_link h
          (s.pages h).pp_link with page_free_list := some h } := by
      simp [page_free, State.set_link, href]
    rw [Result.state_ret, hfree]
    refine ⟨rfl, rfl, ?_⟩
    rw [Result.state_ret]
    apply State.ext_fields
    · rfl
    · rfl
    · funext q
      by_cases hq : q = h
      · subst hq
        simp [State.set_link]
      · simp [State.set_link, hq]
    · exact hfl.symm
    · rfl

/-- Witness for C11: two allocations from the free list 12, 11, 10, 9 of
`ex_four_free`. -/
theorem allocator_conservation_witness :
    (free_list_wf ex_four_free [12, 11, 10, 9] ∧ 2 ≤ [12, 11, 10, 9].length) ∧
    ((page_alloc_times ex_four_free 2).val = some (([12, 11, 10, 9].take 2).map some) ∧
    free_list_wf (page_alloc_times ex_four_free 2).state ([12, 11, 10, 9].drop 2) ∧
    (∀ σ : List Nat, σ.Perm ([12, 11, 10, 9].take 2) →
      (page_free_each (page_alloc_times ex_four_free 2).state σ).val = some () ∧
      free_list_wf (page_free_each (page_alloc_times ex_four_free 2).state σ).state
        (σ.reverse ++ [12, 11, 10, 9].drop 2) ∧
      (σ.reverse ++ [12, 11, 10, 9].drop 2).length = [12, 11, 10, 9].length ∧
      (σ.reverse ++ [12, 11, 10, 9].drop 2).Perm [12, 11, 10, 9] ∧
      ∀ q, q ∈ σ.reverse ++ [12, 11, 10, 9].drop 2 ↔ q ∈ [12, 11, 10, 9]) ∧
    (∀ h t, [12, 11, 10, 9] = h :: t →
      (page_alloc ex_four_free 0).val = some (some h) ∧
      (page_free (page_alloc ex_four_free 0).state h).val = some () ∧
      (page_free (page_alloc ex_four_free 0).state h).state = ex_four_free)) :=
  ⟨⟨by decide, by decide⟩,
    allocator_conservation ex_four_free [12, 11, 10, 9] 2 (by decide) (by decide)⟩


/-! ## The free list built by `page_init` -/

theorem page_init_loop_spec (end_ E : Nat) (hE : PADDR end_ = some E) (m : Nat) :
    ∀ (n : Nat) (s : State) (l : List Nat), n + m = 65536 → free_list_wf s l →
    (∀ q, q ∈ l → q < n) → l.Pairwise (fun a b => b < a) →
    ∃ s' l', page_init_loop end_ m (n * 4096) s = some (.ret () s') ∧ free_list_wf s' l' ∧
      (∀ i, i ∈ l' ↔ i ∈ l ∨
        (n ≤ i ∧ i < 65536 ∧ i ≠ 0 ∧ ¬ (0x100000 ≤ 4096 * i ∧ 4096 * i < E))) ∧
      l'.Pairwise (fun a b => b < a) ∧
      s'.pgdir = s.pgdir ∧ s'.mem = s.mem ∧ s'.tbl = s.tbl := by
  induction m with
  | zero =>
    intro n s l hn hwf hlt hs
    have hnot : ¬ (n * 4096 < TOTAL_PHYS_MEM) := by
      have : TOTAL_PHYS_MEM = 268435456 := by decide
      rw [this]; omega
    refine ⟨s, l, ?_, hwf, ?_, hs, rfl, rfl, rfl⟩
    · simp only [page_init_loop, if_neg hnot]
    · intro i
      constructor
      · exact fun h => Or.inl h
      · rintro (h | h)
        · exact h
        · omega
  | succ m ih =>
    intro n s l hn hwf hlt hs
    have hT : TOTAL_PHYS_MEM = 268435456 := by decide
    have hlt' : n * 4096 < TOTAL_PHYS_MEM := by rw [hT]; omega
    have hnext : u32 (n * 4096 + PGSIZE) = (n + 1) * 4096 := by
      simp only [u32, PGSIZE]; omega
    have hpg : pa2page (n * 4096) = n := by
      simp only [pa2page]
      rw [PGNUM_eq]
      omega
    have hskip : (n = 0 ∨ (0x100000 ≤ 4096 * n ∧ 4096 * n < E)) →
        ∃ s' l', page_init_loop end_ (m + 1) (n * 4096) s = some (.ret () s') ∧
          free_list_wf s' l' ∧
          (∀ i, i ∈ l' ↔ i ∈ l ∨
            (n ≤ i ∧ i < 65536 ∧ i ≠ 0 ∧ ¬ (0x100000 ≤ 4096 * i ∧ 4096 * i < E))) ∧
          l'.Pairwise (fun a b => b < a) ∧
          s'.pgdir = s.pgdir ∧ s'.mem = s.mem ∧ s'.tbl = s.tbl := by
      intro hc
      obtain ⟨s', l', e1, e2, e3, e4, e5⟩ := ih (n + 1) s l (by omega) hwf
        (fun q hq => Nat.lt_succ_of_lt (hlt q hq)) hs
      refine ⟨s', l', ?_, e2, ?_, e4, e5⟩
      · rw [← e1]
        simp only [page_init_loop, if_pos hlt', hnext, hE]
        by_cases h0 : n * 4096 = 0
        · rw [if_pos h0]
        · rw [if_neg h0]
          have h1 : 0x100000 ≤ n * 4096 := by omega
          have h2 : n * 4096 < E := by omega
          rw [if_pos h1, if_pos h2]
      · intro i
        rw [e3 i]
        constructor
        · rintro (h | h)
          · exact Or.inl h
          · exact Or.inr ⟨by omega, h.2⟩
        · rintro (h | h)
          · exact Or.inl h
          · refine Or.inr ⟨?_, h.2⟩
            rcases Nat.eq_or_lt_of_le h.1 with e | hl
            · subst e
              exfalso
              rcases hc with hc | hc
              · exact h.2.2.1 hc
              · exact h.2.2.2 hc
            · exact hl
    by_cases hc : n = 0 ∨ (0x100000 ≤ 4096 * n ∧ 4096 * n < E)
    · exact hskip hc
    · have hn0 : n ≠ 0 := fun e => hc (Or.inl e)
      have hrange : ¬ (0x100000 ≤ 4096 * n ∧ 4096 * n < E) := fun e => hc (Or.inr e)
      have hnl : n ∉ l := fun hx => Nat.lt_irrefl _ (hlt n hx)
      have hwf1 : free_list_wf
          { (s.set_ref n 0).set_link n s.page_free_list with page_free_list := some n }
          (n :: l) :=
        free_list_wf_push s _ n l hwf hnl (by rw [NPAGES_eq]; omega) rfl
          (by simp [State.set_ref, State.set_link])
          (fun q hq => by simp [State.set_ref, State.set_link, hq])
      obtain ⟨s', l', e1, e2, e3, e4, e5⟩ := ih (n + 1) _ (n :: l) (by omega) hwf1
        (fun q hq => by
          rcases List.mem_cons.mp hq with e | hin
          · omega
          · exact Nat.lt_succ_of_lt (hlt q hin))
        (List.pairwise_cons.mpr ⟨hlt, hs⟩)
      refine ⟨s', l', ?_, e2, ?_, e4, e5⟩
      · rw [← e1]
        simp only [page_init_loop, if_pos hlt', hnext, hE, hpg]
        have h0 : ¬ (n * 4096 = 0) := by omega
        rw [if_neg h0]
        by_cases h1 : 0x100000 ≤ n * 4096
        · have h2 : ¬ (n * 4096 < E) := by omega
          rw [if_pos h1, if_neg h2]
        · rw [if_neg h1]
      · intro i
        rw [e3 i, List.mem_cons]
        constructor
        · rintro ((h | h) | h)
          · subst h
            exact Or.inr ⟨le_refl _, by omega, hn0, hrange⟩
          · exact Or.inl h
          · exact Or.inr ⟨by omega, h.2⟩
        · rintro (h | h)
          · exact Or.inl (Or.inr h)
          · rcases Nat.eq_or_lt_of_le h.1 with e | hl
            · exact Or.inl (Or.inl e.symm)
            · exact Or.inr ⟨hl, h.2⟩

theorem page_init_spec (end_ E : Nat) (hE : PADDR end_ = some E) (s : State)
    (h0 : s.page_free_list = none) :
    ∃ s' l, page_init end_ NPAGES s = some (.ret () s') ∧ free_list_wf s' l ∧
      (∀ i, i ∈ l ↔ 1 ≤ i ∧ i < 65536 ∧ ¬ (0x100000 ≤ 4096 * i ∧ 4096 * i < E)) ∧
      l.Pairwise (fun a b => b < a) ∧
      s'.pgdir = s.pgdir ∧ s'.mem = s.mem ∧ s'.tbl = s.tbl := by
  have hwf : free_list_wf s [] := ⟨h0, List.nodup_nil, fun _ h => absurd h (List.not_mem_nil _)⟩
  obtain ⟨s', l', e1, e2, e3, e4, e5⟩ := page_init_loop_spec end_ E hE 65536 0 s [] (by omega) hwf
    (fun _ h => absurd h (List.not_mem_nil _)) List.Pairwise.nil
  refine ⟨s', l', ?_, e2, ?_, e4, e5⟩
  · rw [NPAGES_eq]
    simpa [page_init] using e1
  · intro i
    rw [e3 i]
    constructor
    · rintro (h | h)
      · exact absurd h (List.not_mem_nil _)
      · exact ⟨by omega, h.2.1, h.2.2.2⟩
    · intro h
      exact Or.inr ⟨by omega, h.2.1, by omega, h.2.2⟩

/-- C12. Function `page_init` with the kernel image ending at physical address
`E` (`PADDR(end) == E`), started with an empty free list: `NPAGES` passes of
the loop finish it without panic, and the free list it leaves is a well-formed
list `l` (no descriptor twice, every `pp_ref == 0`) that holds frame `i`
exactly when `1 <= i <= 65535` and not `0x100000 <= 4096 * i < E`; `l` is not
empty, it is in strictly descending order of frame index, and `k` subsequent
calls `page_alloc(0)` return its first `k` frames in that order. -/
theorem page_init_free_list (end_ E : Nat) (s : State) (hE : PADDR end_ = some E)
    (h0 : s.page_free_list = none) :
    ∃ s' l, page_init end_ NPAGES s = some (.ret () s') ∧ free_list_wf s' l ∧
      (∀ i, i ∈ l ↔ 1 ≤ i ∧ i ≤ 65535 ∧ ¬ (0x100000 ≤ 4096 * i ∧ 4096 * i < E)) ∧
      l.Nodup ∧ (∀ i, i ∈ l → (s'.pages i).pp_ref = 0) ∧ l ≠ [] ∧
      l.Pairwise (fun a b => b < a) ∧
      ∀ k, k ≤ l.length → (page_alloc_times s' k).val = some ((l.take k).map some) := by
  obtain ⟨s', l, e1, e2, e3, e4, _⟩ := page_init_spec end_ E hE s h0
  refine ⟨s', l, e1, e2, ?_, e2.2.1, fun i hi => (e2.2.2 i hi).2, ?_, e4, ?_⟩
  · intro i
    rw [e3 i]
    constructor
    · intro h
      exact ⟨h.1, by omega, h.2.2⟩
    · intro h
      exact ⟨h.1, by omega, h.2.2⟩
  · intro hnil
    have h1 : (1 : Nat) ∈ l := (e3 1).mpr ⟨le_refl _, by omega, by omega⟩
    rw [hnil] at h1
    exact absurd h1 (List.not_mem_nil _)
  · intro k hk
    obtain ⟨s1, a1, _⟩ := page_alloc_times_spec k s' l e2 hk
    rw [a1]
    rfl

/-- Witness for C12: `page_init` with `end` at kernel address 0xF0120000, from
the state `ex_one_free` with its free list emptied. -/
theorem page_init_free_list_witness :
    (PADDR 0xF0120000 = some 0x120000 ∧
      ({ ex_one_free with page_free_list := none } : State).page_free_list = none) ∧
    ∃ s' l, page_init 0xF0120000 NPAGES { ex_one_free with page_free_list := none } =
        some (.ret () s') ∧ free_list_wf s' l ∧
      (∀ i, i ∈ l ↔ 1 ≤ i ∧ i ≤ 65535 ∧ ¬ (0x100000 ≤ 4096 * i ∧ 4096 * i < 0x120000)) ∧
      l.Nodup ∧ (∀ i, i ∈ l → (s'.pages i).pp_ref = 0) ∧ l ≠ [] ∧
      l.Pairwise (fun a b => b < a) ∧
      ∀ k, k ≤ l.length → (page_alloc_times s' k).val = some ((l.take k).map some) :=
  ⟨⟨by decide, rfl⟩,
    page_init_free_list 0xF0120000 0x120000 { ex_one_free with page_free_list := none }
      (by decide) rfl⟩


/-! ## Free-list well-formedness through the operations -/

theorem free_list_wf_nil_head (s : State) (hwf : free_list_wf s []) :
    s.page_free_list = none := hwf.1

theorem free_list_wf_alloc (s : State) (l : List Nat) (flags : Nat) (hwf : free_list_wf s l) :
    free_list_wf (page_alloc s flags).state l.tail := by
  cases l with
  | nil =>
    have h0 := free_list_wf_nil_head s hwf
    simp only [page_alloc, h0, Result.state_ret, List.tail_nil]
    exact hwf
  | cons h t =>
    obtain ⟨hfl, hlt, _, _⟩ := free_list_wf_head s h t hwf
    have hk := page2kva_of_lt h hlt
    simp only [List.tail_cons]
    apply free_list_wf_pop s _ h t hwf
    · simp only [page_alloc, hfl, hk]
      split <;> rfl
    · intro q hq
      simp only [page_alloc, hfl, hk]
      split <;> simp [Result.state_ret, State.set_link, State.memset0, hq]

theorem free_list_wf_free (s : State) (l : List Nat) (f : Nat) (hwf : free_list_wf s l)
    (hf : f ∉ l) (hlt : f < NPAGES) :
    free_list_wf (page_free s f).state (if (s.pages f).pp_ref = 0 then f :: l else l) := by
  by_cases h0 : (s.pages f).pp_ref = 0
  · rw [if_pos h0]
    simp only [page_free, if_pos h0, Result.state_ret]
    exact free_list_wf_push s _ f l hwf hf hlt rfl (by simp [State.set_link, h0])
      (fun q hq => by simp [State.set_link, hq])
  · rw [if_neg h0]
    simp only [page_free, if_neg h0]
    exact hwf

theorem free_list_wf_decref (s : State) (l : List Nat) (f : Nat) (hwf : free_list_wf s l)
    (hf : f ∉ l) (hlt : f < NPAGES) :
    free_list_wf (page_decref s f).state
      (if dec16 (s.pages f).pp_ref = 0 then f :: l else l) := by
  rw [page_decref_eq, Result.state_ret]
  by_cases h0 : dec16 (s.pages f).pp_ref = 0
  · rw [if_pos h0, if_pos h0]
    exact free_list_wf_push s _ f l hwf hf hlt rfl (by simp [State.set_ref, State.set_link])
      (fun q hq => by simp [State.set_ref, State.set_link, hq])
  · rw [if_neg h0, if_neg h0]
    exact free_list_wf_congr s _ l hwf rfl
      (fun q hq => by
        have : q ≠ f := fun e => hf (e ▸ hq)
        simp [State.set_ref, this])

theorem free_list_wf_set_ref (s : State) (l : List Nat) (f r : Nat) (hwf : free_list_wf s l)
    (hf : f ∉ l) : free_list_wf (s.set_ref f r) l :=
  free_list_wf_congr s _ l hwf rfl
    (fun q hq => by
      have : q ≠ f := fun e => hf (e ▸ hq)
      simp [State.set_ref, this])

theorem free_list_wf_store (s : State) (l : List Nat) (pte v : Nat) (hwf : free_list_wf s l) :
    free_list_wf (s.store pte v) l :=
  free_list_wf_congr s _ l hwf rfl (fun _ _ => rfl)

theorem free_list_wf_remove_mapped (s : State) (l : List Nat) (d va pte : Nat)
    (hwf : free_list_wf s l)
    (hw : (pgdir_walk s d va 0).val = some pte) (h0 : pte ≠ 0) (hp : s.mem pte &&& PTE_P ≠ 0)
    (hg : pa2page (PTE_SMALL_ADDR (s.mem pte)) ∉ l)
    (hlt : pa2page (PTE_SMALL_ADDR (s.mem pte)) < NPAGES) :
    free_list_wf (page_remove s d va).state
      (if dec16 (s.pages (pa2page (PTE_SMALL_ADDR (s.mem pte)))).pp_ref = 0 then
        pa2page (PTE_SMALL_ADDR (s.mem pte)) :: l else l) := by
  have h1 := free_list_wf_decref s l _ hwf hg hlt
  rw [page_remove_eq s d va pte hw, if_neg h0, if_neg hp, Result.state_ret]
  exact free_list_wf_store _ _ _ _ h1

theorem page_lookup_mapped (s : State) (d va pte : Nat)
    (hw : (pgdir_walk s d va 0).val = some pte) (h0 : pte ≠ 0) (hp : s.mem pte &&& PTE_P ≠ 0) :
    page_lookup s d va = .ret (some (pa2page (PTE_SMALL_ADDR (s.mem pte))), pte) s := by
  rw [page_lookup_eq s d va pte hw, if_neg]
  rintro (h | h)
  · exact h0 h
  · exact hp h

theorem free_list_wf_remove (s : State) (l : List Nat) (d va : Nat) (hwf : free_list_wf s l)
    (hg : ∀ g pte s1, page_lookup s d va = .ret (some g, pte) s1 → g ∉ l ∧ g < NPAGES) :
    ∃ l', free_list_wf (page_remove s d va).state l' := by
  cases hw : (pgdir_walk s d va 0).val with
  | none =>
    rw [page_remove_panic s d va hw]
    exact ⟨l, hwf⟩
  | some pte =>
    by_cases h0 : pte = 0
    · rw [page_remove_eq s d va pte hw, if_pos h0]
      exact ⟨l, hwf⟩
    · by_cases hp : s.mem pte &&& PTE_P = 0
      · rw [page_remove_eq s d va pte hw, if_neg h0, if_pos hp, Result.state_ret]
        exact ⟨l, free_list_wf_store _ _ _ _ hwf⟩
      · obtain ⟨g1, g2⟩ := hg _ pte s (page_lookup_mapped s d va pte hw h0 hp)
        exact ⟨_, free_list_wf_remove_mapped s l d va pte hwf hw h0 hp g1 g2⟩

theorem pgdir_walk_cases (s : State) (l : List Nat) (d va c : Nat) (hwf : free_list_wf s l)
    (hca : u32 s.tbl % PGSIZE = 0) :
    ((pgdir_walk s d va c).state = s ∧
      (∀ pte, (pgdir_walk s d va c).val = some pte → pte ≠ 0 →
        s.pgdir d (PDX va) &&& PTE_P ≠ 0)) ∨
    (∃ h t kva, l = h :: t ∧ page2kva h = some kva ∧ c ≠ 0 ∧
      s.pgdir d (PDX va) &&& PTE_P = 0 ∧
      pgdir_walk s d va c = .ret (kva + 4 * PTX va) (s.with_new_table d va h kva)) := by
  by_cases hp : s.pgdir d (PDX va) &&& PTE_P = 0
  · by_cases hc : c = 0
    · left
      subst hc
      rw [pgdir_walk_absent s d va hp]
      exact ⟨rfl, fun pte h h0 => absurd (Option.some.inj h).symm h0⟩
    · cases l with
      | nil =>
        left
        rw [pgdir_walk_no_table s d va c hc hp hca (free_list_wf_nil_head s hwf)]
        exact ⟨rfl, fun pte h h0 => absurd (Option.some.inj h).symm h0⟩
      | cons h t =>
        right
        obtain ⟨hfl, hlt, _, _⟩ := free_list_wf_head s h t hwf
        exact ⟨h, t, _, rfl, page2kva_of_lt h hlt, hc, hp,
          pgdir_walk_new_table s d va c h _ hc hp hca hfl (page2kva_of_lt h hlt)⟩
  · left
    rw [pgdir_walk_present s d va c hp]
    refine ⟨?_, fun _ _ _ => hp⟩
    cases hk : KADDR (PDE_ADDR (s.pgdir d (PDX va))) with
    | none => rw [pgdir_walk_slot_none s d va hk]; rfl
    | some t => rw [pgdir_walk_slot_some s d va t hk]; rfl

theorem free_list_wf_new_table (s : State) (h : Nat) (t : List Nat) (d va kva : Nat)
    (hwf : free_list_wf s (h :: t)) : free_list_wf (s.with_new_table d va h kva) t :=
  free_list_wf_pop s _ h t hwf rfl (fun q hq => by simp [State.with_new_table, hq])

theorem new_table_slot_zero (s : State) (d va h kva : Nat) :
    (s.with_new_table d va h kva).mem (kva + 4 * PTX va) = 0 := by
  have := PTX_lt va
  have hin : kva ≤ kva + 4 * PTX va ∧ kva + 4 * PTX va < kva + PGSIZE := by
    simp only [PGSIZE]; omega
  simp only [State.with_new_table, hin, and_self, if_true]

theorem free_list_wf_insert_present (s : State) (l : List Nat) (d f va perm pte : Nat)
    (hwf : free_list_wf s l) (hf : f ∉ l)
    (hw : (pgdir_walk s d va 0).val = some pte) (h0 : pte ≠ 0)
    (hg : ∀ g pte s1, page_lookup s d va = .ret (some g, pte) s1 → g ∉ l ∧ g < NPAGES) :
    ∃ l', free_list_wf (page_insert s d f va perm).state l' := by
  rw [page_insert_eq s d f va perm pte hw h0, Result.state_ret]
  by_cases hp : s.mem pte &&& PTE_P ≠ 0
  · obtain ⟨g1, g2⟩ := hg _ pte s (page_lookup_mapped s d va pte hw h0 hp)
    by_cases hsame : PTE_SMALL_ADDR (s.mem pte) = page2pa f
    · simp only [if_pos hp, if_pos hsame]
      exact ⟨l, free_list_wf_set_ref _ _ _ _
        (free_list_wf_store _ _ _ _ (free_list_wf_set_ref _ _ _ _ hwf hf)) hf⟩
    · simp only [if_pos hp, if_neg hsame]
      have hne : f ≠ pa2page (PTE_SMALL_ADDR (s.mem pte)) := by
        intro e
        have hflt : f < NPAGES := e ▸ g2
        exact hsame ((small_addr_eq_iff (s.mem pte) f hflt).mpr e.symm)
      have h1 := free_list_wf_remove_mapped s l d va pte hwf hw h0 hp g1 g2
      refine ⟨_, free_list_wf_set_ref _ _ _ _ (free_list_wf_store _ _ _ _ h1) ?_⟩
      split
      · intro hx
        rcases List.mem_cons.mp hx with e | hin
        · exact hne e
        · exact hf hin
      · exact hf
  · simp only [if_neg hp]
    exact ⟨l, free_list_wf_set_ref _ _ _ _ (free_list_wf_store _ _ _ _ hwf) hf⟩

theorem free_list_wf_insert (s : State) (l : List Nat) (d f va perm : Nat)
    (hwf : free_list_wf s l) (hca : u32 s.tbl % PGSIZE = 0) (hf : f ∉ l)
    (hg : ∀ g pte s1, page_lookup s d va = .ret (some g, pte) s1 → g ∉ l ∧ g < NPAGES) :
    ∃ l', free_list_wf (page_insert s d f va perm).state l' := by
  rcases pgdir_walk_cases s l d va 1 hwf hca with ⟨hst, _⟩ | ⟨h, t, kva, hl, hk, _, hp, hw⟩
  · cases hr : pgdir_walk s d va 1 with
    | panic s1 =>
      have : s1 = s := by rw [hr] at hst; exact hst
      simp only [page_insert, hr]
      exact ⟨l, this ▸ hwf⟩
    | ret pte s1 =>
      have hs1 : s1 = s := by rw [hr] at hst; exact hst
      subst hs1
      by_cases h0 : pte = 0
      · simp only [page_insert, hr, if_pos h0]
        exact ⟨l, hwf⟩
      · have hw0 := pgdir_walk_create_post s1 s1 d va 1 pte hr h0
        exact free_list_wf_insert_present s1 l d f va perm pte hwf hf
          (by rw [hw0]; rfl) h0 hg
  · subst hl
    have hslot : kva + 4 * PTX va ≠ 0 := by
      obtain ⟨k1, _, _⟩ := page2kva_facts h kva hk
      omega
    rw [page_insert_after_walk s _ d f va perm _ hw hslot]
    have hw0 := pgdir_walk_create_post s _ d va 1 _ hw hslot
    have hwf1 := free_list_wf_new_table s h t d va kva hwf
    have hft : f ∉ t := fun hx => hf (List.mem_cons_of_mem _ hx)
    apply free_list_wf_insert_present _ t d f va perm _ hwf1 hft (by rw [hw0]; rfl) hslot
    intro g pte s1 hlk
    exfalso
    have hz := new_table_slot_zero s d va h kva
    rw [page_lookup_eq _ d va (kva + 4 * PTX va) (by rw [hw0]; rfl), if_pos] at hlk
    · cases hlk
    · right
      rw [hz]
      decide

theorem self_linked_not_wf (s : State) (f : Nat) (h1 : s.page_free_list = some f)
    (h2 : (s.pages f).pp_link = some f) (l : List Nat) : ¬ free_list_wf s l := by
  intro hwf
  obtain ⟨hl, hnd, _⟩ := hwf
  cases l with
  | nil =>
    have : s.page_free_list = none := hl
    rw [h1] at this
    cases this
  | cons a t =>
    obtain ⟨e1, e2⟩ := hl
    rw [h1] at e1
    have ha : a = f := (Option.some.inj e1).symm
    subst ha
    cases t with
    | nil =>
      have : (s.pages a).pp_link = none := e2
      rw [h2] at this
      cases this
    | cons b u =>
      obtain ⟨e3, _⟩ := e2
      rw [h2] at e3
      have hb : b = a := (Option.some.inj e3).symm
      subst hb
      exact (List.nodup_cons.mp hnd).1 (List.mem_cons_self _ _)

/-- C19, as amended. Free-list well-formedness (no descriptor twice, every
descriptor on the list one of `pages[]` with `pp_ref == 0`, hence none with
`pp_ref > 0`) holds after `page_init` and, from a state where it holds with
list `l`: after `page_alloc` whatever the flags; after `page_free(f)` when `f`
has `pp_ref == 0` and is not on the list already; after `page_decref(f)` when
`f` is not on the list; after `page_remove` when the frame `page_lookup` finds
at the address, if any, is a frame of `pages[]` that is not on the list; and
after `page_insert(dir, f, va, perm)` under the same condition on the frame
mapped at `va`, when `f` is not on the list and the cursor of `pgtbl_alloc` is
page-aligned. -/
theorem free_list_wf_preserved (s : State) (l : List Nat) (hwf : free_list_wf s l) :
    (∀ q, 0 < (s.pages q).pp_ref → q ∉ l) ∧
    (∀ flags, free_list_wf (page_alloc s flags).state l.tail) ∧
    (∀ f, f ∉ l → f < NPAGES → (s.pages f).pp_ref = 0 →
      (page_free s f).val = some () ∧ free_list_wf (page_free s f).state (f :: l)) ∧
    (∀ f, f ∉ l → f < NPAGES → ∃ l', free_list_wf (page_decref s f).state l') ∧
    (∀ d va,
      (∀ g pte s1, page_lookup s d va = .ret (some g, pte) s1 → g ∉ l ∧ g < NPAGES) →
      ∃ l', free_list_wf (page_remove s d va).state l') ∧
    (∀ d f va perm, u32 s.tbl % PGSIZE = 0 → f ∉ l →
      (∀ g pte s1, page_lookup s d va = .ret (some g, pte) s1 → g ∉ l ∧ g < NPAGES) →
      ∃ l', free_list_wf (page_insert s d f va perm).state l') ∧
    (∀ end_ E, PADDR end_ = some E →
      ∃ s' l', page_init end_ NPAGES { s with page_free_list := none } = some (.ret () s') ∧
        free_list_wf s' l') := by
  refine ⟨?_, fun flags => free_list_wf_alloc s l flags hwf, ?_, ?_,
    fun d va hg => free_list_wf_remove s l d va hwf hg,
    fun d f va perm hca hf hg => free_list_wf_insert s l d f va perm hwf hca hf hg, ?_⟩
  · intro q hq hin
    have := (hwf.2.2 q hin).2
    omega
  · intro f hf hlt h0
    have h1 := free_list_wf_free s l f hwf hf hlt
    rw [if_pos h0] at h1
    refine ⟨?_, h1⟩
    simp only [page_free, if_pos h0, Result.val]
  · intro f hf hlt
    exact ⟨_, free_list_wf_decref s l f hwf hf hlt⟩
  · intro end_ E hE
    obtain ⟨s', l', e1, e2, _⟩ := page_init_spec end_ E hE { s with page_free_list := none } rfl
    exact ⟨s', l', e1, e2⟩

/-- Witness for C19: the free list 12, 11, 10, 9 of `ex_four_free`. -/
theorem free_list_wf_preserved_witness :
    free_list_wf ex_four_free [12, 11, 10, 9] ∧
    ((∀ q, 0 < (ex_four_free.pages q).pp_ref → q ∉ [12, 11, 10, 9]) ∧
    (∀ flags, free_list_wf (page_alloc ex_four_free flags).state [12, 11, 10, 9].tail) ∧
    (∀ f, f ∉ [12, 11, 10, 9] → f < NPAGES → (ex_four_free.pages f).pp_ref = 0 →
      (page_free ex_four_free f).val = some () ∧
      free_list_wf (page_free ex_four_free f).state (f :: [12, 11, 10, 9])) ∧
    (∀ f, f ∉ [12, 11, 10, 9] → f < NPAGES →
      ∃ l', free_list_wf (page_decref ex_four_free f).state l') ∧
    (∀ d va,
      (∀ g pte s1, page_lookup ex_four_free d va = .ret (some g, pte) s1 →
        g ∉ [12, 11, 10, 9] ∧ g < NPAGES) →
      ∃ l', free_list_wf (page_remove ex_four_free d va).state l') ∧
    (∀ d f va perm, u32 ex_four_free.tbl % PGSIZE = 0 → f ∉ [12, 11, 10, 9] →
      (∀ g pte s1, page_lookup ex_four_free d va = .ret (some g, pte) s1 →
        g ∉ [12, 11, 10, 9] ∧ g < NPAGES) →
      ∃ l', free_list_wf (page_insert ex_four_free d f va perm).state l') ∧
    (∀ end_ E, PADDR end_ = some E →
      ∃ s' l', page_init end_ NPAGES { ex_four_free with page_free_list := none } =
          some (.ret () s') ∧ free_list_wf s' l')) :=
  ⟨by decide, free_list_wf_preserved ex_four_free [12, 11, 10, 9] (by decide)⟩

/-- Counterexample to C19 as stated: frame 12 is the free list of `ex_one_free`
and has `pp_ref == 0`; `page_free(12)` returns without panic and leaves frame
12 linked to itself, so that no list is the free list of the state any more. -/
theorem page_free_twice_breaks_free_list :
    free_list_wf ex_one_free [12] ∧ (ex_one_free.pages 12).pp_ref = 0 ∧
    (page_free ex_one_free 12).val = some () ∧
    (page_free ex_one_free 12).state.page_free_list = some 12 ∧
    ((page_free ex_one_free 12).state.pages 12).pp_link = some 12 ∧
    ∀ l, ¬ free_list_wf (page_free ex_one_free 12).state l :=
  ⟨by decide, by decide, by decide, by decide, by decide,
    self_linked_not_wf _ 12 (by decide) (by decide)⟩


/-! ## Mapping a region with `boot_map_region` -/

/-- Counterexample to C18 as stated: in `ex_shared` entries 0 and 1 of
directory 0 are coarse pointers (to the same table) and no table is missing.
`boot_map_region(0, 0, 4096, 0x7000)` returns, and the page at `0x100000`,
outside the region, translated to `0x5000` before, now translates to `0x7000`:
its PTE changed from `0x5013` to `0x7012`. -/
theorem boot_map_region_shared_table :
    ex_shared.pgdir 0 (PDX 0) &&& PDE_P = PDE_ENTRY ∧
    (boot_map_region 1 ex_shared 0 0 4096 0x7000).map Result.val = some (some ()) ∧
    (pgdir_walk ex_shared 0 0x100000 0).val = some 0xF0001000 ∧
    ex_shared.mem 0xF0001000 = 0x5013 ∧
    (check_va2pa ex_shared 0 0x100000).val = some 0x5000 ∧
    (boot_map_region 1 ex_shared 0 0 4096 0x7000).map
      (fun r => (pgdir_walk r.state 0 0x100000 0).val) = some (some 0xF0001000) ∧
    (boot_map_region 1 ex_shared 0 0 4096 0x7000).map
      (fun r => r.state.mem 0xF0001000) = some 0x7012 ∧
    (boot_map_region 1 ex_shared 0 0 4096 0x7000).map
      (fun r => (check_va2pa r.state 0 0x100000).val) = some (some 0x7000) := by
  refine ⟨by decide, by decide, by decide, by decide, by decide, by decide, by decide,
    by decide⟩

theorem coarse_iff (e : Nat) : e &&& PDE_P = PDE_ENTRY ↔ e % 4 = 1 := by
  simp only [PDE_P, PDE_ENTRY, and_3]

theorem absent_iff (e : Nat) : e &&& PTE_P = 0 ↔ e % 4 = 0 := by
  simp only [PTE_P, and_3]

theorem tables_separate_congr (s s' : State) (dir : Nat) (l l' : List Nat)
    (h : ∀ i, s'.pgdir dir i = s.pgdir dir i) (hl : ∀ q, q ∈ l' → q ∈ l)
    (hs : tables_separate s dir l) : tables_separate s' dir l' := by
  obtain ⟨h1, h2⟩ := hs
  refine ⟨?_, ?_⟩
  · intro i i' hi hi' hne c1 c2
    rw [h i] at c1 ⊢
    rw [h i'] at c2 ⊢
    exact h1 i i' hi hi' hne c1 c2
  · intro i q hi c1 hq
    rw [h i] at c1 ⊢
    exact h2 i q hi c1 (hl q hq)

theorem PDX_lt (va : Nat) : PDX va < NPDENTRIES := by
  rw [PDX_eq]
  simp only [NPDENTRIES]
  omega

theorem boot_map_step (s : State) (l : List Nat) (dir v w : Nat)
    (hca : u32 s.tbl % PGSIZE = 0) (hwf : free_list_wf s l) (hsep : tables_separate s dir l)
    (hslot : (s.pgdir dir (PDX v) % 4 = 0 ∧ l ≠ []) ∨
      (s.pgdir dir (PDX v) % 4 = 1 ∧ PDE_ADDR (s.pgdir dir (PDX v)) < 268435456)) :
    ∃ pte s1 tk l1, pgdir_walk s dir v 1 = .ret pte s1 ∧ pte ≠ 0 ∧ l = tk ++ l1 ∧
      u32 (s1.store pte w).tbl % PGSIZE = 0 ∧ free_list_wf (s1.store pte w) l1 ∧
      tables_separate (s1.store pte w) dir l1 ∧
      s1.pgdir dir (PDX v) % 4 = 1 ∧ PDE_ADDR (s1.pgdir dir (PDX v)) < 268435456 ∧
      pte = PDE_ADDR (s1.pgdir dir (PDX v)) + 4026531840 + 4 * PTX v ∧
      (∀ d i, ¬ (d = dir ∧ i = PDX v ∧ s.pgdir dir (PDX v) % 4 = 0) →
        s1.pgdir d i = s.pgdir d i) ∧
      (s.pgdir dir (PDX v) % 4 = 0 → ∃ h, tk = [h] ∧ s1.pgdir dir (PDX v) = h * 4096 + 1) ∧
      (s.pgdir dir (PDX v) % 4 ≠ 0 → tk = []) ∧
      (∀ a, (∀ h, h ∈ tk →
          ¬ (h * 4096 + 4026531840 ≤ a ∧ a < h * 4096 + 4026531840 + 4096)) →
        s1.mem a = s.mem a) ∧
      (∀ a h, h ∈ tk → h * 4096 + 4026531840 ≤ a → a < h * 4096 + 4026531840 + 4096 →
        s1.mem a = 0) ∧
      (∀ q, q ∉ tk → s1.pages q = s.pages q) ∧ (∀ q, q ∈ tk → s1.pages q = ⟨none, 1⟩) := by
  have hptx := PTX_lt v
  rcases hslot with ⟨habs, hne⟩ | ⟨hco, hram⟩
  · -- the table is missing: a frame is taken from the free list
    cases l with
    | nil => exact absurd rfl hne
    | cons h t =>
      obtain ⟨hfl, hlt, href, hnt⟩ := free_list_wf_head s h t hwf
      have hk := page2kva_of_lt h hlt
      have hw := pgdir_walk_new_table s dir v 1 h _ (by decide)
        ((absent_iff _).mpr habs) hca hfl hk
      obtain ⟨hpa, e1, e2⟩ := new_pde_eq h hlt
      have hlt' : h < 65536 := by rw [NPAGES_eq] at hlt; exact hlt
      have hent : (s.with_new_table dir v h (h * 4096 + 4026531840)).pgdir dir (PDX v) =
          h * 4096 + 1 := by
        simp only [State.with_new_table, and_self, if_true]; exact e1
      have hoth : ∀ d i, ¬ (d = dir ∧ i = PDX v) →
          (s.with_new_table dir v h (h * 4096 + 4026531840)).pgdir d i = s.pgdir d i := by
        intro d i hdi
        simp only [State.with_new_table, hdi, if_false]
      have hpde : PDE_ADDR (h * 4096 + 1) = h * 4096 := by
        rw [PDE_ADDR_eq]; omega
      refine ⟨h * 4096 + 4026531840 + 4 * PTX v, _, [h], t, hw, by omega, rfl, ?_, ?_, ?_, ?_, ?_,
        ?_, ?_, ?_, ?_, ?_, ?_, ?_, ?_⟩
      · show u32 (u32 (h * 4096 + 4026531840 + NPTENTRIES * 4 * sizeof_pte_t)) % PGSIZE = 0
        simp only [u32, NPTENTRIES, sizeof_pte_t, PGSIZE]
        omega
      · exact free_list_wf_store _ _ _ _ (free_list_wf_new_table s h t dir v _ hwf)
      · refine ⟨?_, ?_⟩
        · intro i i' hi hi' hii c1 c2
          change (s.with_new_table dir v h (h * 4096 + 4026531840)).pgdir dir i &&& PDE_P =
            PDE_ENTRY at c1
          change (s.with_new_table dir v h (h * 4096 + 4026531840)).pgdir dir i' &&& PDE_P =
            PDE_ENTRY at c2
          change PDE_ADDR ((s.with_new_table dir v h (h * 4096 + 4026531840)).pgdir dir i) ≠
            PDE_ADDR ((s.with_new_table dir v h (h * 4096 + 4026531840)).pgdir dir i')
          by_cases hi1 : i = PDX v
          · have hi2 : i' ≠ PDX v := fun e => hii (hi1.trans e.symm)
            rw [hoth dir i' (fun e => hi2 e.2)] at c2 ⊢
            rw [hi1, hent, hpde]
            have := hsep.2 i' h hi' c2 (List.mem_cons_self _ _)
            rw [PGNUM_eq, PDE_ADDR_eq] at this
            rw [PDE_ADDR_eq]
            omega
          · rw [hoth dir i (fun e => hi1 e.2)] at c1 ⊢
            by_cases hi2 : i' = PDX v
            · rw [hi2, hent, hpde]
              have := hsep.2 i h hi c1 (List.mem_cons_self _ _)
              rw [PGNUM_eq, PDE_ADDR_eq] at this
              rw [PDE_ADDR_eq]
              omega
            · rw [hoth dir i' (fun e => hi2 e.2)] at c2 ⊢
              exact hsep.1 i i' hi hi' hii c1 c2
        · intro i q hi c1 hq
          change (s.with_new_table dir v h (h * 4096 + 4026531840)).pgdir dir i &&& PDE_P =
            PDE_ENTRY at c1
          change PGNUM (PDE_ADDR
            ((s.with_new_table dir v h (h * 4096 + 4026531840)).pgdir dir i)) ≠ q
          by_cases hi1 : i = PDX v
          · rw [hi1, hent, hpde, PGNUM_eq]
            intro e
            apply hnt
            have : q = h := by omega
            rw [← this]; exact hq
          · rw [hoth dir i (fun e => hi1 e.2)] at c1 ⊢
            exact hsep.2 i q hi c1 (List.mem_cons_of_mem _ hq)
      · rw [hent]; omega
      · rw [hent, hpde]; omega
      · rw [hent, hpde]
      · intro d i hdi
        exact hoth d i (fun e => hdi ⟨e.1, e.2, habs⟩)
      · intro _
        exact ⟨h, rfl, hent⟩
      · intro hx
        exact absurd habs hx
      · intro a ha
        have := ha h (List.mem_singleton.mpr rfl)
        have hnin : ¬ (h * 4096 + 4026531840 ≤ a ∧ a < h * 4096 + 4026531840 + PGSIZE) := by
          simpa only [PGSIZE] using this
        simp only [State.with_new_table, hnin, if_false]
      · intro a q hq h1 h2
        have hq' : q = h := List.mem_singleton.mp hq
        subst hq'
        have hin : q * 4096 + 4026531840 ≤ a ∧ a < q * 4096 + 4026531840 + PGSIZE := by
          simp only [PGSIZE]; exact ⟨h1, h2⟩
        simp only [State.with_new_table, hin, and_self, if_true]
      · intro q hq
        have hq' : q ≠ h := fun e => hq (List.mem_singleton.mpr e)
        simp only [State.with_new_table, hq', if_false]
      · intro q hq
        have hq' : q = h := List.mem_singleton.mp hq
        subst hq'
        simp [State.with_new_table, href, u16]
  · -- the table exists
    have hpres : s.pgdir dir (PDX v) &&& PTE_P ≠ 0 := by
      intro hx
      rw [absent_iff] at hx
      omega
    have hpl : PDE_ADDR (s.pgdir dir (PDX v)) < 4294967296 := by omega
    have hk : KADDR (PDE_ADDR (s.pgdir dir (PDX v))) =
        some (PDE_ADDR (s.pgdir dir (PDX v)) + 4026531840) := by
      rw [KADDR_eq, Nat.mod_eq_of_lt hpl, if_pos hram]
    have hw : pgdir_walk s dir v 1 =
        .ret (PDE_ADDR (s.pgdir dir (PDX v)) + 4026531840 + 4 * PTX v) s := by
      rw [pgdir_walk_present s dir v 1 hpres, pgdir_walk_slot_some s dir v _ hk]
    refine ⟨_, s, [], l, hw, by omega, rfl, hca, free_list_wf_store _ _ _ _ hwf,
      tables_separate_congr s _ dir l l (fun _ => rfl) (fun _ h => h) hsep, hco, hram, rfl,
      fun _ _ _ => rfl, ?_, fun _ => rfl, fun _ _ => rfl, ?_, fun _ _ => rfl, ?_⟩
    · intro hx; omega
    · intro a h hh; exact absurd hh (List.not_mem_nil _)
    · intro q hq; exact absurd hq (List.not_mem_nil _)

theorem slot_ne_of_tables (e1 e2 x1 x2 : Nat) (h : PDE_ADDR e1 ≠ PDE_ADDR e2)
    (hx1 : x1 < 256) (hx2 : x2 < 256) :
    PDE_ADDR e1 + 4026531840 + 4 * x1 ≠ PDE_ADDR e2 + 4026531840 + 4 * x2 := by
  rw [PDE_ADDR_eq, PDE_ADDR_eq] at *
  omega

theorem slot_not_in_frame (e x h : Nat) (hx : x < 256) (hne : PGNUM (PDE_ADDR e) ≠ h) :
    ¬ (h * 4096 + 4026531840 ≤ PDE_ADDR e + 4026531840 + 4 * x ∧
      PDE_ADDR e + 4026531840 + 4 * x < h * 4096 + 4026531840 + 4096) := by
  rw [PGNUM_eq, PDE_ADDR_eq] at hne
  rw [PDE_ADDR_eq]
  omega

theorem PTX_ne_of_page_ne (v1 v2 : Nat) (h1 : v1 < 4294967296) (h2 : v2 < 4294967296)
    (hne : v1 / 4096 ≠ v2 / 4096) (hpdx : PDX v1 = PDX v2) : PTX v1 ≠ PTX v2 := by
  rw [PDX_eq, PDX_eq] at hpdx
  rw [PTX_eq, PTX_eq]
  omega

theorem boot_map_region_loop_spec (dir va pa n : Nat) (hva : va % 4096 = 0)
    (hn : 4096 * n < 2147483648) (hend : va + 4096 * n ≤ 4294967296) (m : Nat) :
    ∀ (j : Nat) (s : State) (l : List Nat), j + m = n → u32 s.tbl % PGSIZE = 0 →
    free_list_wf s l → tables_separate s dir l →
    (∀ k, j ≤ k → k < n → s.pgdir dir (PDX (va + 4096 * k)) % 4 = 0 ∨
      (s.pgdir dir (PDX (va + 4096 * k)) % 4 = 1 ∧
        PDE_ADDR (s.pgdir dir (PDX (va + 4096 * k))) < 268435456)) →
    (((Finset.Ico j n).image (fun k => PDX (va + 4096 * k))).filter
      (fun i => s.pgdir dir i % 4 = 0)).card ≤ l.length →
    ∃ s' l' tk, boot_map_region_loop dir va (4096 * n) pa m (4096 * j) s = some (.ret () s') ∧
      l = tk ++ l' ∧ u32 s'.tbl % PGSIZE = 0 ∧ free_list_wf s' l' ∧
      tables_separate s' dir l' ∧
      (∀ k, j ≤ k → k < n →
        s'.pgdir dir (PDX (va + 4096 * k)) % 4 = 1 ∧
        PDE_ADDR (s'.pgdir dir (PDX (va + 4096 * k))) < 268435456 ∧
        s'.mem (PDE_ADDR (s'.pgdir dir (PDX (va + 4096 * k))) + 4026531840 +
          4 * PTX (va + 4096 * k)) =
          u32 (u32 (pa + 4096 * k) ||| PTE_ENTRY_SMALL ||| PTE_NONE_U)) ∧
      (∀ d i, ¬ (d = dir ∧ (∃ k, j ≤ k ∧ k < n ∧ i = PDX (va + 4096 * k)) ∧
          s.pgdir dir i % 4 = 0) → s'.pgdir d i = s.pgdir d i) ∧
      (∀ k, j ≤ k → k < n → s.pgdir dir (PDX (va + 4096 * k)) % 4 = 0 →
        ∃ h, h ∈ tk ∧ s'.pgdir dir (PDX (va + 4096 * k)) = h * 4096 + 1) ∧
      (∀ a, (∀ k, j ≤ k → k < n →
          a ≠ PDE_ADDR (s'.pgdir dir (PDX (va + 4096 * k))) + 4026531840 +
            4 * PTX (va + 4096 * k)) →
        (∀ h, h ∈ tk →
          ¬ (h * 4096 + 4026531840 ≤ a ∧ a < h * 4096 + 4026531840 + 4096)) →
        s'.mem a = s.mem a) ∧
      (∀ a h, (∀ k, j ≤ k → k < n →
          a ≠ PDE_ADDR (s'.pgdir dir (PDX (va + 4096 * k))) + 4026531840 +
            4 * PTX (va + 4096 * k)) →
        h ∈ tk → h * 4096 + 4026531840 ≤ a → a < h * 4096 + 4026531840 + 4096 →
        s'.mem a = 0) ∧
      (∀ q, q ∉ tk → s'.pages q = s.pages q) ∧
      (∀ q, q ∈ tk → s'.pages q = ⟨none, 1⟩) ∧
      (∀ q, q ∈ tk → ∃ k, j ≤ k ∧ k < n ∧
        s'.pgdir dir (PDX (va + 4096 * k)) = q * 4096 + 1) := by
  induction m with
  | zero =>
    intro j s l hj hca hwf hsep _ _
    have hjn : j = n := by omega
    subst hjn
    refine ⟨s, l, [], ?_, rfl, hca, hwf, hsep, ?_, fun _ _ _ => rfl, ?_, fun _ _ _ => rfl, ?_,
      fun _ _ => rfl, ?_, ?_⟩
    · simp only [boot_map_region_loop, lt_irrefl, if_false]
    · intro k h1 h2; omega
    · intro k h1 h2; omega
    · intro a h _ hh; exact absurd hh (List.not_mem_nil _)
    · intro q hq; exact absurd hq (List.not_mem_nil _)
    · intro q hq; exact absurd hq (List.not_mem_nil _)
  | succ m ih =>
    intro j s l hj hca hwf hsep hok hen
    have hjn : j < n := by omega
    have hmem : PDX (va + 4096 * j) ∈ (Finset.Ico j n).image (fun k => PDX (va + 4096 * k)) :=
      Finset.mem_image.mpr ⟨j, Finset.mem_Ico.mpr ⟨le_refl _, hjn⟩, rfl⟩
    have hslot : (s.pgdir dir (PDX (va + 4096 * j)) % 4 = 0 ∧ l ≠ []) ∨
        (s.pgdir dir (PDX (va + 4096 * j)) % 4 = 1 ∧
          PDE_ADDR (s.pgdir dir (PDX (va + 4096 * j))) < 268435456) := by
      rcases hok j (le_refl _) hjn with h0 | h1
      · left
        refine ⟨h0, ?_⟩
        intro hl
        have hin : PDX (va + 4096 * j) ∈
            ((Finset.Ico j n).image (fun k => PDX (va + 4096 * k))).filter
              (fun i => s.pgdir dir i % 4 = 0) :=
          Finset.mem_filter.mpr ⟨hmem, h0⟩
        have hpos := Finset.card_pos.mpr ⟨_, hin⟩
        rw [hl] at hen
        simp only [List.length_nil] at hen
        omega
      · exact Or.inr h1
    obtain ⟨pte, s1, tk1, l1, hw, hpte, hl, c1, c2, c3, a1, a2, a3, b1, b2, b3, m1, m2, p1, p2⟩ :=
      boot_map_step s l dir (va + 4096 * j)
        (u32 (u32 (pa + 4096 * j) ||| PTE_ENTRY_SMALL ||| PTE_NONE_U)) hca hwf hsep hslot
    have hs2d : ∀ d i, (s1.store pte
        (u32 (u32 (pa + 4096 * j) ||| PTE_ENTRY_SMALL ||| PTE_NONE_U))).pgdir d i =
        s1.pgdir d i := fun _ _ => rfl
    have hs2p : ∀ q, (s1.store pte
        (u32 (u32 (pa + 4096 * j) ||| PTE_ENTRY_SMALL ||| PTE_NONE_U))).pages q =
        s1.pages q := fun _ => rfl
    -- an entry missing after the step was missing before it, and is not the one of page j
    have hmiss : ∀ x, s1.pgdir dir x % 4 = 0 →
        s.pgdir dir x % 4 = 0 ∧ x ≠ PDX (va + 4096 * j) := by
      intro x hx
      have hxne : x ≠ PDX (va + 4096 * j) := by
        intro e
        rw [e] at hx
        omega
      rw [b1 dir x (fun e => hxne e.2.1)] at hx
      exact ⟨hx, hxne⟩
    have hok2 : ∀ k, j + 1 ≤ k → k < n →
        (s1.store pte (u32 (u32 (pa + 4096 * j) ||| PTE_ENTRY_SMALL ||| PTE_NONE_U))).pgdir dir
          (PDX (va + 4096 * k)) % 4 = 0 ∨
        ((s1.store pte (u32 (u32 (pa + 4096 * j) ||| PTE_ENTRY_SMALL ||| PTE_NONE_U))).pgdir dir
          (PDX (va + 4096 * k)) % 4 = 1 ∧
          PDE_ADDR ((s1.store pte
            (u32 (u32 (pa + 4096 * j) ||| PTE_ENTRY_SMALL ||| PTE_NONE_U))).pgdir dir
            (PDX (va + 4096 * k))) < 268435456) := by
      intro k hk1 hk2
      rw [hs2d]
      by_cases hx : PDX (va + 4096 * k) = PDX (va + 4096 * j)
      · rw [hx]
        exact Or.inr ⟨a1, a2⟩
      · rw [b1 dir _ (fun e => hx e.2.1)]
        exact hok k (by omega) hk2
    have hen2 : (((Finset.Ico (j + 1) n).image (fun k => PDX (va + 4096 * k))).filter
        (fun i => (s1.store pte
          (u32 (u32 (pa + 4096 * j) ||| PTE_ENTRY_SMALL ||| PTE_NONE_U))).pgdir dir i % 4 = 0)).card
        ≤ l1.length := by
      have hsub : ((Finset.Ico (j + 1) n).image (fun k => PDX (va + 4096 * k))).filter
          (fun i => (s1.store pte
            (u32 (u32 (pa + 4096 * j) ||| PTE_ENTRY_SMALL ||| PTE_NONE_U))).pgdir dir i % 4 = 0) ⊆
          (((Finset.Ico j n).image (fun k => PDX (va + 4096 * k))).filter
            (fun i => s.pgdir dir i % 4 = 0)).erase (PDX (va + 4096 * j)) := by
        intro x hx
        obtain ⟨hx1, hx2⟩ := Finset.mem_filter.mp hx
        obtain ⟨k, hk, hkx⟩ := Finset.mem_image.mp hx1
        obtain ⟨g1, g2⟩ := hmiss x hx2
        refine Finset.mem_erase.mpr ⟨g2, Finset.mem_filter.mpr ⟨?_, g1⟩⟩
        exact Finset.mem_image.mpr ⟨k, Finset.mem_Ico.mpr
          ⟨by have := (Finset.mem_Ico.mp hk).1; omega, (Finset.mem_Ico.mp hk).2⟩, hkx⟩
      have hcard := Finset.card_le_card hsub
      by_cases h0 : s.pgdir dir (PDX (va + 4096 * j)) % 4 = 0
      · obtain ⟨h, hh, _⟩ := b2 h0
        have hin : PDX (va + 4096 * j) ∈
            ((Finset.Ico j n).image (fun k => PDX (va + 4096 * k))).filter
              (fun i => s.pgdir dir i % 4 = 0) :=
          Finset.mem_filter.mpr ⟨hmem, h0⟩
        rw [Finset.card_erase_of_mem hin] at hcard
        rw [hl, hh] at hen
        simp only [List.singleton_append, List.length_cons] at hen
        omega
      · have htk := b3 h0
        rw [hl, htk] at hen
        simp only [List.nil_append] at hen
        have := Finset.card_erase_le (s := ((Finset.Ico j n).image
          (fun k => PDX (va + 4096 * k))).filter (fun i => s.pgdir dir i % 4 = 0))
          (a := PDX (va + 4096 * j))
        omega
    obtain ⟨s', l', tk', e0, el, ec, ewf, esep, eA, eB, eB', eC1, eC2, eD1, eD2, eT⟩ :=
      ih (j + 1) _ l1 (by omega) c1 c2 c3 hok2 hen2
    -- the entry of page j stays as the step left it
    have hentj : s'.pgdir dir (PDX (va + 4096 * j)) = s1.pgdir dir (PDX (va + 4096 * j)) := by
      rw [eB dir _ (fun e => by
        have := e.2.2
        rw [hs2d] at this
        omega)]
      rfl
    have hvj : va + 4096 * j < 4294967296 := by omega
    have hsubl : ∀ q, q ∈ tk' → q ∈ l1 := by
      intro q hq
      rw [el]
      exact List.mem_append_left _ hq
    -- the slot of page j is no slot of a later page and lies in no frame taken later
    have hslotj : PDE_ADDR (s1.pgdir dir (PDX (va + 4096 * j))) + 4026531840 +
        4 * PTX (va + 4096 * j) = pte := a3.symm
    have hcoj : s'.pgdir dir (PDX (va + 4096 * j)) &&& PDE_P = PDE_ENTRY := by
      rw [coarse_iff, hentj]; exact a1
    have hne_later : ∀ k, j + 1 ≤ k → k < n →
        pte ≠ PDE_ADDR (s'.pgdir dir (PDX (va + 4096 * k))) + 4026531840 +
          4 * PTX (va + 4096 * k) := by
      intro k hk1 hk2
      rw [← hslotj, ← hentj]
      by_cases hx : PDX (va + 4096 * j) = PDX (va + 4096 * k)
      · rw [← hx]
        have := PTX_ne_of_page_ne (va + 4096 * j) (va + 4096 * k) hvj (by omega) (by omega) hx
        omega
      · have hck : s'.pgdir dir (PDX (va + 4096 * k)) &&& PDE_P = PDE_ENTRY := by
          rw [coarse_iff]; exact (eA k hk1 hk2).1
        exact slot_ne_of_tables _ _ _ _
          (esep.1 _ _ (PDX_lt _) (PDX_lt _) hx hcoj hck) (PTX_lt _) (PTX_lt _)
    have hnf_later : ∀ h, h ∈ tk' →
        ¬ (h * 4096 + 4026531840 ≤ pte ∧ pte < h * 4096 + 4026531840 + 4096) := by
      intro h hh
      rw [← hslotj]
      apply slot_not_in_frame _ _ _ (PTX_lt _)
      apply c3.2 _ h (PDX_lt _) _ (hsubl h hh)
      rw [coarse_iff, hs2d]; exact a1
    refine ⟨s', l', tk1 ++ tk', ?_, ?_, ec, ewf, esep, ?_, ?_, ?_, ?_, ?_, ?_, ?_, ?_⟩
    · rw [← e0]
      have h1 : u32 (4096 * j) < u32 (4096 * n) := by simp only [u32]; omega
      have h2 : u32 (va + 4096 * j) = va + 4096 * j := by simp only [u32]; omega
      have h3 : u32 (4096 * j + PGSIZE) = 4096 * (j + 1) := by
        simp only [u32, PGSIZE]; omega
      simp only [boot_map_region_loop, if_pos h1, h2, hw, h3]
      rw [if_pos hpte]
    · rw [hl, el, List.append_assoc]
    · intro k hk1 hk2
      rcases Nat.eq_or_lt_of_le hk1 with e | hlt
      · subst e
        rw [hentj]
        refine ⟨a1, a2, ?_⟩
        rw [hslotj, eC1 pte hne_later hnf_later]
        simp [State.store]
      · exact eA k hlt hk2
    · intro d i hdi
      have h1 : s1.pgdir d i = s.pgdir d i := by
        apply b1 d i
        intro e
        apply hdi
        exact ⟨e.1, ⟨j, le_refl _, hjn, e.2.1⟩, by rw [e.2.1]; exact e.2.2⟩
      rw [← h1, ← hs2d d i]
      apply eB d i
      rintro ⟨r1, ⟨k, r2, r3, r4⟩, r5⟩
      rw [hs2d] at r5
      apply hdi
      exact ⟨r1, ⟨k, by omega, r3, r4⟩, (hmiss i r5).1⟩
    · intro k hk1 hk2 h0
      by_cases hx : PDX (va + 4096 * k) = PDX (va + 4096 * j)
      · rw [hx] at h0 ⊢
        obtain ⟨h, hh, hhe⟩ := b2 h0
        refine ⟨h, ?_, ?_⟩
        · rw [hh]; exact List.mem_append_left _ (List.mem_singleton.mpr rfl)
        · rw [hentj]; exact hhe
      · have hkj : j + 1 ≤ k := by
          rcases Nat.eq_or_lt_of_le hk1 with e | hlt
          · exact absurd (by rw [e]) hx
          · exact hlt
        have h1 : s1.pgdir dir (PDX (va + 4096 * k)) % 4 = 0 := by
          rw [b1 dir _ (fun e => hx e.2.1)]; exact h0
        obtain ⟨h, hh, hhe⟩ := eB' k hkj hk2 (by rw [hs2d]; exact h1)
        exact ⟨h, List.mem_append_right _ hh, hhe⟩
    · intro a ha hfr
      have hane : a ≠ pte := by
        have := ha j (le_refl _) hjn
        rw [hentj, hslotj] at this
        exact this
      rw [eC1 a (fun k hk1 hk2 => ha k (by omega) hk2)
        (fun h hh => hfr h (List.mem_append_right _ hh))]
      have : (s1.store pte (u32 (u32 (pa + 4096 * j) ||| PTE_ENTRY_SMALL ||| PTE_NONE_U))).mem a =
          s1.mem a := by
        simp [State.store, hane]
      rw [this]
      exact m1 a (fun h hh => hfr h (List.mem_append_left _ hh))
    · intro a h ha hh hf1 hf2
      have hane : a ≠ pte := by
        have := ha j (le_refl _) hjn
        rw [hentj, hslotj] at this
        exact this
      by_cases hex : ∃ h', h' ∈ tk' ∧ h' * 4096 + 4026531840 ≤ a ∧
          a < h' * 4096 + 4026531840 + 4096
      · obtain ⟨h', g1, g2, g3⟩ := hex
        exact eC2 a h' (fun k hk1 hk2 => ha k (by omega) hk2) g1 g2 g3
      · have hin1 : h ∈ tk1 := by
          rcases List.mem_append.mp hh with g | g
          · exact g
          · exact absurd ⟨h, g, hf1, hf2⟩ hex
        rw [eC1 a (fun k hk1 hk2 => ha k (by omega) hk2)
          (fun h' hh' hc => hex ⟨h', hh', hc.1, hc.2⟩)]
        have : (s1.store pte
            (u32 (u32 (pa + 4096 * j) ||| PTE_ENTRY_SMALL ||| PTE_NONE_U))).mem a = s1.mem a := by
          simp [State.store, hane]
        rw [this]
        exact m2 a h hin1 hf1 hf2
    · intro q hq
      rw [eD1 q (fun hx => hq (List.mem_append_right _ hx)), hs2p]
      exact p1 q (fun hx => hq (List.mem_append_left _ hx))
    · intro q hq
      by_cases hq2 : q ∈ tk'
      · exact eD2 q hq2
      · have hq1 : q ∈ tk1 := by
          rcases List.mem_append.mp hq with g | g
          · exact g
          · exact absurd g hq2
        rw [eD1 q hq2, hs2p]
        exact p2 q hq1
    · intro q hq
      rcases List.mem_append.mp hq with g | g
      · by_cases h0 : s.pgdir dir (PDX (va + 4096 * j)) % 4 = 0
        · obtain ⟨h, hh, hhe⟩ := b2 h0
          rw [hh] at g
          have hq' : q = h := List.mem_singleton.mp g
          exact ⟨j, le_refl _, hjn, by rw [hentj, hhe, hq']⟩
        · rw [b3 h0] at g
          exact absurd g (List.not_mem_nil _)
      · obtain ⟨k, k1, k2, k3⟩ := eT q g
        exact ⟨k, by omega, k2, k3⟩

theorem and_2 (e : Nat) : e &&& 2 = if 2 ≤ e % 4 then 2 else 0 := by
  have h1 : e &&& 2 = e % 4 &&& 2 := by
    have : (2 : Nat) = 3 &&& 2 := by decide
    rw [this, ← Nat.and_assoc, and_3]
    rfl
  rw [h1]
  have h2 : e % 4 < 4 := Nat.mod_lt _ (by decide)
  generalize e % 4 = r at h2
  interval_cases r <;> decide

theorem and_16M (e : Nat) (h : e % 4 < 2) : e &&& PDE_ENTRY_16M ≠ PDE_ENTRY_16M := by
  intro hx
  have h1 : e &&& PDE_ENTRY_16M &&& 2 = 2 := by rw [hx]; decide
  have h2 : e &&& PDE_ENTRY_16M &&& 2 = e &&& 2 := by
    rw [Nat.and_assoc]
    have : PDE_ENTRY_16M &&& 2 = 2 := by decide
    rw [this]
  rw [h2, and_2] at h1
  split at h1 <;> omega

theorem check_va2pa_coarse (s : State) (dir va : Nat)
    (hco : s.pgdir dir (PDX va) % 4 = 1)
    (hram : PDE_ADDR (s.pgdir dir (PDX va)) < 268435456) :
    check_va2pa s dir va =
      if s.mem (PDE_ADDR (s.pgdir dir (PDX va)) + 4026531840 + 4 * PTX va) &&& PTE_P = 0 then
        .ret 0xFFFFFFFF s
      else if s.mem (PDE_ADDR (s.pgdir dir (PDX va)) + 4026531840 + 4 * PTX va) &&&
          PTE_ENTRY_SMALL = PTE_ENTRY_SMALL then
        .ret (u32 (PTE_SMALL_ADDR
          (s.mem (PDE_ADDR (s.pgdir dir (PDX va)) + 4026531840 + 4 * PTX va)) +
          (u32 va &&& 0xFFF))) s
      else .ret (u32 (PTE_LARGE_ADDR
          (s.mem (PDE_ADDR (s.pgdir dir (PDX va)) + 4026531840 + 4 * PTX va)) +
          (u32 va &&& 0xFFFF))) s := by
  have h1 : ¬ (s.pgdir dir (PDX va) &&& PDE_P = 0) := by
    simp only [PDE_P, and_3]; omega
  have h2 : ¬ (s.pgdir dir (PDX va) &&& PDE_ENTRY_1M = PDE_ENTRY_1M) := by
    simp only [PDE_ENTRY_1M, and_2]
    split <;> omega
  have h3 := and_16M (s.pgdir dir (PDX va)) (by omega)
  have hpl : PDE_ADDR (s.pgdir dir (PDX va)) < 4294967296 := by omega
  have hk : KADDR (PDE_ADDR (s.pgdir dir (PDX va))) =
      some (PDE_ADDR (s.pgdir dir (PDX va)) + 4026531840) := by
    rw [KADDR_eq, Nat.mod_eq_of_lt hpl, if_pos hram]
  have h4 := (slot_facts (s.pgdir dir (PDX va)) va _ hk).1
  simp only [check_va2pa, if_neg h1, if_neg h2, if_neg h3, hk, h4]

theorem check_va2pa_congr (s s' : State) (dir va : Nat)
    (hd : s'.pgdir dir (PDX va) = s.pgdir dir (PDX va))
    (hm : s.pgdir dir (PDX va) % 4 = 1 → PDE_ADDR (s.pgdir dir (PDX va)) < 268435456 →
      s'.mem (PDE_ADDR (s.pgdir dir (PDX va)) + 4026531840 + 4 * PTX va) =
        s.mem (PDE_ADDR (s.pgdir dir (PDX va)) + 4026531840 + 4 * PTX va)) :
    (check_va2pa s' dir va).val = (check_va2pa s dir va).val := by
  by_cases hco : s.pgdir dir (PDX va) % 4 = 1
  · by_cases hram : PDE_ADDR (s.pgdir dir (PDX va)) < 268435456
    · rw [check_va2pa_coarse s dir va hco hram,
        check_va2pa_coarse s' dir va (by rw [hd]; exact hco) (by rw [hd]; exact hram), hd,
        hm hco hram]
      split
      · rfl
      · split <;> rfl
    · have h1 : ¬ (s.pgdir dir (PDX va) &&& PDE_P = 0) := by
        simp only [PDE_P, and_3]; omega
      have h2 : ¬ (s.pgdir dir (PDX va) &&& PDE_ENTRY_1M = PDE_ENTRY_1M) := by
        simp only [PDE_ENTRY_1M, and_2]
        split <;> omega
      have h3 := and_16M (s.pgdir dir (PDX va)) (by omega)
      have hk : KADDR (PDE_ADDR (s.pgdir dir (PDX va))) = none := by
        rw [KADDR_eq, if_neg]
        rw [PDE_ADDR_eq] at hram ⊢
        omega
      simp only [check_va2pa, hd, if_neg h1, if_neg h2, if_neg h3, hk, Result.val]
  · have h13 : s.pgdir dir (PDX va) &&& PDE_P = 0 ∨
        s.pgdir dir (PDX va) &&& PDE_ENTRY_1M = PDE_ENTRY_1M := by
      simp only [PDE_P, and_3, PDE_ENTRY_1M, and_2]
      by_cases h0 : s.pgdir dir (PDX va) % 4 = 0
      · exact Or.inl h0
      · right
        rw [if_pos (by omega)]
    rcases h13 with h | h
    · simp only [check_va2pa, hd, if_pos h, Result.val]
    · by_cases h0 : s.pgdir dir (PDX va) &&& PDE_P = 0
      · simp only [check_va2pa, hd, if_pos h0, Result.val]
      · simp only [check_va2pa, hd, if_neg h0, if_pos h, Result.val]

theorem small_page_word (x : Nat) (hx : x % 4096 = 0) (hlt : x < 4294967296) :
    u32 (x ||| PTE_ENTRY_SMALL ||| PTE_NONE_U) = x + 18 ∧
      x ||| PTE_ENTRY_SMALL ||| PTE_NONE_U = x + 18 := by
  have e1 : PTE_ENTRY_SMALL ||| PTE_NONE_U = 18 := by decide
  have e2 := or_eq_add x 18 12 (by simpa using hx) (by norm_num)
  have e3 : x ||| PTE_ENTRY_SMALL ||| PTE_NONE_U = x + 18 := by
    rw [Nat.or_assoc, e1, e2]
  refine ⟨?_, e3⟩
  rw [e3]
  simp only [u32]
  omega

theorem boot_map_region_loop_fails (dir va size pa fuel i : Nat) (s0 : State)
    (hi : u32 i < u32 size)
    (hf : (pgdir_walk s0 dir (u32 (va + i)) 1).val = some 0 ∨
      (pgdir_walk s0 dir (u32 (va + i)) 1).val = none) :
    ∃ s1, boot_map_region_loop dir va size pa (fuel + 1) i s0 = some (.panic s1) := by
  simp only [boot_map_region_loop, if_pos hi]
  cases hr : pgdir_walk s0 dir (u32 (va + i)) 1 with
  | panic s1 => exact ⟨s1, rfl⟩
  | ret pte s1 =>
    rw [hr] at hf
    rcases hf with h | h
    · have hp : pte = 0 := by
        simp only [Result.val] at h
        exact Option.some.inj h
      subst hp
      exact ⟨s1, by simp⟩
    · simp [Result.val] at h

theorem pgdir_walk_coarse (s : State) (dir v c : Nat) (hco : s.pgdir dir (PDX v) % 4 = 1)
    (hram : PDE_ADDR (s.pgdir dir (PDX v)) < 268435456) :
    pgdir_walk s dir v c =
      .ret (PDE_ADDR (s.pgdir dir (PDX v)) + 4026531840 + 4 * PTX v) s := by
  have hpres : s.pgdir dir (PDX v) &&& PTE_P ≠ 0 := by
    intro hx
    rw [absent_iff] at hx
    omega
  have hpl : PDE_ADDR (s.pgdir dir (PDX v)) < 4294967296 := by omega
  have hk : KADDR (PDE_ADDR (s.pgdir dir (PDX v))) =
      some (PDE_ADDR (s.pgdir dir (PDX v)) + 4026531840) := by
    rw [KADDR_eq, Nat.mod_eq_of_lt hpl, if_pos hram]
  rw [pgdir_walk_present s dir v c hpres, pgdir_walk_slot_some s dir v _ hk]

theorem boot_map_region_loop_prefix (dir va pa k n : Nat) (hk : k ≤ n)
    (hn : 4096 * n < 4294967296) (m : Nat) :
    ∀ (j : Nat) (s sk : State), j + m = k →
    boot_map_region_loop dir va (4096 * k) pa m (4096 * j) s = some (.ret () sk) →
    ∀ extra, boot_map_region_loop dir va (4096 * n) pa (m + extra) (4096 * j) s =
      boot_map_region_loop dir va (4096 * n) pa extra (4096 * k) sk := by
  induction m with
  | zero =>
    intro j s sk hj h extra
    have hjk : j = k := by omega
    subst hjk
    simp only [boot_map_region_loop, lt_irrefl, if_false] at h
    have hs : s = sk := by
      injection h with h
      injection h
    rw [Nat.zero_add, hs]
  | succ m ih =>
    intro j s sk hj h extra
    have h1 : u32 (4096 * j) < u32 (4096 * k) := by simp only [u32]; omega
    have h2 : u32 (4096 * j) < u32 (4096 * n) := by simp only [u32]; omega
    have h3 : u32 (4096 * j + PGSIZE) = 4096 * (j + 1) := by
      simp only [u32, PGSIZE]; omega
    have hfuel : m + 1 + extra = (m + extra) + 1 := by omega
    rw [hfuel]
    simp only [boot_map_region_loop, if_pos h1, if_pos h2, h3] at h ⊢
    cases hr : pgdir_walk s dir (u32 (va + 4096 * j)) 1 with
    | panic s1 =>
      rw [hr] at h
      simp at h
    | ret pte s1 =>
      rw [hr] at h
      by_cases hp : pte ≠ 0
      · simp only [if_pos hp] at h ⊢
        exact ih (j + 1) _ sk (by omega) h extra
      · simp only [if_neg hp] at h
        simp at h

/-- A run of `boot_map_region` in which `k` pages are mapped and the walker
then returns `NULL` or panics on the next page of the region ends in a
panic. -/
theorem boot_map_region_panics_after (dir va size pa : Nat) (hva : va % PGSIZE = 0)
    (hpa : pa % PGSIZE = 0) (hsz : size % PGSIZE = 0) (hlt : size < 2147483648)
    (hend : va + size ≤ 4294967296) (s0 sk : State) (k : Nat) (hk : k < size / PGSIZE)
    (hrun : boot_map_region k s0 dir va (PGSIZE * k) pa = some (.ret () sk))
    (hf : (pgdir_walk sk dir (va + PGSIZE * k) 1).val = some 0 ∨
      (pgdir_walk sk dir (va + PGSIZE * k) 1).val = none) :
    ∃ s1, boot_map_region (size / PGSIZE) s0 dir va size pa = some (.panic s1) := by
  obtain ⟨n, rfl⟩ : ∃ n, size = 4096 * n := ⟨size / 4096, by
    simp only [PGSIZE] at hsz; omega⟩
  have hdiv : 4096 * n / PGSIZE = n := by
    simp only [PGSIZE]; omega
  rw [hdiv] at hk ⊢
  simp only [PGSIZE] at hva hpa hrun hf
  have h1 : ¬ (u32 va % PGSIZE ≠ 0) := by
    simp only [u32, PGSIZE]; omega
  have h2 : ¬ (u32 pa % PGSIZE ≠ 0) := by
    simp only [u32, PGSIZE]; omega
  simp only [boot_map_region, if_neg h1, if_neg h2] at hrun ⊢
  have hpre := boot_map_region_loop_prefix dir va pa k n (by omega) (by omega) k 0 s0 sk
    (by omega) hrun (n - k)
  have hfuel : k + (n - k) = n := by omega
  rw [hfuel] at hpre
  have hz : 4096 * 0 = 0 := rfl
  rw [hz] at hpre
  rw [hpre]
  have hn1 : n - k = (n - k - 1) + 1 := by omega
  rw [hn1]
  apply boot_map_region_loop_fails
  · simp only [u32]; omega
  · have hu : u32 (va + 4096 * k) = va + 4096 * k := by simp only [u32]; omega
    rw [hu]
    exact hf

theorem boot_map_region_loop_no_mem (dir va pa n : Nat) (hva : va % 4096 = 0)
    (hn : 4096 * n < 2147483648) (hend : va + 4096 * n ≤ 4294967296) (m : Nat) :
    ∀ (j : Nat) (s : State) (l : List Nat), j + m = n → u32 s.tbl % PGSIZE = 0 →
    free_list_wf s l → tables_separate s dir l →
    (∀ k, j ≤ k → k < n → s.pgdir dir (PDX (va + 4096 * k)) % 4 = 0 ∨
      (s.pgdir dir (PDX (va + 4096 * k)) % 4 = 1 ∧
        PDE_ADDR (s.pgdir dir (PDX (va + 4096 * k))) < 268435456)) →
    l.length < (((Finset.Ico j n).image (fun k => PDX (va + 4096 * k))).filter
      (fun i => s.pgdir dir i % 4 = 0)).card →
    ∃ s1, boot_map_region_loop dir va (4096 * n) pa m (4096 * j) s = some (.panic s1) := by
  induction m with
  | zero =>
    intro j s l hj _ _ _ _ hen
    have hjn : j = n := by omega
    subst hjn
    simp at hen
  | succ m ih =>
    intro j s l hj hca hwf hsep hok hen
    have hjn : j < n := by omega
    have h1 : u32 (4096 * j) < u32 (4096 * n) := by simp only [u32]; omega
    have h2 : u32 (va + 4096 * j) = va + 4096 * j := by simp only [u32]; omega
    have h3 : u32 (4096 * j + PGSIZE) = 4096 * (j + 1) := by
      simp only [u32, PGSIZE]; omega
    by_cases hnomem : s.pgdir dir (PDX (va + 4096 * j)) % 4 = 0 ∧ l = []
    · -- no table and no frame: the walker returns `NULL`
      obtain ⟨h0, hl⟩ := hnomem
      subst hl
      have hw := pgdir_walk_no_table s dir (va + 4096 * j) 1 (by decide)
        ((absent_iff _).mpr h0) hca (free_list_wf_nil_head s hwf)
      apply boot_map_region_loop_fails dir va (4096 * n) pa m (4096 * j) s h1
      rw [h2, hw]
      exact Or.inl rfl
    · have hslot : (s.pgdir dir (PDX (va + 4096 * j)) % 4 = 0 ∧ l ≠ []) ∨
          (s.pgdir dir (PDX (va + 4096 * j)) % 4 = 1 ∧
            PDE_ADDR (s.pgdir dir (PDX (va + 4096 * j))) < 268435456) := by
        rcases hok j (le_refl _) hjn with h0 | h1
        · exact Or.inl ⟨h0, fun hl => hnomem ⟨h0, hl⟩⟩
        · exact Or.inr h1
      obtain ⟨pte, s1, tk1, l1, hw, hpte, hl, c1, c2, c3, a1, a2, _, b1, b2, b3, _⟩ :=
        boot_map_step s l dir (va + 4096 * j)
          (u32 (u32 (pa + 4096 * j) ||| PTE_ENTRY_SMALL ||| PTE_NONE_U)) hca hwf hsep hslot
      have hs2d : ∀ d i, (s1.store pte
          (u32 (u32 (pa + 4096 * j) ||| PTE_ENTRY_SMALL ||| PTE_NONE_U))).pgdir d i =
          s1.pgdir d i := fun _ _ => rfl
      have hok2 : ∀ k, j + 1 ≤ k → k < n →
          (s1.store pte (u32 (u32 (pa + 4096 * j) ||| PTE_ENTRY_SMALL ||| PTE_NONE_U))).pgdir
            dir (PDX (va + 4096 * k)) % 4 = 0 ∨
          ((s1.store pte (u32 (u32 (pa + 4096 * j) ||| PTE_ENTRY_SMALL ||| PTE_NONE_U))).pgdir
            dir (PDX (va + 4096 * k)) % 4 = 1 ∧
            PDE_ADDR ((s1.store pte
              (u32 (u32 (pa + 4096 * j) ||| PTE_ENTRY_SMALL ||| PTE_NONE_U))).pgdir dir
              (PDX (va + 4096 * k))) < 268435456) := by
        intro k hk1 hk2
        rw [hs2d]
        by_cases hx : PDX (va + 4096 * k) = PDX (va + 4096 * j)
        · rw [hx]
          exact Or.inr ⟨a1, a2⟩
        · rw [b1 dir _ (fun e => hx e.2.1)]
          exact hok k (by omega) hk2
      have hsub : (((Finset.Ico j n).image (fun k => PDX (va + 4096 * k))).filter
          (fun i => s.pgdir dir i % 4 = 0)).erase (PDX (va + 4096 * j)) ⊆
          ((Finset.Ico (j + 1) n).image (fun k => PDX (va + 4096 * k))).filter
            (fun i => (s1.store pte
              (u32 (u32 (pa + 4096 * j) ||| PTE_ENTRY_SMALL ||| PTE_NONE_U))).pgdir dir i % 4
                = 0) := by
        intro x hx
        obtain ⟨hx1, hx2⟩ := Finset.mem_erase.mp hx
        obtain ⟨hx3, hx4⟩ := Finset.mem_filter.mp hx2
        obtain ⟨k, hk, hkx⟩ := Finset.mem_image.mp hx3
        have hkj : k ≠ j := by
          intro e
          rw [e] at hkx
          exact hx1 hkx.symm
        refine Finset.mem_filter.mpr ⟨Finset.mem_image.mpr ⟨k, Finset.mem_Ico.mpr
          ⟨by have := (Finset.mem_Ico.mp hk).1; omega, (Finset.mem_Ico.mp hk).2⟩, hkx⟩, ?_⟩
        rw [hs2d, b1 dir x (fun e => hx1 e.2.1)]
        exact hx4
      have hcard := Finset.card_le_card hsub
      have hen2 : l1.length < (((Finset.Ico (j + 1) n).image
          (fun k => PDX (va + 4096 * k))).filter
          (fun i => (s1.store pte
            (u32 (u32 (pa + 4096 * j) ||| PTE_ENTRY_SMALL ||| PTE_NONE_U))).pgdir dir i % 4
              = 0)).card := by
        by_cases h0 : s.pgdir dir (PDX (va + 4096 * j)) % 4 = 0
        · obtain ⟨h, hh, _⟩ := b2 h0
          have hpred := Finset.pred_card_le_card_erase (s := ((Finset.Ico j n).image
            (fun k => PDX (va + 4096 * k))).filter (fun i => s.pgdir dir i % 4 = 0))
            (a := PDX (va + 4096 * j))
          rw [hl, hh] at hen
          simp only [List.singleton_append, List.length_cons] at hen
          omega
        · have htk := b3 h0
          rw [hl, htk] at hen
          simp only [List.nil_append] at hen
          have hnin : PDX (va + 4096 * j) ∉
              ((Finset.Ico j n).image (fun k => PDX (va + 4096 * k))).filter
                (fun i => s.pgdir dir i % 4 = 0) := by
            intro hx
            exact h0 (Finset.mem_filter.mp hx).2
          rw [Finset.erase_eq_of_not_mem hnin] at hcard
          omega
      obtain ⟨sp, hsp⟩ := ih (j + 1) _ l1 (by omega) c1 c2 c3 hok2 hen2
      refine ⟨sp, ?_⟩
      rw [← hsp]
      simp only [boot_map_region_loop, if_pos h1, h2, hw, h3]
      rw [if_pos hpte]

/-- With the tables of `dir` separate and every slot touched invalid or a
coarse pointer to a table in RAM, `boot_map_region` panics when the free list
holds fewer frames than there are invalid slots touched. -/
theorem boot_map_region_no_mem (s0 : State) (l0 : List Nat) (dir va size pa : Nat)
    (hva : va % PGSIZE = 0) (hpa : pa % PGSIZE = 0) (hsz : size % PGSIZE = 0)
    (hlt : size < 2147483648) (hend : va + size ≤ 4294967296)
    (hca : u32 s0.tbl % PGSIZE = 0) (hwf : free_list_wf s0 l0)
    (hsep : tables_separate s0 dir l0)
    (hok : ∀ k, k < size / PGSIZE →
      s0.pgdir dir (PDX (va + PGSIZE * k)) &&& PDE_P = 0 ∨
      (s0.pgdir dir (PDX (va + PGSIZE * k)) &&& PDE_P = PDE_ENTRY ∧
        PDE_ADDR (s0.pgdir dir (PDX (va + PGSIZE * k))) < TOTAL_PHYS_MEM))
    (hfew : l0.length <
      (((Finset.range (size / PGSIZE)).image (fun k => PDX (va + PGSIZE * k))).filter
        (fun i => s0.pgdir dir i &&& PDE_P = 0)).card) :
    ∃ s1, boot_map_region (size / PGSIZE) s0 dir va size pa = some (.panic s1) := by
  obtain ⟨n, rfl⟩ : ∃ n, size = 4096 * n := ⟨size / 4096, by
    simp only [PGSIZE] at hsz; omega⟩
  have hdiv : 4096 * n / PGSIZE = n := by
    simp only [PGSIZE]; omega
  rw [hdiv] at hok hfew ⊢
  simp only [PGSIZE] at hva hpa
  have hok' : ∀ k, 0 ≤ k → k < n → s0.pgdir dir (PDX (va + 4096 * k)) % 4 = 0 ∨
      (s0.pgdir dir (PDX (va + 4096 * k)) % 4 = 1 ∧
        PDE_ADDR (s0.pgdir dir (PDX (va + 4096 * k))) < 268435456) := by
    intro k _ hk
    have := hok k hk
    simpa only [PGSIZE, PDE_P, PDE_ENTRY, and_3, TOTAL_PHYS_MEM, Nat.reduceMul] using this
  have hfew' : l0.length < (((Finset.Ico 0 n).image (fun k => PDX (va + 4096 * k))).filter
      (fun i => s0.pgdir dir i % 4 = 0)).card := by
    have e : ((Finset.Ico 0 n).image (fun k => PDX (va + 4096 * k))).filter
        (fun i => s0.pgdir dir i % 4 = 0) =
        ((Finset.range n).image (fun k => PDX (va + PGSIZE * k))).filter
          (fun i => s0.pgdir dir i &&& PDE_P = 0) := by
      rw [Finset.range_eq_Ico]
      apply Finset.filter_congr
      intro x _
      simp only [PDE_P, and_3]
    rw [e]
    exact hfew
  obtain ⟨s1, h⟩ := boot_map_region_loop_no_mem dir va pa n hva hlt hend n 0 s0 l0 (by omega)
    hca hwf hsep hok' hfew'
  have h1 : ¬ (u32 va % PGSIZE ≠ 0) := by
    simp only [u32, PGSIZE]; omega
  have h2 : ¬ (u32 pa % PGSIZE ≠ 0) := by
    simp only [u32, PGSIZE]; omega
  refine ⟨s1, ?_⟩
  simp only [boot_map_region, if_neg h1, if_neg h2]
  rw [← h]

/-- C18, as amended. Function `boot_map_region(dir, va, size, pa)` with `va`
and `pa` page-aligned, `size` a multiple of 4096 below 2^31 and
`va + size <= 2^32`, called when the cursor of `pgtbl_alloc` is page-aligned,
the free list `l` is well formed, the tables of `dir` are separate (no two
coarse entries address the same table, no table lies in a free frame), every
directory slot touched is invalid or a coarse pointer to a table in RAM, and
`l` holds at least as many frames as there are invalid slots touched. Then
`size / 4096` passes finish the loop without panic; frames `tk` have left the
head of the free list, which stays well formed; for every multiple `i` of 4096
in `[0, size)` the walker finds the PTE of `va + i`, which is
`(pa + i) | PTE_ENTRY_SMALL | PTE_NONE_U`, and `check_va2pa(dir, va + i)` is
`pa + i`; for every address outside `[va, va + size)` the translation
`check_va2pa` gives is what it was, a present directory entry keeps its
value, and a PTE reached through a coarse entry keeps its place and value; the
descriptors other than those of `tk` are unchanged, and each frame of `tk` has
`pp_ref == 1` and holds the new table of a slot of the region. Two statements
on runs that fail follow, from any state `s0`: a run in which `k` pages are
mapped and the walker then returns `NULL` or panics on page `k` ends in a
panic; and under the conditions above on `s0`, a free list that holds fewer
frames than there are invalid slots touched makes the run end in a panic. -/
theorem boot_map_region_maps (s : State) (l : List Nat) (dir va size pa : Nat)
    (hva : va % PGSIZE = 0) (hpa : pa % PGSIZE = 0) (hsz : size % PGSIZE = 0)
    (hlt : size < 2147483648) (hend : va + size ≤ 4294967296)
    (hca : u32 s.tbl % PGSIZE = 0) (hwf : free_list_wf s l) (hsep : tables_separate s dir l)
    (hok : ∀ k, k < size / PGSIZE →
      s.pgdir dir (PDX (va + PGSIZE * k)) &&& PDE_P = 0 ∨
      (s.pgdir dir (PDX (va + PGSIZE * k)) &&& PDE_P = PDE_ENTRY ∧
        PDE_ADDR (s.pgdir dir (PDX (va + PGSIZE * k))) < TOTAL_PHYS_MEM))
    (hen : (((Finset.range (size / PGSIZE)).image (fun k => PDX (va + PGSIZE * k))).filter
      (fun i => s.pgdir dir i &&& PDE_P = 0)).card ≤ l.length) :
    (∃ s' tk l', boot_map_region (size / PGSIZE) s dir va size pa = some (.ret () s') ∧
      l = tk ++ l' ∧ free_list_wf s' l' ∧ tables_separate s' dir l' ∧
      u32 s'.tbl % PGSIZE = 0 ∧
      (∀ i, i < size → i % PGSIZE = 0 →
        ∃ pte, pgdir_walk s' dir (va + i) 0 = .ret pte s' ∧ pte ≠ 0 ∧
          s'.mem pte = u32 (pa + i) ||| PTE_ENTRY_SMALL ||| PTE_NONE_U ∧
          check_va2pa s' dir (va + i) = .ret (u32 (pa + i)) s') ∧
      (∀ va', va' < 4294967296 → (va' < va ∨ va + size ≤ va') →
        (check_va2pa s' dir va').val = (check_va2pa s dir va').val ∧
        (s.pgdir dir (PDX va') &&& PDE_P ≠ 0 →
          s'.pgdir dir (PDX va') = s.pgdir dir (PDX va')) ∧
        ∀ pte, s.pgdir dir (PDX va') &&& PDE_P = PDE_ENTRY →
          pgdir_walk s dir va' 0 = .ret pte s →
          pgdir_walk s' dir va' 0 = .ret pte s' ∧ s'.mem pte = s.mem pte) ∧
      (∀ q, q ∉ tk → s'.pages q = s.pages q) ∧
      (∀ q, q ∈ tk → s'.pages q = ⟨none, 1⟩ ∧
        ∃ i, i < size ∧ i % PGSIZE = 0 ∧
          s'.pgdir dir (PDX (va + i)) = page2pa q ||| PDE_ENTRY)) ∧
    (∀ s0 sk k, k < size / PGSIZE →
      boot_map_region k s0 dir va (PGSIZE * k) pa = some (.ret () sk) →
      ((pgdir_walk sk dir (va + PGSIZE * k) 1).val = some 0 ∨
        (pgdir_walk sk dir (va + PGSIZE * k) 1).val = none) →
      ∃ s1, boot_map_region (size / PGSIZE) s0 dir va size pa = some (.panic s1)) ∧
    (∀ s0 l0, u32 s0.tbl % PGSIZE = 0 → free_list_wf s0 l0 → tables_separate s0 dir l0 →
      (∀ k, k < size / PGSIZE →
        s0.pgdir dir (PDX (va + PGSIZE * k)) &&& PDE_P = 0 ∨
        (s0.pgdir dir (PDX (va + PGSIZE * k)) &&& PDE_P = PDE_ENTRY ∧
          PDE_ADDR (s0.pgdir dir (PDX (va + PGSIZE * k))) < TOTAL_PHYS_MEM)) →
      l0.length <
        (((Finset.range (size / PGSIZE)).image (fun k => PDX (va + PGSIZE * k))).filter
          (fun i => s0.pgdir dir i &&& PDE_P = 0)).card →
      ∃ s1, boot_map_region (size / PGSIZE) s0 dir va size pa = some (.panic s1)) := by
  refine ⟨?_, fun s0 sk k hk hrun hf =>
      boot_map_region_panics_after dir va size pa hva hpa hsz hlt hend s0 sk k hk hrun hf,
    fun s0 l0 h1 h2 h3 h4 h5 =>
      boot_map_region_no_mem s0 l0 dir va size pa hva hpa hsz hlt hend h1 h2 h3 h4 h5⟩
  obtain ⟨n, rfl⟩ : ∃ n, size = 4096 * n := ⟨size / 4096, by
    simp only [PGSIZE] at hsz; omega⟩
  have hdiv : 4096 * n / PGSIZE = n := by
    simp only [PGSIZE]; omega
  rw [hdiv] at hok hen ⊢
  simp only [PGSIZE] at hva hpa
  have hok' : ∀ k, 0 ≤ k → k < n → s.pgdir dir (PDX (va + 4096 * k)) % 4 = 0 ∨
      (s.pgdir dir (PDX (va + 4096 * k)) % 4 = 1 ∧
        PDE_ADDR (s.pgdir dir (PDX (va + 4096 * k))) < 268435456) := by
    intro k _ hk
    have := hok k hk
    simpa only [PGSIZE, PDE_P, PDE_ENTRY, and_3, TOTAL_PHYS_MEM, Nat.reduceMul] using this
  have hen' : (((Finset.Ico 0 n).image (fun k => PDX (va + 4096 * k))).filter
      (fun i => s.pgdir dir i % 4 = 0)).card ≤ l.length := by
    have e : ((Finset.Ico 0 n).image (fun k => PDX (va + 4096 * k))).filter
        (fun i => s.pgdir dir i % 4 = 0) =
        ((Finset.range n).image (fun k => PDX (va + PGSIZE * k))).filter
          (fun i => s.pgdir dir i &&& PDE_P = 0) := by
      rw [Finset.range_eq_Ico]
      apply Finset.filter_congr
      intro x _
      simp only [PDE_P, and_3]
    rw [e]
    exact hen
  obtain ⟨s', l', tk, e0, el, ec, ewf, esep, eA, eB, eB', eC1, eC2, eD1, eD2, eT⟩ :=
    boot_map_region_loop_spec dir va pa n hva hlt hend n 0 s l (by omega) hca hwf hsep hok' hen'
  have htk : ∀ h, h ∈ tk → h ∈ l := by
    intro h hh
    rw [el]
    exact List.mem_append_left _ hh
  refine ⟨s', tk, l', ?_, el, ewf, esep, ec, ?_, ?_, eD1, ?_⟩
  · have h1 : ¬ (u32 va % PGSIZE ≠ 0) := by
      simp only [u32, PGSIZE]; omega
    have h2 : ¬ (u32 pa % PGSIZE ≠ 0) := by
      simp only [u32, PGSIZE]; omega
    simp only [boot_map_region, if_neg h1, if_neg h2]
    rw [← e0]
  · intro i hi himod
    simp only [PGSIZE] at himod
    obtain ⟨k, rfl⟩ : ∃ k, i = 4096 * k := ⟨i / 4096, by omega⟩
    obtain ⟨g1, g2, g3⟩ := eA k (Nat.zero_le _) (by omega)
    have hx : u32 (pa + 4096 * k) % 4096 = 0 ∧ u32 (pa + 4096 * k) < 4294967296 := by
      simp only [u32]; omega
    obtain ⟨w1, w2⟩ := small_page_word _ hx.1 hx.2
    have hv : u32 (va + 4096 * k) &&& 0xFFF = 0 := by
      rw [and_FFF]; simp only [u32]; omega
    refine ⟨_, pgdir_walk_coarse s' dir _ 0 g1 g2, by omega, ?_, ?_⟩
    · rw [g3, w1, w2]
    · rw [check_va2pa_coarse s' dir _ g1 g2, g3, w1]
      have c1 : ¬ ((u32 (pa + 4096 * k) + 18) &&& PTE_P = 0) := by
        simp only [PTE_P, and_3]; omega
      have c2 : (u32 (pa + 4096 * k) + 18) &&& PTE_ENTRY_SMALL = PTE_ENTRY_SMALL := by
        simp only [PTE_ENTRY_SMALL, and_2]
        rw [if_pos (by omega)]
      rw [if_neg c1, if_pos c2, hv, PTE_SMALL_ADDR_eq]
      have : u32 ((u32 (pa + 4096 * k) + 18) % 4294967296 / 4096 * 4096 + 0) =
          u32 (pa + 4096 * k) := by
        simp only [u32] at hx ⊢
        omega
      rw [this]
  · intro va' hva' hout
    have hpage : ∀ k, k < n → va' / 4096 ≠ (va + 4096 * k) / 4096 := by
      intro k hk; omega
    -- the slot of `va'` is the slot of no page of the region
    have hslot_ne : ∀ k, 0 ≤ k → k < n → s'.pgdir dir (PDX va') % 4 = 1 →
        PDE_ADDR (s'.pgdir dir (PDX va')) + 4026531840 + 4 * PTX va' ≠
          PDE_ADDR (s'.pgdir dir (PDX (va + 4096 * k))) + 4026531840 +
            4 * PTX (va + 4096 * k) := by
      intro k _ hk hco
      by_cases hx : PDX va' = PDX (va + 4096 * k)
      · rw [← hx]
        have := PTX_ne_of_page_ne va' (va + 4096 * k) hva' (by omega) (hpage k hk) hx
        omega
      · have hck : s'.pgdir dir (PDX (va + 4096 * k)) &&& PDE_P = PDE_ENTRY := by
          rw [coarse_iff]; exact (eA k (Nat.zero_le _) hk).1
        exact slot_ne_of_tables _ _ _ _
          (esep.1 _ _ (PDX_lt _) (PDX_lt _) hx ((coarse_iff _).mpr hco) hck)
          (PTX_lt _) (PTX_lt _)
    have hkeep : s.pgdir dir (PDX va') % 4 ≠ 0 →
        s'.pgdir dir (PDX va') = s.pgdir dir (PDX va') :=
      fun h => eB dir _ (fun e => h e.2.2)
    have hmemeq : s.pgdir dir (PDX va') % 4 = 1 →
        PDE_ADDR (s.pgdir dir (PDX va')) < 268435456 →
        s'.mem (PDE_ADDR (s.pgdir dir (PDX va')) + 4026531840 + 4 * PTX va') =
          s.mem (PDE_ADDR (s.pgdir dir (PDX va')) + 4026531840 + 4 * PTX va') := by
      intro hco _
      have hd := hkeep (by omega)
      apply eC1
      · intro k hk0 hk
        have := hslot_ne k hk0 hk (by rw [hd]; exact hco)
        rw [hd] at this
        exact this
      · intro h hh
        exact slot_not_in_frame _ _ _ (PTX_lt _)
          (hsep.2 _ h (PDX_lt _) ((coarse_iff _).mpr hco) (htk h hh))
    refine ⟨?_, ?_, ?_⟩
    · by_cases h0 : s.pgdir dir (PDX va') % 4 = 0 ∧
          ∃ k, 0 ≤ k ∧ k < n ∧ PDX va' = PDX (va + 4096 * k)
      · obtain ⟨h00, k, hk0, hk, hkx⟩ := h0
        obtain ⟨h, hh, hhe⟩ := eB' k hk0 hk (by rw [← hkx]; exact h00)
        rw [← hkx] at hhe
        have hhl : h < 65536 := by
          have := (hwf.2.2 h (htk h hh)).1
          rw [NPAGES_eq] at this
          exact this
        have hpde : PDE_ADDR (h * 4096 + 1) = h * 4096 := by
          rw [PDE_ADDR_eq]; omega
        have hco' : s'.pgdir dir (PDX va') % 4 = 1 := by rw [hhe]; omega
        have hram' : PDE_ADDR (s'.pgdir dir (PDX va')) < 268435456 := by
          rw [hhe, hpde]; omega
        have hptx := PTX_lt va'
        have hz : s'.mem (PDE_ADDR (s'.pgdir dir (PDX va')) + 4026531840 + 4 * PTX va') = 0 := by
          apply eC2 _ h (fun k hk0 hk => hslot_ne k hk0 hk hco') hh
          · rw [hhe, hpde]; omega
          · rw [hhe, hpde]; omega
        rw [check_va2pa_coarse s' dir va' hco' hram', hz]
        have hz2 : (0 : Nat) &&& PTE_P = 0 := by decide
        rw [if_pos hz2]
        have habs : s.pgdir dir (PDX va') &&& PDE_P = 0 := by
          simp only [PDE_P, and_3]; exact h00
        simp only [check_va2pa, if_pos habs, Result.val]
      · have hd : s'.pgdir dir (PDX va') = s.pgdir dir (PDX va') := by
          apply eB dir
          rintro ⟨_, ⟨k, r1, r2, r3⟩, r4⟩
          exact h0 ⟨r4, k, r1, r2, r3⟩
        exact check_va2pa_congr s s' dir va' hd hmemeq
    · intro hp
      apply hkeep
      simp only [PDE_P, and_3] at hp
      exact hp
    · intro pte hco hw
      have hco' : s.pgdir dir (PDX va') % 4 = 1 := (coarse_iff _).mp hco
      have hram : PDE_ADDR (s.pgdir dir (PDX va')) < 268435456 := by
        by_contra hge
        have hk : KADDR (PDE_ADDR (s.pgdir dir (PDX va'))) = none := by
          rw [KADDR_eq, if_neg]
          rw [PDE_ADDR_eq] at hge ⊢
          omega
        have hpres : s.pgdir dir (PDX va') &&& PTE_P ≠ 0 := by
          intro hx
          rw [absent_iff] at hx
          omega
        rw [pgdir_walk_present s dir va' 0 hpres, pgdir_walk_slot_none s dir va' hk] at hw
        cases hw
      have hd := hkeep (by omega)
      rw [pgdir_walk_coarse s dir va' 0 hco' hram] at hw
      have hpte : PDE_ADDR (s.pgdir dir (PDX va')) + 4026531840 + 4 * PTX va' = pte := by
        injection hw
      rw [← hpte]
      refine ⟨?_, hmemeq hco' hram⟩
      have := pgdir_walk_coarse s' dir va' 0 (by rw [hd]; exact hco') (by rw [hd]; exact hram)
      rw [hd] at this
      exact this
  · intro q hq
    refine ⟨eD2 q hq, ?_⟩
    obtain ⟨k, _, k2, k3⟩ := eT q hq
    have hq' := (hwf.2.2 q (htk q hq)).1
    refine ⟨4096 * k, by omega, by simp only [PGSIZE]; omega, ?_⟩
    rw [k3, (new_pde_eq q hq').2.2]

/-- Witness for C18: two pages at `0x3FF000` of directory 0 of `ex_four_free`,
the last page of slot 3 and the first of slot 4, mapped to `0x5000`; both
slots are empty and the free list holds four frames. With the one free frame
of `ex_one_free` the same call panics: the first page is mapped, and on the
second the walker returns `NULL`. -/
theorem boot_map_region_maps_witness :
    (0x3FF000 % PGSIZE = 0 ∧ 0x5000 % PGSIZE = 0 ∧ 8192 % PGSIZE = 0 ∧
      8192 < 2147483648 ∧ 0x3FF000 + 8192 ≤ 4294967296 ∧
      u32 ex_four_free.tbl % PGSIZE = 0 ∧ free_list_wf ex_four_free [12, 11, 10, 9] ∧
      tables_separate ex_four_free 0 [12, 11, 10, 9] ∧
      (∀ k, k < 8192 / PGSIZE →
        ex_four_free.pgdir 0 (PDX (0x3FF000 + PGSIZE * k)) &&& PDE_P = 0 ∨
        (ex_four_free.pgdir 0 (PDX (0x3FF000 + PGSIZE * k)) &&& PDE_P = PDE_ENTRY ∧
          PDE_ADDR (ex_four_free.pgdir 0 (PDX (0x3FF000 + PGSIZE * k))) < TOTAL_PHYS_MEM)) ∧
      (((Finset.range (8192 / PGSIZE)).image (fun k => PDX (0x3FF000 + PGSIZE * k))).filter
        (fun i => ex_four_free.pgdir 0 i &&& PDE_P = 0)).card ≤ [12, 11, 10, 9].length) ∧
    ((∃ s' tk l', boot_map_region (8192 / PGSIZE) ex_four_free 0 0x3FF000 8192 0x5000 =
        some (.ret () s') ∧
      [12, 11, 10, 9] = tk ++ l' ∧ free_list_wf s' l' ∧ tables_separate s' 0 l' ∧
      u32 s'.tbl % PGSIZE = 0 ∧
      (∀ i, i < 8192 → i % PGSIZE = 0 →
        ∃ pte, pgdir_walk s' 0 (0x3FF000 + i) 0 = .ret pte s' ∧ pte ≠ 0 ∧
          s'.mem pte = u32 (0x5000 + i) ||| PTE_ENTRY_SMALL ||| PTE_NONE_U ∧
          check_va2pa s' 0 (0x3FF000 + i) = .ret (u32 (0x5000 + i)) s') ∧
      (∀ va', va' < 4294967296 → (va' < 0x3FF000 ∨ 0x3FF000 + 8192 ≤ va') →
        (check_va2pa s' 0 va').val = (check_va2pa ex_four_free 0 va').val ∧
        (ex_four_free.pgdir 0 (PDX va') &&& PDE_P ≠ 0 →
          s'.pgdir 0 (PDX va') = ex_four_free.pgdir 0 (PDX va')) ∧
        ∀ pte, ex_four_free.pgdir 0 (PDX va') &&& PDE_P = PDE_ENTRY →
          pgdir_walk ex_four_free 0 va' 0 = .ret pte ex_four_free →
          pgdir_walk s' 0 va' 0 = .ret pte s' ∧ s'.mem pte = ex_four_free.mem pte) ∧
      (∀ q, q ∉ tk → s'.pages q = ex_four_free.pages q) ∧
      (∀ q, q ∈ tk → s'.pages q = ⟨none, 1⟩ ∧
        ∃ i, i < 8192 ∧ i % PGSIZE = 0 ∧
          s'.pgdir 0 (PDX (0x3FF000 + i)) = page2pa q ||| PDE_ENTRY)) ∧
    (∀ s0 sk k, k < 8192 / PGSIZE →
      boot_map_region k s0 0 0x3FF000 (PGSIZE * k) 0x5000 = some (.ret () sk) →
      ((pgdir_walk sk 0 (0x3FF000 + PGSIZE * k) 1).val = some 0 ∨
        (pgdir_walk sk 0 (0x3FF000 + PGSIZE * k) 1).val = none) →
      ∃ s1, boot_map_region (8192 / PGSIZE) s0 0 0x3FF000 8192 0x5000 = some (.panic s1)) ∧
    (∀ s0 l0, u32 s0.tbl % PGSIZE = 0 → free_list_wf s0 l0 → tables_separate s0 0 l0 →
      (∀ k, k < 8192 / PGSIZE →
        s0.pgdir 0 (PDX (0x3FF000 + PGSIZE * k)) &&& PDE_P = 0 ∨
        (s0.pgdir 0 (PDX (0x3FF000 + PGSIZE * k)) &&& PDE_P = PDE_ENTRY ∧
          PDE_ADDR (s0.pgdir 0 (PDX (0x3FF000 + PGSIZE * k))) < TOTAL_PHYS_MEM)) →
      l0.length <
        (((Finset.range (8192 / PGSIZE)).image (fun k => PDX (0x3FF000 + PGSIZE * k))).filter
          (fun i => s0.pgdir 0 i &&& PDE_P = 0)).card →
      ∃ s1, boot_map_region (8192 / PGSIZE) s0 0 0x3FF000 8192 0x5000 = some (.panic s1))) ∧
    ((free_list_wf ex_one_free [12] ∧
      [12].length <
        (((Finset.range (8192 / PGSIZE)).image (fun k => PDX (0x3FF000 + PGSIZE * k))).filter
          (fun i => ex_one_free.pgdir 0 i &&& PDE_P = 0)).card) ∧
      ∃ s1, boot_map_region (8192 / PGSIZE) ex_one_free 0 0x3FF000 8192 0x5000 =
        some (.panic s1)) ∧
    (∃ sk, boot_map_region 1 ex_one_free 0 0x3FF000 (PGSIZE * 1) 0x5000 = some (.ret () sk) ∧
      (pgdir_walk sk 0 (0x3FF000 + PGSIZE * 1) 1).val = some 0 ∧
      ∃ s1, boot_map_region (8192 / PGSIZE) ex_one_free 0 0x3FF000 8192 0x5000 =
        some (.panic s1)) := by
  have hsep : tables_separate ex_four_free 0 [12, 11, 10, 9] :=
    ⟨fun _ _ _ _ _ h _ => by
        have h' : (0 : Nat) &&& PDE_P = PDE_ENTRY := h
        exact absurd h' (by decide),
      fun _ _ _ h _ => by
        have h' : (0 : Nat) &&& PDE_P = PDE_ENTRY := h
        exact absurd h' (by decide)⟩
  have hok : ∀ k, k < 8192 / PGSIZE →
      ex_four_free.pgdir 0 (PDX (0x3FF000 + PGSIZE * k)) &&& PDE_P = 0 ∨
      (ex_four_free.pgdir 0 (PDX (0x3FF000 + PGSIZE * k)) &&& PDE_P = PDE_ENTRY ∧
        PDE_ADDR (ex_four_free.pgdir 0 (PDX (0x3FF000 + PGSIZE * k))) < TOTAL_PHYS_MEM) :=
    fun _ _ => by
      have h : (0 : Nat) &&& PDE_P = 0 := by decide
      exact Or.inl h
  have hen : (((Finset.range (8192 / PGSIZE)).image
      (fun k => PDX (0x3FF000 + PGSIZE * k))).filter
      (fun i => ex_four_free.pgdir 0 i &&& PDE_P = 0)).card ≤ [12, 11, 10, 9].length := by
    decide
  have hsep1 : tables_separate ex_one_free 0 [12] :=
    ⟨fun _ _ _ _ _ h _ => by
        have h' : (0 : Nat) &&& PDE_P = PDE_ENTRY := h
        exact absurd h' (by decide),
      fun _ _ _ h _ => by
        have h' : (0 : Nat) &&& PDE_P = PDE_ENTRY := h
        exact absurd h' (by decide)⟩
  have hok1 : ∀ k, k < 8192 / PGSIZE →
      ex_one_free.pgdir 0 (PDX (0x3FF000 + PGSIZE * k)) &&& PDE_P = 0 ∨
      (ex_one_free.pgdir 0 (PDX (0x3FF000 + PGSIZE * k)) &&& PDE_P = PDE_ENTRY ∧
        PDE_ADDR (ex_one_free.pgdir 0 (PDX (0x3FF000 + PGSIZE * k))) < TOTAL_PHYS_MEM) :=
    fun _ _ => by
      have h : (0 : Nat) &&& PDE_P = 0 := by decide
      exact Or.inl h
  have hfew : [12].length <
      (((Finset.range (8192 / PGSIZE)).image (fun k => PDX (0x3FF000 + PGSIZE * k))).filter
        (fun i => ex_one_free.pgdir 0 i &&& PDE_P = 0)).card := by
    decide
  have hwf1 : free_list_wf ex_one_free [12] := by decide
  have hprefix : ∃ sk, boot_map_region 1 ex_one_free 0 0x3FF000 (PGSIZE * 1) 0x5000 =
      some (.ret () sk) ∧ (pgdir_walk sk 0 (0x3FF000 + PGSIZE * 1) 1).val = some 0 := by
    have hw : pgdir_walk ex_one_free 0 0x3FF000 1 =
        .ret (0xF000C000 + 4 * PTX 0x3FF000)
          (ex_one_free.with_new_table 0 0x3FF000 12 0xF000C000) :=
      pgdir_walk_new_table ex_one_free 0 0x3FF000 1 12 0xF000C000 (by decide) (by decide)
        (by decide) (by decide) (by decide)
    have h1 : ¬ (u32 0x3FF000 % PGSIZE ≠ 0) := by decide
    have h2 : ¬ (u32 0x5000 % PGSIZE ≠ 0) := by decide
    have h3 : u32 0 < u32 (PGSIZE * 1) := by decide
    have h4 : u32 (0x3FF000 + 0) = 0x3FF000 := by decide
    have h5 : 0xF000C000 + 4 * PTX 0x3FF000 ≠ 0 := by decide
    have h6 : ¬ (u32 (u32 (0 + PGSIZE)) < u32 (PGSIZE * 1)) := by decide
    refine ⟨(ex_one_free.with_new_table 0 0x3FF000 12 0xF000C000).store
      (0xF000C000 + 4 * PTX 0x3FF000)
      (u32 (u32 (0x5000 + 0) ||| PTE_ENTRY_SMALL ||| PTE_NONE_U)), ?_, by decide⟩
    simp only [boot_map_region, boot_map_region_loop, if_neg h1, if_neg h2, if_pos h3, h4, hw,
      if_pos h5, if_neg h6]
    rw [if_neg (by decide)]
  obtain ⟨sk, hrun, hf⟩ := hprefix
  have hthm := boot_map_region_maps ex_four_free [12, 11, 10, 9] 0 0x3FF000 8192 0x5000
    (by decide) (by decide) (by decide) (by decide) (by decide) (by decide) (by decide) hsep
    hok hen
  exact ⟨⟨by decide, by decide, by decide, by decide, by decide, by decide, by decide, hsep,
    hok, hen⟩, hthm,
    ⟨⟨hwf1, hfew⟩, hthm.2.2 ex_one_free [12] (by decide) hwf1 hsep1 hok1 hfew⟩,
    ⟨sk, hrun, hf, hthm.2.1 ex_one_free sk 1 (by decide) hrun (Or.inl hf)⟩⟩

/-! ## The domain field `set_domain` writes -/

theorem u32_testBit (x i : Nat) : (u32 x).testBit i = (decide (i < 32) && x.testBit i) := by
  have h : (4294967296 : Nat) = 2 ^ 32 := by norm_num
  simp only [u32, h, Nat.testBit_mod_two_pow]

theorem not32_testBit (x i : Nat) :
    (not32 x).testBit i = (decide (i < 32) && !x.testBit i) := by
  have h : (0xFFFFFFFF : Nat) = 2 ^ 32 - 1 := by norm_num
  simp only [not32, h, Nat.testBit_xor, Nat.testBit_two_pow_sub_one, u32_testBit]
  cases decide (i < 32) <;> cases x.testBit i <;> rfl

theorem testBit_of_lt_four (p m : Nat) (hp : p < 4) (hm : 2 ≤ m) : p.testBit m = false := by
  apply Nat.testBit_lt_two_pow
  have : 2 ^ 2 ≤ 2 ^ m := Nat.pow_le_pow_right (by decide) hm
  omega

theorem testBit_eleven (m : Nat) : (11 : Nat).testBit m = decide (m = 0 ∨ m = 1 ∨ m = 3) := by
  by_cases h : m < 4
  · interval_cases m <;> decide
  · have h1 : (11 : Nat) < 2 ^ m := by
      have : 2 ^ 4 ≤ 2 ^ m := Nat.pow_le_pow_right (by decide) (by omega)
      omega
    rw [Nat.testBit_lt_two_pow h1]
    symm
    rw [decide_eq_false_iff_not]
    omega

theorem testBit_three (m : Nat) : (3 : Nat).testBit m = decide (m < 2) := by
  have h : (3 : Nat) = 2 ^ 2 - 1 := by norm_num
  rw [h, Nat.testBit_two_pow_sub_one]

theorem field_write_testBit (c old did priv i : Nat) :
    (u32 (u32 old &&& not32 (c <<< (2 * did))) ||| u32 (priv <<< (2 * did))).testBit i =
      (decide (i < 32) &&
        ((old.testBit i && !(decide (2 * did ≤ i) && c.testBit (i - 2 * did))) ||
          (decide (2 * did ≤ i) && priv.testBit (i - 2 * did)))) := by
  simp only [Nat.testBit_or, u32_testBit, Nat.testBit_and, not32_testBit, Nat.testBit_shiftLeft,
    ge_iff_le]
  cases decide (i < 32) <;> cases old.testBit i <;> cases decide (2 * did ≤ i) <;>
    cases c.testBit (i - 2 * did) <;> cases priv.testBit (i - 2 * did) <;> rfl

theorem domain_field_testBit (x d j : Nat) :
    (domain_field x d).testBit j = (decide (j < 2) && x.testBit (2 * d + j)) := by
  have h : (0b11 : Nat) = 3 := rfl
  simp only [domain_field, h, Nat.testBit_and, Nat.testBit_shiftRight, testBit_three]
  cases decide (j < 2) <;> cases x.testBit (2 * d + j) <;> rfl

theorem set_domain_testBit (old did priv i : Nat) :
    (set_domain old did priv).testBit i =
      (decide (i < 32) &&
        ((old.testBit i && !(decide (2 * did ≤ i) &&
            decide (i - 2 * did = 0 ∨ i - 2 * did = 1 ∨ i - 2 * did = 3))) ||
          (decide (2 * did ≤ i) && priv.testBit (i - 2 * did)))) := by
  simp only [set_domain]
  rw [field_write_testBit, testBit_eleven]

theorem set_domain_spec_testBit (old did priv i : Nat) :
    (set_domain_spec old did priv).testBit i =
      (decide (i < 32) &&
        ((old.testBit i && !(decide (2 * did ≤ i) && decide (i - 2 * did < 2))) ||
          (decide (2 * did ≤ i) && priv.testBit (i - 2 * did)))) := by
  have h : (0b11 : Nat) = 3 := rfl
  simp only [set_domain_spec, h]
  rw [field_write_testBit, testBit_three]

theorem testBit_of_lt_u32 (x i : Nat) (hx : x < 4294967296) (hi : 32 ≤ i) :
    x.testBit i = false := by
  apply Nat.testBit_lt_two_pow
  have : 2 ^ 32 ≤ 2 ^ i := Nat.pow_le_pow_right (by decide) hi
  omega

theorem set_domain_lt (old did priv : Nat) : set_domain old did priv < 4294967296 := by
  have h : (4294967296 : Nat) = 2 ^ 32 := by norm_num
  simp only [set_domain]
  rw [h]
  apply Nat.or_lt_two_pow
  · rw [← h]; exact Nat.mod_lt _ (by decide)
  · rw [← h]; exact Nat.mod_lt _ (by decide)

theorem set_domain_field_written (old did priv : Nat) (hd : did ≤ 15) (hp : priv < 4) :
    domain_field (set_domain old did priv) did = priv := by
  apply Nat.eq_of_testBit_eq
  intro j
  rw [domain_field_testBit, set_domain_testBit]
  by_cases hj : j < 2
  · have h1 : 2 * did + j < 32 := by omega
    have h2 : 2 * did ≤ 2 * did + j := by omega
    have h3 : 2 * did + j - 2 * did = j := by omega
    have h4 : j = 0 ∨ j = 1 ∨ j = 3 := by omega
    simp [hj, h1, h3, h4]
  · rw [testBit_of_lt_four priv j hp (by omega)]
    simp [hj]

theorem set_domain_field_other (old did priv d : Nat) (ho : old < 4294967296) (hp : priv < 4)
    (h1 : d ≠ did) (h2 : d ≠ did + 1) :
    domain_field (set_domain old did priv) d = domain_field old d := by
  apply Nat.eq_of_testBit_eq
  intro j
  rw [domain_field_testBit, domain_field_testBit, set_domain_testBit]
  by_cases hj : j < 2
  · by_cases h32 : 2 * d + j < 32
    · by_cases hlt : d < did
      · have h3 : ¬ (2 * did ≤ 2 * d + j) := by omega
        simp [hj, h32, h3]
      · have h3 : 2 * did ≤ 2 * d + j := by omega
        have h4 : ¬ (2 * d + j - 2 * did = 0 ∨ 2 * d + j - 2 * did = 1 ∨
            2 * d + j - 2 * did = 3) := by omega
        have h5 := testBit_of_lt_four priv (2 * d + j - 2 * did) hp (by omega)
        simp [hj, h32, h3, h4, h5]
    · rw [testBit_of_lt_u32 old _ ho (by omega)]
      simp [h32]
  · simp [hj]

theorem set_domain_field_next (old did priv : Nat) (ho : old < 4294967296) (hp : priv < 4) :
    domain_field (set_domain old did priv) (did + 1) = domain_field old (did + 1) &&& 1 := by
  apply Nat.eq_of_testBit_eq
  intro j
  have hone : (1 : Nat).testBit j = decide (j < 1) := by
    by_cases h0 : j = 0
    · subst h0; rfl
    · have h1 : (1 : Nat) < 2 ^ j := Nat.one_lt_two_pow h0
      rw [Nat.testBit_lt_two_pow h1]
      symm
      rw [decide_eq_false_iff_not]
      omega
  rw [Nat.testBit_and, hone, domain_field_testBit, domain_field_testBit, set_domain_testBit]
  by_cases hj : j < 2
  · by_cases h32 : 2 * (did + 1) + j < 32
    · have h3 : 2 * did ≤ 2 * (did + 1) + j := by omega
      have h5 := testBit_of_lt_four priv (2 * (did + 1) + j - 2 * did) hp (by omega)
      by_cases hj0 : j < 1
      · have h4 : ¬ (2 * (did + 1) + j - 2 * did = 0 ∨ 2 * (did + 1) + j - 2 * did = 1 ∨
            2 * (did + 1) + j - 2 * did = 3) := by omega
        simp [hj, h32, h3, h4, h5, hj0]
      · have h4 : 2 * (did + 1) + j - 2 * did = 0 ∨ 2 * (did + 1) + j - 2 * did = 1 ∨
            2 * (did + 1) + j - 2 * did = 3 := by omega
        simp [hj, h32, h3, h4, h5, hj0]
    · rw [testBit_of_lt_u32 old _ ho (by omega)]
      simp [h32]
  · simp [hj]

theorem set_domain_eq_spec_iff (old did priv : Nat) (hd : did ≤ 15) (hp : priv < 4) :
    set_domain old did priv = set_domain_spec old did priv ↔
      did = 15 ∨ old.testBit (2 * did + 3) = false := by
  constructor
  · intro h
    by_cases h15 : did = 15
    · exact Or.inl h15
    · right
      have hb : (set_domain old did priv).testBit (2 * did + 3) =
          (set_domain_spec old did priv).testBit (2 * did + 3) := by rw [h]
      rw [set_domain_testBit, set_domain_spec_testBit] at hb
      have h1 : 2 * did + 3 < 32 := by omega
      have h2 : 2 * did ≤ 2 * did + 3 := by omega
      have h3 : 2 * did + 3 - 2 * did = 3 := by omega
      have h5 := testBit_of_lt_four priv 3 hp (by omega)
      simp [h1, h3, h5] at hb
      exact hb
  · intro h
    apply Nat.eq_of_testBit_eq
    intro i
    rw [set_domain_testBit, set_domain_spec_testBit]
    by_cases hi : i = 2 * did + 3
    · subst hi
      rcases h with h | h
      · have h1 : ¬ (2 * did + 3 < 32) := by omega
        simp [h1]
      · have h3 : 2 * did + 3 - 2 * did = 3 := by omega
        have h5 := testBit_of_lt_four priv 3 hp (by omega)
        simp [h, h3, h5]
    · by_cases h2 : 2 * did ≤ i
      · have h3 : (i - 2 * did = 0 ∨ i - 2 * did = 1 ∨ i - 2 * did = 3) ↔ i - 2 * did < 2 := by
          omega
        simp [h3]
      · simp [h2]

/-- C21, the code at the failing input, and what `set_domain` writes in
general. With every domain in manager mode (`0xFFFFFFFF`) the call
`set_domain(0, DOMAIN_CLIENT)` of `mem_init` writes `0xFFFFFFF5`, where
`(old & ~(0b11 << 0)) | (1 << 0)` is `0xFFFFFFFD`: the field of domain 0 is 01,
and the field of domain 1 has gone from 11 to 01. For every 32-bit `old`, every
`did <= 15` and every `priv < 4` the value written is a 32-bit value in which
the field of domain `did` is `priv`, the field of domain `did + 1` has lost
its high bit, and every other field is as in `old`; it is the value of the
specification exactly when `did` is 15 or bit `2 * did + 3` of `old` is
clear. -/
theorem set_domain_clears_bit_of_next_domain :
    set_domain 0xFFFFFFFF 0 DOMAIN_CLIENT = 0xFFFFFFF5 ∧
    set_domain_spec 0xFFFFFFFF 0 DOMAIN_CLIENT = 0xFFFFFFFD ∧
    domain_field (set_domain 0xFFFFFFFF 0 DOMAIN_CLIENT) 0 = DOMAIN_CLIENT ∧
    domain_field 0xFFFFFFFF 1 = DOMAIN_MANAGER ∧
    domain_field (set_domain 0xFFFFFFFF 0 DOMAIN_CLIENT) 1 = DOMAIN_CLIENT ∧
    (∀ old did priv, old < 4294967296 → did ≤ 15 → priv < 4 →
      set_domain old did priv < 4294967296 ∧
      domain_field (set_domain old did priv) did = priv ∧
      (∀ d, d ≠ did → d ≠ did + 1 →
        domain_field (set_domain old did priv) d = domain_field old d) ∧
      domain_field (set_domain old did priv) (did + 1) = domain_field old (did + 1) &&& 1 ∧
      (set_domain old did priv = set_domain_spec old did priv ↔
        did = 15 ∨ old.testBit (2 * did + 3) = false)) := by
  refine ⟨by decide, by decide, by decide, by decide, by decide, ?_⟩
  intro old did priv ho hd hp
  exact ⟨set_domain_lt old did priv, set_domain_field_written old did priv hd hp,
    fun d h1 h2 => set_domain_field_other old did priv d ho hp h1 h2,
    set_domain_field_next old did priv ho hp, set_domain_eq_spec_iff old did priv hd hp⟩


/-! ## The outcomes of `page_insert`, within `pages[]` -/

theorem set_ref_store_pages (x : State) (a b pp r q : Nat) (hq : q ≠ pp) :
    ((x.store a b).set_ref pp r).pages q = x.pages q := by
  simp [State.set_ref, State.store, hq]

/-- With the frame inserted and the frame found mapped at the address both in
`pages[]`, and the head of the free list in `pages[]`, `page_insert` changes
no descriptor of index `NPAGES` or more: the descriptors it works on (the
frame inserted, the frame taken for a table, the frame unmapped) are
descriptors the program has. -/
theorem page_insert_within_pages (s : State) (d pp va perm : Nat)
    (hca : u32 s.tbl % PGSIZE = 0) (hhd : ∀ pg, s.page_free_list = some pg → pg < NPAGES)
    (hpp : pp < NPAGES)
    (hmap : ∀ g pte s1, page_lookup s d va = .ret (some g, pte) s1 → g < NPAGES) :
    ∀ q, NPAGES ≤ q → (page_insert s d pp va perm).state.pages q = s.pages q := by
  intro q hq
  have hqpp : q ≠ pp := by omega
  obtain ⟨o1, o2, _⟩ := page_insert_outcome s d pp va perm hca hhd
  by_cases hp : s.pgdir d (PDX va) &&& PTE_P = 0
  · rcases hfl : s.page_free_list with _ | pg
    · rw [o1 hp hfl]; rfl
    · have hpg := hhd pg hfl
      have hk := page2kva_of_lt pg hpg
      have hw := pgdir_walk_new_table s d va 1 pg _ (by decide) hp hca hfl hk
      have h0 : pg * 4096 + 4026531840 + 4 * PTX va ≠ 0 := by omega
      rw [page_insert_after_walk s _ d pp va perm _ hw h0]
      have hw0 := pgdir_walk_create_post s _ d va 1 _ hw h0
      rw [page_insert_eq _ d pp va perm _ (by rw [hw0]; rfl) h0, Result.state_ret,
        set_ref_store_pages _ _ _ _ _ _ hqpp]
      have hz : ¬ ((s.with_new_table d va pg (pg * 4096 + 4026531840)).mem
          (pg * 4096 + 4026531840 + 4 * PTX va) &&& PTE_P ≠ 0) := by
        rw [new_table_slot_zero]; decide
      rw [if_neg hz]
      have hqpg : q ≠ pg := by omega
      simp only [State.with_new_table, hqpg, if_false]
  · rcases hk : KADDR (PDE_ADDR (s.pgdir d (PDX va))) with _ | t
    · rw [o2 hp hk]; rfl
    · have hw : (pgdir_walk s d va 0).val = some (t + 4 * PTX va) := by
        rw [pgdir_walk_present s d va 0 hp, pgdir_walk_slot_some s d va t hk]; rfl
      have h0 := (slot_facts _ va t hk).2.1
      rw [page_insert_eq s d pp va perm _ hw h0, Result.state_ret,
        set_ref_store_pages _ _ _ _ _ _ hqpp]
      by_cases hpres : s.mem (t + 4 * PTX va) &&& PTE_P ≠ 0
      · rw [if_pos hpres]
        by_cases hsame : PTE_SMALL_ADDR (s.mem (t + 4 * PTX va)) = page2pa pp
        · rw [if_pos hsame]
          simp [State.set_ref, hqpp]
        · rw [if_neg hsame]
          have hg := hmap _ _ s (page_lookup_mapped s d va _ hw h0 hpres)
          exact (page_remove_pages s d va _ hw h0 hpres).2 q (by omega)
      · rw [if_neg hpres]

/-- C5, amended. With the cursor of `pgtbl_alloc` page-aligned (as it is at
boot and after every call), the head of the free list a descriptor of
`pages[]`, the frame `pp` a descriptor of `pages[]`, and the frame that
`page_lookup` finds mapped at the address, if any, a descriptor of `pages[]`:
`page_insert` returns `-E_NO_MEM` exactly when the directory entry of `va` has
its present bits clear and the free list is empty; it panics exactly when the
entry is present and `KADDR` rejects the table address it holds; it returns 0
in every other case; and it changes no descriptor of index `NPAGES` or more,
which the program does not have. In particular, once a walk has created a
table for another directory slot, an insert at an address whose directory slot
has no table fails when the free list is empty. -/
theorem page_insert_no_mem (s : State) (pgdir pp va perm : Nat)
    (hca : u32 s.tbl % PGSIZE = 0) (hhd : ∀ pg, s.page_free_list = some pg → pg < NPAGES)
    (hpp : pp < NPAGES)
    (hmap : ∀ g pte s1, page_lookup s pgdir va = .ret (some g, pte) s1 → g < NPAGES) :
    ((page_insert s pgdir pp va perm).val = some (-(E_NO_MEM : Int)) ↔
      (s.pgdir pgdir (PDX va) &&& PTE_P = 0 ∧ s.page_free_list = none)) ∧
    ((page_insert s pgdir pp va perm).panics = true ↔
      (s.pgdir pgdir (PDX va) &&& PTE_P ≠ 0 ∧
        KADDR (PDE_ADDR (s.pgdir pgdir (PDX va))) = none)) ∧
    ((page_insert s pgdir pp va perm).val = some 0 ↔
      (¬ (s.pgdir pgdir (PDX va) &&& PTE_P = 0 ∧ s.page_free_list = none) ∧
        ¬ (s.pgdir pgdir (PDX va) &&& PTE_P ≠ 0 ∧
          KADDR (PDE_ADDR (s.pgdir pgdir (PDX va))) = none))) ∧
    (∀ q, NPAGES ≤ q → (page_insert s pgdir pp va perm).state.pages q = s.pages q) ∧
    (∀ va2 pp2 perm2, (pgdir_walk s pgdir va 1).state.page_free_list = none →
      (pgdir_walk s pgdir va 1).state.pgdir pgdir (PDX va2) &&& PTE_P = 0 →
      (page_insert (pgdir_walk s pgdir va 1).state pgdir pp2 va2 perm2).val =
        some (-(E_NO_MEM : Int))) := by
  obtain ⟨o1, o2, o3⟩ := page_insert_outcome s pgdir pp va perm hca hhd
  have hne : (-(E_NO_MEM : Int)) ≠ 0 := by decide
  refine ⟨?_, ?_, ?_, page_insert_within_pages s pgdir pp va perm hca hhd hpp hmap, ?_⟩
  · by_cases c1 : s.pgdir pgdir (PDX va) &&& PTE_P = 0 ∧ s.page_free_list = none
    · rw [o1 c1.1 c1.2]; simp [Result.val, c1]
    · by_cases c2 : s.pgdir pgdir (PDX va) &&& PTE_P ≠ 0 ∧
          KADDR (PDE_ADDR (s.pgdir pgdir (PDX va))) = none
      · rw [o2 c2.1 c2.2]; simp [Result.val, c1]
      · rw [o3 c1 c2]; simp [c1, hne.symm]
  · by_cases c1 : s.pgdir pgdir (PDX va) &&& PTE_P = 0 ∧ s.page_free_list = none
    · rw [o1 c1.1 c1.2]; simp [Result.panics, c1.1]
    · by_cases c2 : s.pgdir pgdir (PDX va) &&& PTE_P ≠ 0 ∧
          KADDR (PDE_ADDR (s.pgdir pgdir (PDX va))) = none
      · rw [o2 c2.1 c2.2]; simp [Result.panics, c2.2]; exact c2.1
      · have h := o3 c1 c2
        rcases hr : page_insert s pgdir pp va perm with ⟨v, s'⟩ | s'
        · simp only [Result.panics, Bool.false_eq_true, false_iff]; exact c2
        · rw [hr] at h; simp [Result.val] at h
  · by_cases c1 : s.pgdir pgdir (PDX va) &&& PTE_P = 0 ∧ s.page_free_list = none
    · rw [o1 c1.1 c1.2]; simp [Result.val, c1, hne]
    · by_cases c2 : s.pgdir pgdir (PDX va) &&& PTE_P ≠ 0 ∧
          KADDR (PDE_ADDR (s.pgdir pgdir (PDX va))) = none
      · rw [o2 c2.1 c2.2]; simp [Result.val, c2.2]; exact fun _ => c2.1
      · rw [o3 c1 c2]; simp only [true_iff]; exact ⟨c1, c2⟩
  · intro va2 pp2 perm2 hfl hp
    have hca1 := pgdir_walk_cursor s pgdir va 1 hca
    rw [(page_insert_outcome _ pgdir pp2 va2 perm2 hca1
      (fun pg h => by rw [hfl] at h; exact absurd h (by simp))).1 hp hfl]
    rfl

/-- Witness for C5: frame 10 inserted at address 0 of `check_page_413`, where
frame 11 is mapped through the table in frame 12 and the free list is empty:
the insert replaces the mapping and returns 0. -/
theorem page_insert_no_mem_witness :
    (u32 check_page_413.tbl % PGSIZE = 0 ∧
      (∀ pg, check_page_413.page_free_list = some pg → pg < NPAGES) ∧ 10 < NPAGES ∧
      (page_lookup check_page_413 0 0).val = some (some 11, 0xF000C000) ∧
      (∀ g pte s1, page_lookup check_page_413 0 0 = .ret (some g, pte) s1 → g < NPAGES)) ∧
    (((page_insert check_page_413 0 10 0 PTE_NONE_U).val = some (-(E_NO_MEM : Int)) ↔
      (check_page_413.pgdir 0 (PDX 0) &&& PTE_P = 0 ∧ check_page_413.page_free_list = none)) ∧
    ((page_insert check_page_413 0 10 0 PTE_NONE_U).panics = true ↔
      (check_page_413.pgdir 0 (PDX 0) &&& PTE_P ≠ 0 ∧
        KADDR (PDE_ADDR (check_page_413.pgdir 0 (PDX 0))) = none)) ∧
    ((page_insert check_page_413 0 10 0 PTE_NONE_U).val = some 0 ↔
      (¬ (check_page_413.pgdir 0 (PDX 0) &&& PTE_P = 0 ∧
          check_page_413.page_free_list = none) ∧
        ¬ (check_page_413.pgdir 0 (PDX 0) &&& PTE_P ≠ 0 ∧
          KADDR (PDE_ADDR (check_page_413.pgdir 0 (PDX 0))) = none))) ∧
    (∀ q, NPAGES ≤ q →
      (page_insert check_page_413 0 10 0 PTE_NONE_U).state.pages q = check_page_413.pages q) ∧
    (∀ va2 pp2 perm2, (pgdir_walk check_page_413 0 0 1).state.page_free_list = none →
      (pgdir_walk check_page_413 0 0 1).state.pgdir 0 (PDX va2) &&& PTE_P = 0 →
      (page_insert (pgdir_walk check_page_413 0 0 1).state 0 pp2 va2 perm2).val =
        some (-(E_NO_MEM : Int)))) := by
  have hfl : check_page_413.page_free_list = none := by decide
  have hhd : ∀ pg, check_page_413.page_free_list = some pg → pg < NPAGES := by
    intro pg h
    rw [hfl] at h
    cases h
  have hv : (page_lookup check_page_413 0 0).val = some (some 11, 0xF000C000) := by decide
  have hmap : ∀ g pte s1, page_lookup check_page_413 0 0 = .ret (some g, pte) s1 →
      g < NPAGES := by
    intro g pte s1 h
    rw [h] at hv
    have e : g = 11 := by
      simp only [Result.val, Option.some.injEq, Prod.mk.injEq] at hv
      exact hv.1
    subst e
    decide
  exact ⟨⟨by decide, hhd, by decide, hv, hmap⟩,
    page_insert_no_mem check_page_413 0 10 0 PTE_NONE_U (by decide) hhd (by decide) hmap⟩

end JOS
